import Mathlib

/-!
# projectM Milkdrop preset: frame pipeline, composite shader fallback, composite mesh

A shallow embedding of `MilkdropPreset.cpp` and `FinalComposite.cpp`.

* Code of the repository that the two files call but that is not part of them
  (the framebuffer, the shader object, the expression contexts, the C math
  library) is taken as a parameter: a record of operations.
* A C++ function that mutates its object and may throw becomes a function from
  the old state to `Except Exception` of the new state.
* Drawing is observed through a trace: every call that `RenderFrame` makes on a
  collaborator appends one `PassEvent`.
* `float` geometry is embedded in exact arithmetic over an ordered field `K`;
  `double` expression values are rationals extended by the infinities and NaN.
-/

namespace ProjectM

/-! ## Expression values -/

/-- A value of the expression engine's number type (`PRJM_EVAL_F`, a C `double`):
a finite value is a rational number, next to the two infinities and NaN. -/
inductive EvalF where
  | nan
  | negInf
  | posInf
  | fin (q : ℚ)
deriving DecidableEq

namespace EvalF

/-- The comparison `a < b` of two doubles: false as soon as one side is NaN. -/
def lt : EvalF → EvalF → Bool
  | fin a, fin b => decide (a < b)
  | negInf, fin _ => true
  | negInf, posInf => true
  | fin _, posInf => true
  | _, _ => false

/-- The function `std::min(a, b)`, which is `(b < a) ? b : a`. -/
def stdMin (a b : EvalF) : EvalF := if lt b a then b else a

/-- The function `std::max(a, b)`, which is `(a < b) ? b : a`. -/
def stdMax (a b : EvalF) : EvalF := if lt a b then b else a

end EvalF

/-- The `double` literal `0.001`: the double nearest to one thousandth. -/
def lit0001 : ℚ := 1152921504606847 / 1152921504606846976

/-- The variables of the per-frame context that `MilkdropPreset.cpp` reads or
writes itself (each a pointer into the expression engine's variable table). -/
structure PerFrameContext where
  gamma : EvalF
  echo_zoom : EvalF
  darken_center : EvalF
deriving DecidableEq

/-! ## Preset state and collaborators -/

/-- What a C++ call may throw. A handler `catch (ShaderException&)` catches the
first kind only; every other exception passes through it. -/
inductive Exception where
  | ShaderException (message : String)
  | other (what : String)
deriving DecidableEq

/-- The fields of `RenderContext` that the two files read. -/
structure RenderContext (K : Type) where
  viewportSizeX : Int
  viewportSizeY : Int
  aspectX : K
  aspectY : K

/-- The fields of `PresetState` that the two files read or write. `mainTexture` is
a weak reference to a colour attachment, named by (framebuffer index, attachment
index); `none` is the expired reference. -/
structure PresetState (K Audio : Type) where
  audioData : Audio
  renderContext : RenderContext K
  mainTexture : Option (Nat × Nat)
  compositeShaderVersion : Int
  compositeShader : String
  warpShader : String

/-- The code that `MilkdropPreset.cpp` and `FinalComposite.cpp` call and that lives
in other files: the collaborators' state types and the operations on them.

* `SetSize` is `Framebuffer::SetSize`: the answer and the framebuffer it leaves.
* `newCompositeShader` is
  `std::make_unique<MilkdropShader>(MilkdropShader::ShaderType::CompositeShader)`.
* `LoadCode` and `LoadTexturesAndCompile` are the methods of `MilkdropShader`; they
  return the shader object they leave, or throw.
* `CompileWarpShader` is the method of `PerPixelMesh`.
* The next four are the methods of the two expression contexts.
* `sqrtf` and `atan2f` are the C math library's; `atan2f y x` takes `y` first. -/
structure Env (K : Type) where
  Audio : Type
  Framebuffer : Type
  MilkdropShader : Type
  PerPixelContext : Type
  PerPixelMesh : Type
  SetSize : Framebuffer → Int → Int → Bool × Framebuffer
  newCompositeShader : MilkdropShader
  LoadCode : MilkdropShader → String → Except Exception MilkdropShader
  LoadTexturesAndCompile :
    MilkdropShader → PresetState K Audio → Except Exception MilkdropShader
  CompileWarpShader : PerPixelMesh → PresetState K Audio → Except Exception PerPixelMesh
  LoadStateVariables : PresetState K Audio → PerFrameContext → PerFrameContext
  LoadStateReadOnlyVariables :
    PresetState K Audio → PerFrameContext → PerPixelContext → PerPixelContext
  ExecutePerFrameCode : PerFrameContext → PerFrameContext
  LoadPerFrameQVariables :
    PresetState K Audio → PerFrameContext → PerPixelContext → PerPixelContext
  sqrtf : K → K
  atan2f : K → K → K

/-- The two clamps at the end of `PerFrameUpdate` (lines 164 and 165). -/
def clampGammaAndEchoZoom (c : PerFrameContext) : PerFrameContext :=
  let c1 := { c with gamma := EvalF.stdMax (.fin 0) (EvalF.stdMin (.fin 8) c.gamma) }
  { c1 with echo_zoom := EvalF.stdMax (.fin lit0001) (EvalF.stdMin (.fin 1000) c1.echo_zoom) }

/-- The per-frame context as `ExecutePerFrameCode` leaves it in `PerFrameUpdate`,
before the clamps. -/
def perFrameCodeResult {K : Type} (E : Env K) (m_state : PresetState K E.Audio)
    (m_perFrameContext : PerFrameContext) : PerFrameContext :=
  E.ExecutePerFrameCode (E.LoadStateVariables m_state m_perFrameContext)

/-- The method `MilkdropPreset::PerFrameUpdate`, on the per-frame and per-pixel contexts. -/
def PerFrameUpdate {K : Type} (E : Env K) (m_state : PresetState K E.Audio)
    (ctx : PerFrameContext × E.PerPixelContext) : PerFrameContext × E.PerPixelContext :=
  let pf1 := E.LoadStateVariables m_state ctx.1
  let pp1 := E.LoadStateReadOnlyVariables m_state pf1 ctx.2
  let pf2 := E.ExecutePerFrameCode pf1
  let pp2 := E.LoadPerFrameQVariables m_state pf2 pp1
  (clampGammaAndEchoZoom pf2, pp2)

/-! ## Final composite: shader loading with fallback -/

/-- One vertex of the composite mesh (`MeshVertex`). -/
structure MeshVertex (K : Type) where
  x : K
  y : K
  r : K
  g : K
  b : K
  a : K
  u : K
  v : K
  radius : K
  angle : K

/-- The members of `FinalComposite` that its methods use. The two `std::array`s are
given by their contents at each position; their fixed length is declared in the
header. `m_compositeShader` is the `unique_ptr`, `none` when null. -/
structure FinalComposite (K Shader : Type) where
  m_compositeShader : Option Shader
  m_viewportWidth : Int
  m_viewportHeight : Int
  m_vertices : Nat → MeshVertex K
  m_indices : Nat → Int

/-- The constant `defaultCompositeShader` (line 7). -/
def defaultCompositeShader : String :=
  "shader_body\n\x7b\nret = tex2D(sampler_main, uv).xyz;\n\x7d"

/-- The method `FinalComposite::LoadCompositeShader`. -/
def LoadCompositeShader {K : Type} (E : Env K) (presetState : PresetState K E.Audio)
    (self : FinalComposite K E.MilkdropShader) :
    Except Exception (FinalComposite K E.MilkdropShader) :=
  if presetState.compositeShaderVersion > 0 then
    if presetState.warpShader ≠ "" then
      match E.LoadCode E.newCompositeShader presetState.compositeShader with
      | .ok s => .ok { self with m_compositeShader := some s }
      | .error (.ShaderException _) =>
        -- Fall back to default shader
        match E.LoadCode E.newCompositeShader defaultCompositeShader with
        | .ok s => .ok { self with m_compositeShader := some s }
        | .error e => .error e
      | .error e => .error e
    else
      match E.LoadCode E.newCompositeShader defaultCompositeShader with
      | .ok s => .ok { self with m_compositeShader := some s }
      | .error e => .error e
  else
    .ok self

/-- The method `FinalComposite::CompileCompositeShader`. -/
def CompileCompositeShader {K : Type} (E : Env K) (presetState : PresetState K E.Audio)
    (self : FinalComposite K E.MilkdropShader) :
    Except Exception (FinalComposite K E.MilkdropShader) :=
  match self.m_compositeShader with
  | none => .ok self
  | some shader =>
    match E.LoadTexturesAndCompile shader presetState with
    | .ok s => .ok { self with m_compositeShader := some s }
    | .error (.ShaderException _) =>
      -- Fall back to default shader
      match E.LoadCode E.newCompositeShader defaultCompositeShader with
      | .ok d =>
        match E.LoadTexturesAndCompile d presetState with
        | .ok s => .ok { self with m_compositeShader := some s }
        | .error e => .error e
      | .error e => .error e
    | .error e => .error e

/-! ## Final composite: the mesh -/

/-- A call that the frame makes on a collaborator or on OpenGL, as it appears in the
trace of a frame. Framebuffer indices and attachment indices are numbers.
`MotionVectorsDraw f a` is the call of `m_motionVectors.Draw` that gets the texture
of attachment `a` of framebuffer `f` as its argument. -/
inductive PassEvent where
  | PerFrameUpdate
  | Bind (framebuffer : Nat)
  | MotionVectorsDraw (framebuffer attachment : Nat)
  | BindRead (framebuffer : Nat)
  | BindDraw (framebuffer : Nat)
  | MaskDrawBuffer (bufferIndex : Nat) (masked : Bool)
  | glClearColor
  | glClear
  | PerPixelMeshDraw
  | BlurTextureUpdate
  | CustomShapeDraw (index : Nat)
  | CustomWaveformDraw (index : Nat)
  | WaveformDraw
  | DarkenCenterDraw
  | BorderDraw
  | FinalCompositeDraw
  | glBindVertexArray (bound : Bool)
  | glBufferData
  | glBindFramebufferDraw0
  | glBlitFramebuffer (width height : Int)
deriving DecidableEq

section Mesh

variable {K : Type} [LinearOrderedField K]

/-- The constant `PI` of `InitializeMesh` (line 107). -/
def PI : K := 3.1415926535898

/-- The method `FinalComposite::SquishToCenter`; `powf` with the whole exponent that the
callers pass is the repeated product. -/
def SquishToCenter (x : K) (exponent : ℕ) : K :=
  if x > 0.5 then
    (x * 2 - 1) ^ exponent * 0.5 + 0.5
  else
    (1 - (1 - x * 2) ^ exponent) * 0.5

/-- The method `FinalComposite::UvToMathSpace`: the pair (`rad`, `ang`) it writes.
The sum of line 291 is the exact one; the `float` sum of the source is rounded, and
for a negative angle next to 0 its result can be the added constant itself. -/
def UvToMathSpace (E : Env K) (aspectX aspectY u v : K) : K × K :=
  let px := (u * 2 - 1) * aspectX
  let py := (v * 2 - 1) * aspectY
  let rad := E.sqrtf (px * px + py * py) / E.sqrtf (aspectX * aspectX + aspectY * aspectY)
  let ang := E.atan2f py px
  (rad, if ang < 0 then ang + 6.2831853071796 else ang)

/-- The angle of `UvToMathSpace` when the sum of line 291 is rounded by `round`, as
the sum of two `float` values is; with the identity for `round` it is the angle of
`UvToMathSpace`. -/
def roundedAngle (round : K → K) (E : Env K) (aspectX aspectY u v : K) : K :=
  let px := (u * 2 - 1) * aspectX
  let py := (v * 2 - 1) * aspectY
  let ang := E.atan2f py px
  if ang < 0 then round (ang + 6.2831853071796) else ang

/-- The fix-ups of lines 131 to 203: the angle stored for grid position
(`gridX`, `gridY`), given the angle `ang` that `UvToMathSpace` computed. -/
def fixupAngle (W H gridX gridY : ℕ) (ang : K) : K :=
  if gridX = W / 2 - 1 then
    if gridY < H / 2 - 1 then PI * 1.5
    else if gridY = H / 2 - 1 then PI * 1.25
    else if gridY = H / 2 then PI * 0.75
    else PI * 0.5
  else if gridX = W / 2 then
    if gridY < H / 2 - 1 then PI * 1.5
    else if gridY = H / 2 - 1 then PI * 1.75
    else if gridY = H / 2 then PI * 0.25
    else PI * 0.5
  else if gridY = H / 2 - 1 then
    if gridX < W / 2 - 1 then PI * 1.0
    else if gridX = W / 2 - 1 then PI * 1.25
    else if gridX = W / 2 then PI * 1.75
    else PI * 2.0
  else if gridY = H / 2 then
    if gridX < W / 2 - 1 then PI * 1.0
    else if gridX = W / 2 - 1 then PI * 0.75
    else if gridX = W / 2 then PI * 0.25
    else PI * 0.0
  else ang

/-- The fix-ups with the row tests applied before the column tests: the table of
the seam angles read by rows first. -/
def fixupAngleRowsFirst (W H gridX gridY : ℕ) (ang : K) : K :=
  if gridY = H / 2 - 1 then
    if gridX < W / 2 - 1 then PI * 1.0
    else if gridX = W / 2 - 1 then PI * 1.25
    else if gridX = W / 2 then PI * 1.75
    else PI * 2.0
  else if gridY = H / 2 then
    if gridX < W / 2 - 1 then PI * 1.0
    else if gridX = W / 2 - 1 then PI * 0.75
    else if gridX = W / 2 then PI * 0.25
    else PI * 0.0
  else if gridX = W / 2 - 1 then
    if gridY < H / 2 - 1 then PI * 1.5
    else if gridY = H / 2 - 1 then PI * 1.25
    else if gridY = H / 2 then PI * 0.75
    else PI * 0.5
  else if gridX = W / 2 then
    if gridY < H / 2 - 1 then PI * 1.5
    else if gridY = H / 2 - 1 then PI * 1.75
    else if gridY = H / 2 then PI * 0.25
    else PI * 0.5
  else ang

/-- The centred coordinate of grid index `g` on an axis of `N` vertices: the folded
index times the step, doubled, minus one; `SquishToCenter` at exponent 3 sends it to
its cube. -/
def centred (N g : ℕ) : K :=
  ((g - g / (N / 2) : ℕ) : K) * (1.0 / ((N - 2 : ℕ) : K)) * 2 - 1

/-- The value `v` of the outer vertex loop (lines 111 to 113) for row `gridY`. -/
def rowV (H gridY : ℕ) : K :=
  let dividedByY : K := 1.0 / ((H - 2 : ℕ) : K)
  let gridY2 : ℕ := gridY - gridY / (H / 2)
  SquishToCenter ((gridY2 : K) * dividedByY) 3

/-- The value `u` of the inner vertex loop (lines 117 to 119) for column `gridX`. -/
def colU (W gridX : ℕ) : K :=
  let dividedByX : K := 1.0 / ((W - 2 : ℕ) : K)
  let i2 : ℕ := gridX - gridX / (W / 2)
  SquishToCenter ((i2 : K) * dividedByX) 3

/-- The body of the inner vertex loop (lines 117 to 208): what is stored into
`pComp`, the vertex at position `gridX + gridY * compositeGridWidth`. -/
def writeVertex (E : Env K) (W H : ℕ) (aspectX aspectY : K) (gridX gridY : ℕ)
    (pComp : MeshVertex K) : MeshVertex K :=
  let v : K := rowV H gridY
  let sy : K := -(v * 2 - 1)
  let u : K := colU W gridX
  let sx : K := u * 2 - 1
  let radAng := UvToMathSpace E aspectX aspectY u v
  let ang := fixupAngle W H gridX gridY radAng.2
  { pComp with x := sx, y := sy, u := u, v := v, radius := radAng.1, angle := ang }

/-- The vertex loops of `InitializeMesh` (lines 109 to 210). -/
def writeVertices (E : Env K) (W H : ℕ) (aspectX aspectY : K)
    (m_vertices : ℕ → MeshVertex K) : ℕ → MeshVertex K :=
  (List.range H).foldl
    (fun vertices gridY =>
      (List.range W).foldl
        (fun vertices gridX =>
          Function.update vertices (gridX + gridY * W)
            (writeVertex E W H aspectX aspectY gridX gridY (vertices (gridX + gridY * W))))
        vertices)
    m_vertices

/-- The six indices written for one cell (lines 229 to 251), in the order of the
positions `currentIndex + 0` to `currentIndex + 5`. -/
def cellIndices (W H gridX gridY : ℕ) : List Int :=
  let leftHalf : Bool := decide (gridX < W / 2)
  let topHalf : Bool := decide (gridY < H / 2)
  let center4 : Bool :=
    (decide (gridX = W / 2) || decide (gridX = W / 2 - 1)) &&
      (decide (gridY = H / 2) || decide (gridY = H / 2 - 1))
  if (leftHalf.toNat + topHalf.toNat + center4.toNat) % 2 = 1 then
    [(gridY * W + gridX : ℕ), (gridY * W + gridX + 1 : ℕ), ((gridY + 1) * W + gridX + 1 : ℕ),
     ((gridY + 1) * W + gridX + 1 : ℕ), ((gridY + 1) * W + gridX : ℕ), (gridY * W + gridX : ℕ)]
  else
    [((gridY + 1) * W + gridX : ℕ), (gridY * W + gridX : ℕ), (gridY * W + (gridX + 1) : ℕ),
     (gridY * W + (gridX + 1) : ℕ), ((gridY + 1) * W + (gridX + 1) : ℕ),
     ((gridY + 1) * W + gridX : ℕ)]

/-- Storing `values` into `m_indices` at `currentIndex`, `currentIndex + 1`, ... -/
def storeIndices (m_indices : ℕ → Int) (currentIndex : ℕ) : List Int → ℕ → Int
  | [] => m_indices
  | value :: rest =>
    storeIndices (Function.update m_indices currentIndex value) (currentIndex + 1) rest

/-- The index loops of `InitializeMesh` (lines 214 to 255): the index array and
the final value of `currentIndex`. -/
def writeIndices (W H : ℕ) (m_indices : ℕ → Int) : (ℕ → Int) × ℕ :=
  (List.range (H - 1)).foldl
    (fun acc gridY =>
      if gridY = H / 2 - 1 then acc
      else
        (List.range (W - 1)).foldl
          (fun acc gridX =>
            if gridX = W / 2 - 1 then acc
            else (storeIndices acc.1 acc.2 (cellIndices W H gridX gridY), acc.2 + 6))
          acc)
    (m_indices, 0)

/-- The method `FinalComposite::InitializeMesh` for the grid size
`compositeGridWidth` = `W`, `compositeGridHeight` = `H` of the header: the object
it leaves and the OpenGL calls it made. -/
def InitializeMesh (E : Env K) (W H : ℕ) (presetState : PresetState K E.Audio)
    (self : FinalComposite K E.MilkdropShader) :
    FinalComposite K E.MilkdropShader × List PassEvent :=
  if self.m_viewportWidth = presetState.renderContext.viewportSizeX ∧
      self.m_viewportHeight = presetState.renderContext.viewportSizeY then
    (self, [])
  else
    ({ self with
        m_vertices := writeVertices E W H presetState.renderContext.aspectX
          presetState.renderContext.aspectY self.m_vertices
        m_indices := (writeIndices W H self.m_indices).1 },
      [.glBindVertexArray true, .glBufferData, .glBindVertexArray false])

/-- The method `FinalComposite::Draw`. -/
def FinalComposite.Draw (E : Env K) (W H : ℕ) (presetState : PresetState K E.Audio)
    (self : FinalComposite K E.MilkdropShader) :
    FinalComposite K E.MilkdropShader × List PassEvent :=
  InitializeMesh E W H presetState self

end Mesh

/-! ## The compressed index of the vertex loops -/

/-- The local `i2` of the inner vertex loop of `InitializeMesh` (line 117), in the
`int` arithmetic of the source, whose division truncates. -/
def i2 (compositeGridWidth gridX : Int) : Int :=
  gridX - Int.tdiv gridX (Int.tdiv compositeGridWidth 2)

/-- The local `gridY2` of the outer vertex loop of `InitializeMesh` (line 111), in the
`int` arithmetic of the source, whose division truncates. -/
def gridY2 (compositeGridHeight gridY : Int) : Int :=
  gridY - Int.tdiv gridY (Int.tdiv compositeGridHeight 2)

/-! ## The index list of the mesh -/

/-- The cells for which the index loops write triangles, in the order of the loops:
row by row, the seam row `H / 2 - 1` and the seam column `W / 2 - 1` left out. -/
def emittedCells (W H : ℕ) : List (ℕ × ℕ) :=
  ((List.range (H - 1)).filter fun gridY => gridY ≠ H / 2 - 1).flatMap fun gridY =>
    ((List.range (W - 1)).filter fun gridX => gridX ≠ W / 2 - 1).map fun gridX => (gridX, gridY)

/-- The position of the vertex at grid position (`gridX`, `gridY`) in the vertex
array, as an index value. -/
def vertexIndex (W gridX gridY : ℕ) : Int := ((gridX + gridY * W : ℕ) : Int)

/-- The parity of a cell in the words of the specification: left half plus top half
plus centre four, modulo 2. -/
def cellParity (W H gridX gridY : ℕ) : ℕ :=
  ((if gridX < W / 2 then 1 else 0) + (if gridY < H / 2 then 1 else 0) +
    (if (gridX = W / 2 ∨ gridX = W / 2 - 1) ∧ (gridY = H / 2 ∨ gridY = H / 2 - 1) then 1
      else 0)) % 2

/-- The index values of the four corners of the cell (`gridX`, `gridY`): top left,
top right, bottom left, bottom right. -/
def cellCorners (W gridX gridY : ℕ) : List Int :=
  [vertexIndex W gridX gridY, vertexIndex W (gridX + 1) gridY,
    vertexIndex W gridX (gridY + 1), vertexIndex W (gridX + 1) (gridY + 1)]

/-! ## The preset: `Initialize` and `RenderFrame` -/

section Pipeline

variable {K : Type} [LinearOrderedField K]

/-- The members of `MilkdropPreset` that `Initialize` and `RenderFrame` use. The
two containers of custom shapes and custom waveforms are given by their lengths;
the framebuffer labels are the indices that the framebuffer's methods take. -/
structure MilkdropPreset (K : Type) (E : Env K) where
  m_state : PresetState K E.Audio
  m_framebuffer : E.Framebuffer
  m_currentFrameBuffer : ℕ
  m_previousFrameBuffer : ℕ
  m_isFirstFrame : Bool
  m_perFrameContext : PerFrameContext
  m_perPixelContext : E.PerPixelContext
  m_perPixelMesh : E.PerPixelMesh
  m_finalComposite : FinalComposite K E.MilkdropShader
  m_customShapes : ℕ
  m_customWaveforms : ℕ

/-- The method `MilkdropPreset::Initialize`. The assertion of line 57 is the caller's
obligation and has no counterpart here. -/
def Initialize (E : Env K) (renderContext : RenderContext K) (self : MilkdropPreset K E) :
    Except Exception (MilkdropPreset K E) :=
  let state1 := { self.m_state with renderContext := renderContext }
  -- Update framebuffer size if needed
  let framebuffer :=
    (E.SetSize self.m_framebuffer renderContext.viewportSizeX renderContext.viewportSizeY).2
  let state2 :=
    if state1.mainTexture = none then { state1 with mainTexture := some (1, 0) } else state1
  match E.CompileWarpShader self.m_perPixelMesh state2 with
  | .error e => .error e
  | .ok perPixelMesh =>
    match CompileCompositeShader E state2 self.m_finalComposite with
    | .error e => .error e
    | .ok finalComposite =>
      .ok { self with
            m_state := state2
            m_framebuffer := framebuffer
            m_perPixelMesh := perPixelMesh
            m_finalComposite := finalComposite }

/-- The method `MilkdropPreset::RenderFrame` for the composite grid size `W`, `H` of the
header: the preset it leaves and the trace of the calls it made, in order. -/
def RenderFrame (E : Env K) (W H : ℕ) (audioData : E.Audio) (renderContext : RenderContext K)
    (self : MilkdropPreset K E) : MilkdropPreset K E × List PassEvent :=
  let state1 := { self.m_state with audioData := audioData, renderContext := renderContext }
  -- Update framebuffer size if needed
  let sized := E.SetSize self.m_framebuffer renderContext.viewportSizeX renderContext.viewportSizeY
  let isFirstFrame : Bool := if sized.1 then true else self.m_isFirstFrame
  let state2 := { state1 with mainTexture := some (self.m_previousFrameBuffer, 0) }
  -- First evaluate per-frame code
  let contexts := PerFrameUpdate E state2 (self.m_perFrameContext, self.m_perPixelContext)
  -- Motion vector field.
  let motion : List PassEvent :=
    if !isFirstFrame then
      [.Bind self.m_previousFrameBuffer, .MotionVectorsDraw self.m_previousFrameBuffer 1]
    else []
  let warp : List PassEvent :=
    [.BindRead self.m_previousFrameBuffer, .BindDraw self.m_currentFrameBuffer,
     .MaskDrawBuffer 1 false, .glClearColor, .glClear, .PerPixelMeshDraw,
     .MaskDrawBuffer 1 true, .BlurTextureUpdate]
  -- Draw audio-data-related stuff
  let shapes : List PassEvent := (List.range self.m_customShapes).map .CustomShapeDraw
  let waves : List PassEvent := (List.range self.m_customWaveforms).map .CustomWaveformDraw
  let darken : List PassEvent :=
    if EvalF.lt (.fin 0) contexts.1.darken_center then [.DarkenCenterDraw] else []
  let state3 := { state2 with mainTexture := some (self.m_currentFrameBuffer, 0) }
  let composite := FinalComposite.Draw E W H state3 self.m_finalComposite
  let present : List PassEvent :=
    [.BindRead self.m_previousFrameBuffer, .glBindFramebufferDraw0,
     .glBlitFramebuffer renderContext.viewportSizeX renderContext.viewportSizeY]
  ({ self with
      m_state := state3
      m_framebuffer := sized.2
      -- Swap framebuffers for the next frame.
      m_currentFrameBuffer := self.m_previousFrameBuffer
      m_previousFrameBuffer := self.m_currentFrameBuffer
      m_isFirstFrame := false
      m_perFrameContext := contexts.1
      m_perPixelContext := contexts.2
      m_finalComposite := composite.1 },
    [.PerFrameUpdate] ++ motion ++ warp ++ shapes ++ waves ++ [.WaveformDraw] ++ darken ++
      [.BorderDraw, .BindRead self.m_currentFrameBuffer, .BindDraw self.m_previousFrameBuffer,
       .FinalCompositeDraw] ++ composite.2 ++ present)

/-- A sequence of `RenderFrame` calls, one for each (audio data, render context) of
the list: the preset after the last call and the trace of each call. -/
def renderFrames (E : Env K) (W H : ℕ) :
    List (E.Audio × RenderContext K) → MilkdropPreset K E →
      MilkdropPreset K E × List (List PassEvent)
  | [], self => (self, [])
  | frame :: frames, self =>
    let first := RenderFrame E W H frame.1 frame.2 self
    let rest := renderFrames E W H frames first.1
    (rest.1, first.2 :: rest.2)

end Pipeline

/-! ## The file name of a preset -/

/-- The constant `std::string::npos`, the largest value of `std::size_t`, which is
taken as 64 bits wide. -/
def npos : ℕ := 2 ^ 64 - 1

/-- The scan of `std::string::find_last_of` for one character: the positions below
`pos` are tried from the last one down to the first, and `npos` is the answer when
none holds the character. -/
def find_last_of_below (str : List Char) (ch : Char) : ℕ → ℕ
  | 0 => npos
  | pos + 1 => if str[pos]? = some ch then pos else find_last_of_below str ch pos

/-- The library function `std::string::find_last_of` with a single character: the
position of the last occurrence of `ch` in `str`, or `npos`. -/
def find_last_of (str : List Char) (ch : Char) : ℕ :=
  find_last_of_below str ch str.length

/-- The library function `std::string::substr`: `std::out_of_range` when `pos` is
beyond the length, otherwise the characters from `pos` on, at most `len` of them. -/
def substr (str : List Char) (pos len : ℕ) : Except Exception (List Char) :=
  if pos > str.length then .error (.other "std::out_of_range")
  else .ok ((str.drop pos).take len)

/-- The function `MilkdropPreset::ParseFilename` on a string given as the list of its
characters; the arithmetic on `std::size_t` wraps at 2^64. -/
def ParseFilename (filename : List Char) : Except Exception (List Char) :=
  let start := find_last_of filename '/'
  if start = npos ∨ start ≥ (filename.length + 2 ^ 64 - 1) % 2 ^ 64 then
    .ok []
  else
    substr filename ((start + 1) % 2 ^ 64) filename.length

/-! ## The passes of a frame -/

/-- The six passes of a frame that the pass order speaks of. -/
inductive Pass where
  | eval
  | motion
  | warp
  | overlays
  | composite
  | present
deriving DecidableEq

/-- The position of a pass in the fixed order. -/
def Pass.rank : Pass → ℕ
  | .eval => 0
  | .motion => 1
  | .warp => 2
  | .overlays => 3
  | .composite => 4
  | .present => 5

/-- The pass that a call of the trace belongs to; binding, masking and clearing
calls and the blur texture update are none of the six passes. -/
def PassEvent.pass : PassEvent → Option Pass
  | .PerFrameUpdate => some .eval
  | .MotionVectorsDraw _ _ => some .motion
  | .PerPixelMeshDraw => some .warp
  | .CustomShapeDraw _ => some .overlays
  | .CustomWaveformDraw _ => some .overlays
  | .WaveformDraw => some .overlays
  | .DarkenCenterDraw => some .overlays
  | .BorderDraw => some .overlays
  | .FinalCompositeDraw => some .composite
  | .glBlitFramebuffer _ _ => some .present
  | _ => none

/-- The passes of a trace, in the order in which the trace issues them. -/
def passesOf (trace : List PassEvent) : List Pass := trace.filterMap PassEvent.pass

/-- Whether a trace issues the motion-vector draw at all. -/
def issuesMotionVectors (trace : List PassEvent) : Bool :=
  trace.any fun e => match e with
    | .MotionVectorsDraw _ _ => true
    | _ => false

/-- The fixed pass order of one frame's trace: its passes never step back in the
order evaluation, motion vectors, warp, overlays, composite, copy to the output;
evaluation, warp, composite and copy occur once each, an overlay at least once,
and the motion vectors at most once. -/
def FixedPassOrder (trace : List PassEvent) : Prop :=
  ((passesOf trace).map Pass.rank).Sorted (· ≤ ·) ∧
  (passesOf trace).count .eval = 1 ∧
  (passesOf trace).count .motion ≤ 1 ∧
  (passesOf trace).count .warp = 1 ∧
  1 ≤ (passesOf trace).count .overlays ∧
  (passesOf trace).count .composite = 1 ∧
  (passesOf trace).count .present = 1

/-- The calls of a trace that draw an overlay, in the order of the trace. -/
def overlayEvents (trace : List PassEvent) : List PassEvent :=
  trace.filter fun e => e.pass = some .overlays

/-- The mask of draw buffer 1 that is in force when the first call `target` of a
trace is issued, given the mask in force before the trace: the argument of the
last `MaskDrawBuffer(1, _)` call before it. `none` when the trace has no such
call. -/
def maskInForceAt (masked : Bool) : List PassEvent → PassEvent → Option Bool
  | [], _ => none
  | e :: rest, target =>
    if e = target then some masked
    else
      maskInForceAt
        (match e with
          | .MaskDrawBuffer 1 mask => mask
          | _ => masked)
        rest target

/-- The mask of draw buffer 1 that a trace leaves in force, given the mask in force
before the trace: the argument of its last `MaskDrawBuffer(1, _)` call. -/
def maskAfter (masked : Bool) : List PassEvent → Bool
  | [] => masked
  | e :: rest =>
    maskAfter
      (match e with
        | .MaskDrawBuffer 1 mask => mask
        | _ => masked)
      rest

/-- The calls from binding the read and draw targets to the warp draw. -/
def warpSegment (read draw : ℕ) : List PassEvent :=
  [.BindRead read, .BindDraw draw, .MaskDrawBuffer 1 false, .glClearColor, .glClear,
    .PerPixelMeshDraw]

/-! ## A concrete set of collaborators -/

/-- A set of collaborators on which the model can be run. The framebuffer is its
size (width, height), and `SetSize` stores the size and answers whether it differs
from the stored one. A shader is the list of the sources loaded into it followed,
once compiled, by the word `compiled`; loading the source `error` and compiling a
shader loaded from the source `uncompilable` throw a `ShaderException`. The expression contexts are left as they are. -/
def traceEnv (K : Type) (sqrtf : K → K) (atan2f : K → K → K) : Env K where
  Audio := Unit
  Framebuffer := Int × Int
  MilkdropShader := List String
  PerPixelContext := Unit
  PerPixelMesh := Unit
  SetSize := fun fb width height => (decide (fb ≠ (width, height)), (width, height))
  newCompositeShader := []
  LoadCode := fun shader code =>
    if code = "error" then .error (.ShaderException "cannot load") else .ok (shader ++ [code])
  LoadTexturesAndCompile := fun shader _ =>
    if shader = ["uncompilable"] then .error (.ShaderException "cannot compile")
    else .ok (shader ++ ["compiled"])
  CompileWarpShader := fun mesh _ => .ok mesh
  LoadStateVariables := fun _ ctx => ctx
  LoadStateReadOnlyVariables := fun _ _ ctx => ctx
  ExecutePerFrameCode := fun ctx => ctx
  LoadPerFrameQVariables := fun _ _ ctx => ctx
  sqrtf := sqrtf
  atan2f := atan2f

/-- A sample preset state: viewport 640 by 480 with aspect ratios 1 and 0.75, a
declared composite shader and no shader text. -/
def sampleState (K : Type) [LinearOrderedField K] : PresetState K Unit where
  audioData := ()
  renderContext := { viewportSizeX := 640, viewportSizeY := 480, aspectX := 1.0, aspectY := 0.75 }
  mainTexture := none
  compositeShaderVersion := 1
  compositeShader := ""
  warpShader := ""

/-- A sample `FinalComposite` object: no shader, no viewport size recorded, all
vertices and indices zero. -/
def sampleComposite (K : Type) [LinearOrderedField K] : FinalComposite K (List String) where
  m_compositeShader := none
  m_viewportWidth := 0
  m_viewportHeight := 0
  m_vertices := fun _ => ⟨0, 0, 0, 0, 0, 0, 0, 0, 0, 0⟩
  m_indices := fun _ => 0

/-- A sample preset over the collaborators `traceEnv`: framebuffer 0 current and
framebuffer 1 previous, the first-frame flag set, a framebuffer without size, four
custom shapes and four custom waveforms. -/
def samplePreset (K : Type) [LinearOrderedField K] (sqrtf : K → K) (atan2f : K → K → K) :
    MilkdropPreset K (traceEnv K sqrtf atan2f) where
  m_state := sampleState K
  m_framebuffer := (0, 0)
  m_currentFrameBuffer := 0
  m_previousFrameBuffer := 1
  m_isFirstFrame := true
  m_perFrameContext := { gamma := .fin 1, echo_zoom := .fin 1, darken_center := .fin 0 }
  m_perPixelContext := ()
  m_perPixelMesh := ()
  m_finalComposite := sampleComposite K
  m_customShapes := 4
  m_customWaveforms := 4

/-- A render context of the given viewport size, with aspect ratios 1 and 0.75. -/
def sampleContext (K : Type) [LinearOrderedField K] (width height : Int) : RenderContext K where
  viewportSizeX := width
  viewportSizeY := height
  aspectX := 1.0
  aspectY := 0.75

/-- The collaborators `traceEnv` over the rationals, with stand-ins for the two
math functions, except that loading any shader source throws an exception that is
no `ShaderException`. -/
def brokenLoaderEnv : Env ℚ :=
  { traceEnv ℚ id (fun _ _ => 0) with LoadCode := fun _ _ => .error (.other "bad_alloc") }

/-- The sample preset with the default composite shader loaded, as
`LoadCompositeShader` leaves it for the sample state. -/
def loadedPreset : MilkdropPreset ℚ (traceEnv ℚ id fun _ _ => 0) :=
  { samplePreset ℚ id (fun _ _ => 0) with
    m_finalComposite :=
      { sampleComposite ℚ with m_compositeShader := some [defaultCompositeShader] } }

/-! ## Theorems -/

/-- The maximum of two finite values, the second of which is at least the first. -/
theorem EvalF.stdMax_fin_of_le {a b : ℚ} (h : a ≤ b) :
    EvalF.stdMax (.fin a) (.fin b) = .fin b := by
  rcases h.lt_or_eq with h | h
  · simp [EvalF.stdMax, EvalF.lt, h]
  · simp [EvalF.stdMax, EvalF.lt, h]

/-- The maximum of two finite values, the second of which is at most the first. -/
theorem EvalF.stdMax_fin_of_ge {a b : ℚ} (h : b ≤ a) :
    EvalF.stdMax (.fin a) (.fin b) = .fin a := by
  simp [EvalF.stdMax, EvalF.lt, not_lt.mpr h]

/-- The value of `std::min(hi, x)` for a finite bound: `x` when `x` is below the
bound (minus infinity included), the bound otherwise (NaN included). -/
theorem EvalF.stdMin_fin (hi : ℚ) (x : EvalF) :
    EvalF.stdMin (.fin hi) x =
      match x with
      | .fin q => .fin (min hi q)
      | .negInf => .negInf
      | _ => .fin hi := by
  cases x with
  | nan => simp [EvalF.stdMin, EvalF.lt]
  | negInf => simp [EvalF.stdMin, EvalF.lt]
  | posInf => simp [EvalF.stdMin, EvalF.lt]
  | fin q =>
    by_cases h : q < hi
    · simp [EvalF.stdMin, EvalF.lt, h, min_eq_right h.le]
    · simp [EvalF.stdMin, EvalF.lt, h, min_eq_left (not_lt.mp h)]

/-- The value that `std::max(lo, std::min(hi, x))` leaves, for finite bounds
`lo ≤ hi`: always a finite value between the bounds, and the mathematical clamp
of `x` when `x` is finite. -/
theorem EvalF.clamp_spec (lo hi : ℚ) (hle : lo ≤ hi) (x : EvalF) :
    (∃ q, EvalF.stdMax (.fin lo) (EvalF.stdMin (.fin hi) x) = .fin q ∧ lo ≤ q ∧ q ≤ hi) ∧
    (∀ q, x = .fin q →
      EvalF.stdMax (.fin lo) (EvalF.stdMin (.fin hi) x) = .fin (max lo (min hi q))) := by
  have hfin : ∀ q, EvalF.stdMax (.fin lo) (.fin (min hi q)) = .fin (max lo (min hi q)) := by
    intro q
    rcases le_total lo (min hi q) with h | h
    · rw [EvalF.stdMax_fin_of_le h, max_eq_right h]
    · rw [EvalF.stdMax_fin_of_ge h, max_eq_left h]
  constructor
  · rw [EvalF.stdMin_fin]
    cases x with
    | nan => exact ⟨hi, EvalF.stdMax_fin_of_le hle, hle, le_refl _⟩
    | negInf => exact ⟨lo, by simp [EvalF.stdMax, EvalF.lt], le_refl _, hle⟩
    | posInf => exact ⟨hi, EvalF.stdMax_fin_of_le hle, hle, le_refl _⟩
    | fin q => exact ⟨_, hfin q, le_max_left _ _, max_le hle (min_le_left _ _)⟩
  · rintro q rfl
    rw [EvalF.stdMin_fin]
    exact hfin q

/-- C4. After `PerFrameUpdate` the stored gamma is `std::max(0.0, std::min(8.0, g))`
and the stored echo zoom `std::max(0.001, std::min(1000.0, z))`, where `g` and `z` are
what the per-frame code left. Both are finite, gamma in [0, 8] and echo zoom in
[0.001, 1000], whatever was left (an infinity or NaN included); for finite `g`
and `z` they are the mathematical clamps, a value in range is unchanged, gamma -5
gives 0, gamma 50 gives 8, echo zoom 0 gives 0.001 and echo zoom 5000 gives 1000. -/
theorem PerFrameUpdate_clamps_gamma_and_echo_zoom {K : Type} (E : Env K)
    (m_state : PresetState K E.Audio) (ctx : PerFrameContext × E.PerPixelContext) :
    ((PerFrameUpdate E m_state ctx).1.gamma =
        EvalF.stdMax (.fin 0) (EvalF.stdMin (.fin 8) (perFrameCodeResult E m_state ctx.1).gamma) ∧
      (PerFrameUpdate E m_state ctx).1.echo_zoom =
        EvalF.stdMax (.fin lit0001)
          (EvalF.stdMin (.fin 1000) (perFrameCodeResult E m_state ctx.1).echo_zoom)) ∧
    (∃ g, (PerFrameUpdate E m_state ctx).1.gamma = .fin g ∧ 0 ≤ g ∧ g ≤ 8) ∧
    (∃ z, (PerFrameUpdate E m_state ctx).1.echo_zoom = .fin z ∧
      lit0001 ≤ z ∧ 1 / 1000 ≤ z ∧ z ≤ 1000) ∧
    (∀ g, (perFrameCodeResult E m_state ctx.1).gamma = .fin g →
      (PerFrameUpdate E m_state ctx).1.gamma = .fin (max 0 (min 8 g))) ∧
    (∀ z, (perFrameCodeResult E m_state ctx.1).echo_zoom = .fin z →
      (PerFrameUpdate E m_state ctx).1.echo_zoom = .fin (max lit0001 (min 1000 z))) ∧
    (∀ g, (perFrameCodeResult E m_state ctx.1).gamma = .fin g → 0 ≤ g → g ≤ 8 →
      (PerFrameUpdate E m_state ctx).1.gamma = .fin g) ∧
    (∀ z, (perFrameCodeResult E m_state ctx.1).echo_zoom = .fin z → lit0001 ≤ z → z ≤ 1000 →
      (PerFrameUpdate E m_state ctx).1.echo_zoom = .fin z) ∧
    ((perFrameCodeResult E m_state ctx.1).gamma = .fin (-5) →
      (PerFrameUpdate E m_state ctx).1.gamma = .fin 0) ∧
    ((perFrameCodeResult E m_state ctx.1).gamma = .fin 50 →
      (PerFrameUpdate E m_state ctx).1.gamma = .fin 8) ∧
    ((perFrameCodeResult E m_state ctx.1).echo_zoom = .fin 0 →
      (PerFrameUpdate E m_state ctx).1.echo_zoom = .fin lit0001) ∧
    ((perFrameCodeResult E m_state ctx.1).echo_zoom = .fin 5000 →
      (PerFrameUpdate E m_state ctx).1.echo_zoom = .fin 1000) := by
  have hg : (PerFrameUpdate E m_state ctx).1.gamma =
      EvalF.stdMax (.fin 0) (EvalF.stdMin (.fin 8) (perFrameCodeResult E m_state ctx.1).gamma) :=
    rfl
  have hz : (PerFrameUpdate E m_state ctx).1.echo_zoom =
      EvalF.stdMax (.fin lit0001)
        (EvalF.stdMin (.fin 1000) (perFrameCodeResult E m_state ctx.1).echo_zoom) := rfl
  have hlo : (1 : ℚ) / 1000 ≤ lit0001 := by norm_num [lit0001]
  have hhi : lit0001 ≤ (1000 : ℚ) := by norm_num [lit0001]
  have cg := EvalF.clamp_spec 0 8 (by norm_num) (perFrameCodeResult E m_state ctx.1).gamma
  have cz := EvalF.clamp_spec lit0001 1000 hhi (perFrameCodeResult E m_state ctx.1).echo_zoom
  rw [← hg] at cg
  rw [← hz] at cz
  refine ⟨⟨hg, hz⟩, cg.1, ?_, cg.2, cz.2, ?_, ?_, ?_, ?_, ?_, ?_⟩
  · obtain ⟨z, h1, h2, h3⟩ := cz.1
    exact ⟨z, h1, h2, hlo.trans h2, h3⟩
  · intro g h h0 h8
    rw [cg.2 g h, min_eq_right h8, max_eq_right h0]
  · intro z h h0 h8
    rw [cz.2 z h, min_eq_right h8, max_eq_right h0]
  · intro h
    rw [cg.2 _ h]
    norm_num
  · intro h
    rw [cg.2 _ h]
    norm_num
  · intro h
    rw [cz.2 _ h]
    norm_num [lit0001]
  · intro h
    rw [cz.2 _ h]
    norm_num [lit0001]

/-- C5. When loading the declared composite source throws a `ShaderException` in
`LoadCompositeShader`, or `LoadTexturesAndCompile` throws one in
`CompileCompositeShader`, and the default body loads (and, in
`CompileCompositeShader`, compiles) in a fresh shader, then no exception reaches the
caller and the composite shader is the one obtained from the default body. -/
theorem composite_shader_falls_back_to_default {K : Type} (E : Env K)
    (presetState : PresetState K E.Audio) (self : FinalComposite K E.MilkdropShader) :
    (∀ message loaded, presetState.compositeShaderVersion > 0 → presetState.warpShader ≠ "" →
      E.LoadCode E.newCompositeShader presetState.compositeShader =
        .error (.ShaderException message) →
      E.LoadCode E.newCompositeShader defaultCompositeShader = .ok loaded →
      LoadCompositeShader E presetState self =
        .ok { self with m_compositeShader := some loaded }) ∧
    (∀ shader message loaded compiled, self.m_compositeShader = some shader →
      E.LoadTexturesAndCompile shader presetState = .error (.ShaderException message) →
      E.LoadCode E.newCompositeShader defaultCompositeShader = .ok loaded →
      E.LoadTexturesAndCompile loaded presetState = .ok compiled →
      CompileCompositeShader E presetState self =
        .ok { self with m_compositeShader := some compiled }) := by
  constructor
  · intro message loaded hv hw h1 h2
    simp [LoadCompositeShader, hv, hw, h1, h2]
  · intro shader message loaded compiled hs h1 h2 h3
    simp [CompileCompositeShader, hs, h1, h2, h3]

/-- C7. An exception thrown while the default body is loaded or compiled leaves
`LoadCompositeShader` and `CompileCompositeShader` as it is, whatever its kind:
on the path without a declared load, in the fallback of `LoadCompositeShader`, and
in the fallback of `CompileCompositeShader` both when the default body fails to
load and when it fails to compile. -/
theorem default_composite_shader_failure_propagates {K : Type} (E : Env K)
    (presetState : PresetState K E.Audio) (self : FinalComposite K E.MilkdropShader)
    (e : Exception) :
    (presetState.compositeShaderVersion > 0 → presetState.warpShader = "" →
      E.LoadCode E.newCompositeShader defaultCompositeShader = .error e →
      LoadCompositeShader E presetState self = .error e) ∧
    (∀ message, presetState.compositeShaderVersion > 0 → presetState.warpShader ≠ "" →
      E.LoadCode E.newCompositeShader presetState.compositeShader =
        .error (.ShaderException message) →
      E.LoadCode E.newCompositeShader defaultCompositeShader = .error e →
      LoadCompositeShader E presetState self = .error e) ∧
    (∀ shader message, self.m_compositeShader = some shader →
      E.LoadTexturesAndCompile shader presetState = .error (.ShaderException message) →
      E.LoadCode E.newCompositeShader defaultCompositeShader = .error e →
      CompileCompositeShader E presetState self = .error e) ∧
    (∀ shader message loaded, self.m_compositeShader = some shader →
      E.LoadTexturesAndCompile shader presetState = .error (.ShaderException message) →
      E.LoadCode E.newCompositeShader defaultCompositeShader = .ok loaded →
      E.LoadTexturesAndCompile loaded presetState = .error e →
      CompileCompositeShader E presetState self = .error e) := by
  refine ⟨?_, ?_, ?_, ?_⟩
  · intro hv hw h1
    simp [LoadCompositeShader, hv, hw, h1]
  · intro message hv hw h1 h2
    simp [LoadCompositeShader, hv, hw, h1, h2]
  · intro shader message hs h1 h2
    simp [CompileCompositeShader, hs, h1, h2]
  · intro shader message loaded hs h1 h2 h3
    simp [CompileCompositeShader, hs, h1, h2, h3]

/-- The passes of a frame's trace: evaluation, the motion vectors unless the
first-frame flag is set, the warp, one overlay pass for each overlay drawn, the
composite and the copy to the output. -/
theorem passesOf_RenderFrame {K : Type} [LinearOrderedField K] (E : Env K) (W H : ℕ)
    (audioData : E.Audio) (renderContext : RenderContext K) (self : MilkdropPreset K E) :
    ∃ (motion : List Pass) (n : ℕ),
      (motion = [] ∨ motion = [.motion]) ∧
      passesOf (RenderFrame E W H audioData renderContext self).2 =
        [.eval] ++ motion ++ [.warp] ++ List.replicate (n + 2) .overlays ++
          [.composite, .present] := by
  have hmap1 : ∀ n : ℕ, List.filterMap PassEvent.pass
      ((List.range n).map PassEvent.CustomShapeDraw) = List.replicate n Pass.overlays := by
    intro n
    rw [List.filterMap_map]
    have : (PassEvent.pass ∘ PassEvent.CustomShapeDraw) = fun _ => some Pass.overlays := rfl
    rw [this]
    induction n with
    | zero => rfl
    | succ k ih => simp [List.range_succ, List.filterMap_append, ih, List.replicate_succ']
  have hmap2 : ∀ n : ℕ, List.filterMap PassEvent.pass
      ((List.range n).map PassEvent.CustomWaveformDraw) = List.replicate n Pass.overlays := by
    intro n
    rw [List.filterMap_map]
    have : (PassEvent.pass ∘ PassEvent.CustomWaveformDraw) = fun _ => some Pass.overlays := rfl
    rw [this]
    induction n with
    | zero => rfl
    | succ k ih => simp [List.range_succ, List.filterMap_append, ih, List.replicate_succ']
  have hmesh : List.filterMap PassEvent.pass
      (FinalComposite.Draw E W H
        { self.m_state with
          audioData := audioData
          renderContext := renderContext
          mainTexture := some (self.m_currentFrameBuffer, 0) } self.m_finalComposite).2 = [] := by
    unfold FinalComposite.Draw InitializeMesh
    split <;> simp [PassEvent.pass]
  have hrep : ∀ a b : ℕ, List.replicate a Pass.overlays ++ List.replicate b Pass.overlays =
      List.replicate (a + b) Pass.overlays := fun a b => (List.replicate_add a b _).symm
  simp only [passesOf, RenderFrame, List.filterMap_append, hmap1, hmap2, hmesh]
  by_cases hfirst : (if (E.SetSize self.m_framebuffer renderContext.viewportSizeX
      renderContext.viewportSizeY).1 = true then true else self.m_isFirstFrame) = true
  · by_cases hdark : EvalF.lt (.fin 0) (PerFrameUpdate E
        { self.m_state with
          audioData := audioData
          renderContext := renderContext
          mainTexture := some (self.m_previousFrameBuffer, 0) }
        (self.m_perFrameContext, self.m_perPixelContext)).1.darken_center = true
    · refine ⟨[], self.m_customShapes + self.m_customWaveforms + 1, Or.inl rfl, ?_⟩
      simp [hfirst, hdark, PassEvent.pass, List.replicate_succ', hrep]
    · refine ⟨[], self.m_customShapes + self.m_customWaveforms, Or.inl rfl, ?_⟩
      simp [hfirst, hdark, PassEvent.pass, List.replicate_succ', hrep]
  · by_cases hdark : EvalF.lt (.fin 0) (PerFrameUpdate E
        { self.m_state with
          audioData := audioData
          renderContext := renderContext
          mainTexture := some (self.m_previousFrameBuffer, 0) }
        (self.m_perFrameContext, self.m_perPixelContext)).1.darken_center = true
    · refine ⟨[.motion], self.m_customShapes + self.m_customWaveforms + 1, Or.inr rfl, ?_⟩
      simp [hfirst, hdark, PassEvent.pass, List.replicate_succ', hrep]
    · refine ⟨[.motion], self.m_customShapes + self.m_customWaveforms, Or.inr rfl, ?_⟩
      simp [hfirst, hdark, PassEvent.pass, List.replicate_succ', hrep]

/-- Every trace of a sequence of frames is the trace of one `RenderFrame` call. -/
theorem mem_renderFrames {K : Type} [LinearOrderedField K] (E : Env K) (W H : ℕ)
    (frames : List (E.Audio × RenderContext K)) (self : MilkdropPreset K E)
    (trace : List PassEvent) (h : trace ∈ (renderFrames E W H frames self).2) :
    ∃ audioData renderContext state, trace = (RenderFrame E W H audioData renderContext state).2 := by
  induction frames generalizing self with
  | nil => simp [renderFrames] at h
  | cons frame frames ih =>
    simp only [renderFrames, List.mem_cons] at h
    rcases h with h | h
    · exact ⟨frame.1, frame.2, self, h⟩
    · exact ih _ h

/-- The trace of one `RenderFrame` call has the fixed pass order. -/
theorem FixedPassOrder_RenderFrame {K : Type} [LinearOrderedField K] (E : Env K) (W H : ℕ)
    (audioData : E.Audio) (renderContext : RenderContext K) (self : MilkdropPreset K E) :
    FixedPassOrder (RenderFrame E W H audioData renderContext self).2 := by
  obtain ⟨motion, n, hm, hp⟩ := passesOf_RenderFrame E W H audioData renderContext self
  unfold FixedPassOrder
  rw [hp]
  rcases hm with rfl | rfl
  · refine ⟨?_, ?_, ?_, ?_, ?_, ?_, ?_⟩
    · simp [List.Sorted, List.pairwise_append, Pass.rank, List.map_replicate]
    all_goals simp [List.count_replicate, List.count_cons]
  · refine ⟨?_, ?_, ?_, ?_, ?_, ?_, ?_⟩
    · simp [List.Sorted, List.pairwise_append, Pass.rank, List.map_replicate]
    all_goals simp [List.count_replicate, List.count_cons]

/-- C1. In every sequence of `RenderFrame` calls, whatever the audio data and the
render contexts, the trace of each call has the fixed pass order: evaluation, then
the motion vectors, then the warp, then the overlays, then the composite, then the
copy to the output; every pass but the motion vectors occurs in every frame. -/
theorem RenderFrame_pass_order {K : Type} [LinearOrderedField K] (E : Env K) (W H : ℕ)
    (frames : List (E.Audio × RenderContext K)) (self : MilkdropPreset K E) :
    ∀ trace ∈ (renderFrames E W H frames self).2, FixedPassOrder trace := by
  intro trace h
  obtain ⟨audioData, renderContext, state, rfl⟩ := mem_renderFrames E W H frames self trace h
  exact FixedPassOrder_RenderFrame E W H audioData renderContext state

/-- C1 at a concrete input: the second of two frames of the sample preset. -/
theorem RenderFrame_pass_order_witness :
    FixedPassOrder
      (RenderFrame (traceEnv ℚ id fun _ _ => 0) 32 24 () (sampleContext ℚ 640 480)
        (RenderFrame (traceEnv ℚ id fun _ _ => 0) 32 24 () (sampleContext ℚ 640 480)
          (samplePreset ℚ id fun _ _ => 0)).1).2 :=
  RenderFrame_pass_order (traceEnv ℚ id fun _ _ => 0) 32 24
    [((), sampleContext ℚ 640 480), ((), sampleContext ℚ 640 480)]
    (samplePreset ℚ id fun _ _ => 0) _ (by simp [renderFrames])

/-- Whether a frame issues the motion-vector draw: exactly when neither `SetSize`
reports a change nor the first-frame flag is set; and when it does, the draw gets
the texture of attachment 1 of the framebuffer labelled previous at the call. -/
theorem issuesMotionVectors_RenderFrame {K : Type} [LinearOrderedField K] (E : Env K)
    (W H : ℕ) (audioData : E.Audio) (renderContext : RenderContext K)
    (self : MilkdropPreset K E) :
    issuesMotionVectors (RenderFrame E W H audioData renderContext self).2 =
        (!((E.SetSize self.m_framebuffer renderContext.viewportSizeX
            renderContext.viewportSizeY).1 || self.m_isFirstFrame)) ∧
    (issuesMotionVectors (RenderFrame E W H audioData renderContext self).2 = true →
      PassEvent.MotionVectorsDraw self.m_previousFrameBuffer 1 ∈
        (RenderFrame E W H audioData renderContext self).2) := by
  have hmesh : ∀ st : PresetState K E.Audio,
      ((FinalComposite.Draw E W H st self.m_finalComposite).2.any fun e =>
        match e with
        | .MotionVectorsDraw _ _ => true
        | _ => false) = false := by
    intro st
    unfold FinalComposite.Draw InitializeMesh
    split <;> simp
  have key : issuesMotionVectors (RenderFrame E W H audioData renderContext self).2 =
      (!((E.SetSize self.m_framebuffer renderContext.viewportSizeX
          renderContext.viewportSizeY).1 || self.m_isFirstFrame)) := by
    simp only [issuesMotionVectors, RenderFrame, List.any_append, hmesh]
    cases (E.SetSize self.m_framebuffer renderContext.viewportSizeX
      renderContext.viewportSizeY).1 <;> cases self.m_isFirstFrame <;>
      simp [List.any_map]
  refine ⟨key, ?_⟩
  intro h
  rw [key] at h
  have h1 : (E.SetSize self.m_framebuffer renderContext.viewportSizeX
      renderContext.viewportSizeY).1 = false := by
    cases hh : (E.SetSize self.m_framebuffer renderContext.viewportSizeX
      renderContext.viewportSizeY).1 <;> simp_all
  have h2 : self.m_isFirstFrame = false := by
    cases hh : self.m_isFirstFrame <;> simp_all
  simp [RenderFrame, h1, h2]

/-- After `Initialize` has given the framebuffer a size, a `RenderFrame` call for
this size on a preset whose first-frame flag was clear issues the motion-vector
draw, whenever the framebuffer reports no change for the size it was just given:
`Initialize` leaves the first-frame flag as it is. -/
theorem Initialize_keeps_first_frame_flag {K : Type} [LinearOrderedField K]
    (E : Env K) (W H : ℕ) (audioData : E.Audio) (renderContext : RenderContext K)
    (self initialized : MilkdropPreset K E)
    (hlaw : ∀ framebuffer width height,
      (E.SetSize (E.SetSize framebuffer width height).2 width height).1 = false)
    (hflag : self.m_isFirstFrame = false)
    (hinit : Initialize E renderContext self = .ok initialized) :
    initialized.m_isFirstFrame = false ∧
    issuesMotionVectors (RenderFrame E W H audioData renderContext initialized).2 = true := by
  dsimp only [Initialize] at hinit
  split at hinit
  · exact absurd hinit (by simp)
  · split at hinit
    · exact absurd hinit (by simp)
    · have h := Except.ok.inj hinit
      subst h
      refine ⟨hflag, ?_⟩
      rw [(issuesMotionVectors_RenderFrame E W H audioData renderContext _).1]
      simp [hlaw, hflag]

/-- C3, the code at a failing input: the sample preset renders one frame at 640 by
480, `Initialize` is then called for 800 by 600 and re-sizes the framebuffer, and
the first `RenderFrame` call after it, for 800 by 600, issues the motion-vector
draw. -/
theorem Initialize_resize_first_frame_issues_motion_vectors :
    ∃ initialized,
      Initialize (traceEnv ℚ id fun _ _ => 0) (sampleContext ℚ 800 600)
        (RenderFrame (traceEnv ℚ id fun _ _ => 0) 32 24 () (sampleContext ℚ 640 480)
          (samplePreset ℚ id fun _ _ => 0)).1 = .ok initialized ∧
      (RenderFrame (traceEnv ℚ id fun _ _ => 0) 32 24 () (sampleContext ℚ 640 480)
          (samplePreset ℚ id fun _ _ => 0)).1.m_framebuffer = (640, 480) ∧
      initialized.m_framebuffer = (800, 600) ∧
      issuesMotionVectors (RenderFrame (traceEnv ℚ id fun _ _ => 0) 32 24 ()
        (sampleContext ℚ 800 600) initialized).2 = true := by
  refine ⟨_, rfl, rfl, rfl, ?_⟩
  exact (Initialize_keeps_first_frame_flag (traceEnv ℚ id fun _ _ => 0) 32 24 ()
    (sampleContext ℚ 800 600)
    (RenderFrame (traceEnv ℚ id fun _ _ => 0) 32 24 () (sampleContext ℚ 640 480)
      (samplePreset ℚ id fun _ _ => 0)).1 _ (by simp [traceEnv]) rfl rfl).2

/-- C6, the code at two failing inputs, both with a declared composite shader. With
an empty composite source and a warp source, `LoadCompositeShader` loads the empty
composite source and not the default body. With a composite source and an empty
warp source, it loads the default body and not the composite source. -/
theorem LoadCompositeShader_chooses_by_warp_shader :
    (∃ loaded,
      LoadCompositeShader (traceEnv ℚ id fun _ _ => 0)
        { sampleState ℚ with compositeShader := "", warpShader := "ret = 0;" }
        (sampleComposite ℚ) = .ok loaded ∧
      loaded.m_compositeShader = some [""]) ∧
    (∃ loaded,
      LoadCompositeShader (traceEnv ℚ id fun _ _ => 0)
        { sampleState ℚ with compositeShader := "ret = 1;", warpShader := "" }
        (sampleComposite ℚ) = .ok loaded ∧
      loaded.m_compositeShader = some [defaultCompositeShader]) :=
  ⟨⟨_, rfl, rfl⟩, ⟨_, rfl, rfl⟩⟩

/-- C5 at a concrete input: a composite source that does not load, and a loaded
composite source that does not compile; both end with the default body. -/
theorem composite_shader_falls_back_to_default_witness :
    LoadCompositeShader (traceEnv ℚ id fun _ _ => 0)
        { sampleState ℚ with compositeShader := "error", warpShader := "ret = 0;" }
        (sampleComposite ℚ) =
      .ok { sampleComposite ℚ with m_compositeShader := some [defaultCompositeShader] } ∧
    CompileCompositeShader (traceEnv ℚ id fun _ _ => 0) (sampleState ℚ)
        { sampleComposite ℚ with m_compositeShader := some ["uncompilable"] } =
      .ok { sampleComposite ℚ with
            m_compositeShader := some [defaultCompositeShader, "compiled"] } :=
  ⟨(composite_shader_falls_back_to_default (traceEnv ℚ id fun _ _ => 0)
      { sampleState ℚ with compositeShader := "error", warpShader := "ret = 0;" }
      (sampleComposite ℚ)).1 "cannot load" [defaultCompositeShader] (by decide) (by decide)
      rfl rfl,
    (composite_shader_falls_back_to_default (traceEnv ℚ id fun _ _ => 0) (sampleState ℚ)
      { sampleComposite ℚ with m_compositeShader := some ["uncompilable"] }).2
      ["uncompilable"] "cannot compile" [defaultCompositeShader]
      [defaultCompositeShader, "compiled"] rfl rfl rfl rfl⟩

/-- C7 at a concrete input: with a loader that always throws, the exception of the
default body leaves both functions. -/
theorem default_composite_shader_failure_propagates_witness :
    LoadCompositeShader brokenLoaderEnv (sampleState ℚ) (sampleComposite ℚ) =
      .error (.other "bad_alloc") ∧
    CompileCompositeShader brokenLoaderEnv (sampleState ℚ)
        { sampleComposite ℚ with m_compositeShader := some ["uncompilable"] } =
      .error (.other "bad_alloc") :=
  ⟨(default_composite_shader_failure_propagates brokenLoaderEnv (sampleState ℚ)
      (sampleComposite ℚ) (.other "bad_alloc")).1 (by decide) rfl rfl,
    (default_composite_shader_failure_propagates brokenLoaderEnv (sampleState ℚ)
      { sampleComposite ℚ with m_compositeShader := some ["uncompilable"] }
      (.other "bad_alloc")).2.2.1 ["uncompilable"] "cannot compile" rfl rfl rfl⟩

section MeshTheorems

variable {K : Type} [LinearOrderedField K]

/-- The squish at exponent 3 is the cube of the centred value, whichever branch
computes it. -/
theorem SquishToCenter_three (x : K) : SquishToCenter x 3 = ((x * 2 - 1) ^ 3 + 1) / 2 := by
  unfold SquishToCenter
  split_ifs <;> norm_num <;> ring

/-- C8. For every `x` in [0, 1], in exact arithmetic (any ordered field, the reals
among them), `SquishToCenter(1 - x, 3) = 1 - SquishToCenter(x, 3)`. -/
theorem SquishToCenter_symmetry (x : K) (_h0 : 0 ≤ x) (_h1 : x ≤ 1) :
    SquishToCenter (1 - x) 3 = 1 - SquishToCenter x 3 := by
  rw [SquishToCenter_three, SquishToCenter_three]
  ring

/-- C8 at a concrete input: `x = 1/4`, where both sides are 9/16. -/
theorem SquishToCenter_symmetry_witness :
    SquishToCenter (1 - (1 / 4 : ℚ)) 3 = 1 - SquishToCenter (1 / 4 : ℚ) 3 ∧
    SquishToCenter (1 / 4 : ℚ) 3 = 7 / 16 :=
  ⟨SquishToCenter_symmetry (1 / 4 : ℚ) (by norm_num) (by norm_num),
    by norm_num [SquishToCenter]⟩

/-- A loop over `i = 0 .. n-1` that stores `g i (old value)` at position `f i`, for
positions `f i` that differ from one another: position `f i` ends with `g i` of
what it held before the loop, and every other position is untouched. -/
theorem foldl_update_range {α : Type} (f : ℕ → ℕ) (g : ℕ → α → α) (n : ℕ) (a : ℕ → α)
    (hinj : ∀ i < n, ∀ j < n, f i = f j → i = j) :
    (∀ i < n, (List.range n).foldl
        (fun acc i => Function.update acc (f i) (g i (acc (f i)))) a (f i) = g i (a (f i))) ∧
    (∀ k, (∀ i < n, f i ≠ k) → (List.range n).foldl
        (fun acc i => Function.update acc (f i) (g i (acc (f i)))) a k = a k) := by
  induction n with
  | zero => exact ⟨fun i hi => absurd hi (Nat.not_lt_zero i), fun k _ => rfl⟩
  | succ n ih =>
    have ih' := ih (fun i hi j hj => hinj i (Nat.lt_succ_of_lt hi) j (Nat.lt_succ_of_lt hj))
    rw [List.range_succ, List.foldl_append]
    simp only [List.foldl_cons, List.foldl_nil]
    constructor
    · intro i hi
      rcases Nat.lt_succ_iff_lt_or_eq.mp hi with hlt | rfl
      · have hne : f i ≠ f n := fun h =>
          absurd (hinj i hi n (Nat.lt_succ_self n) h) (Nat.ne_of_lt hlt)
        rw [Function.update_noteq hne]
        exact ih'.1 i hlt
      · rw [Function.update_same]
        congr 1
        apply ih'.2
        intro j hj h
        exact absurd (hinj j (Nat.lt_succ_of_lt hj) i (Nat.lt_succ_self i) h) (Nat.ne_of_lt hj)
    · intro k hk
      rw [Function.update_noteq (fun h => hk n (Nat.lt_succ_self n) h.symm)]
      exact ih'.2 k (fun i hi => hk i (Nat.lt_succ_of_lt hi))

/-- The first `n` rounds of the outer vertex loop store at position
`gridX + gridY * W`, for every grid position of the rows before `n`, the vertex that
the loop body computes for it, and leave the positions from `n * W` on untouched. -/
theorem writeVertices_rows (E : Env K) (W H : ℕ) (aspectX aspectY : K)
    (m_vertices : ℕ → MeshVertex K) (n : ℕ) :
    (∀ gridY < n, ∀ gridX < W,
      (List.range n).foldl
        (fun vertices gridY =>
          (List.range W).foldl
            (fun vertices gridX =>
              Function.update vertices (gridX + gridY * W)
                (writeVertex E W H aspectX aspectY gridX gridY (vertices (gridX + gridY * W))))
            vertices)
        m_vertices (gridX + gridY * W) =
        writeVertex E W H aspectX aspectY gridX gridY (m_vertices (gridX + gridY * W))) ∧
    (∀ k, n * W ≤ k →
      (List.range n).foldl
        (fun vertices gridY =>
          (List.range W).foldl
            (fun vertices gridX =>
              Function.update vertices (gridX + gridY * W)
                (writeVertex E W H aspectX aspectY gridX gridY (vertices (gridX + gridY * W))))
            vertices)
        m_vertices k = m_vertices k) := by
  induction n with
  | zero => exact ⟨fun gridY h => absurd h (Nat.not_lt_zero _), fun k _ => rfl⟩
  | succ n ih =>
    rw [List.range_succ, List.foldl_append]
    simp only [List.foldl_cons, List.foldl_nil]
    have row := fun a : ℕ → MeshVertex K =>
      foldl_update_range (fun gridX => gridX + n * W)
        (fun gridX old => writeVertex E W H aspectX aspectY gridX n old) W a
        (fun i _ j _ h => Nat.add_right_cancel h)
    constructor
    · intro gridY hY gridX hX
      rcases Nat.lt_succ_iff_lt_or_eq.mp hY with hlt | rfl
      · rw [(row _).2 _ (fun i _ h => ?_)]
        · exact ih.1 gridY hlt gridX hX
        · have h1 : (gridY + 1) * W ≤ n * W := Nat.mul_le_mul_right W hlt
          have h2 : (gridY + 1) * W = gridY * W + W := by ring
          omega
      · rw [(row _).1 gridX hX]
        congr 1
        exact ih.2 _ (Nat.le_add_left _ _)
    · intro k hk
      have h2 : (n + 1) * W = n * W + W := by ring
      rw [(row _).2 _ (fun i hi h => by omega)]
      exact ih.2 k (by omega)

/-- The vertex that `InitializeMesh` leaves at grid position (`gridX`, `gridY`) when
it builds the mesh: the one that the loop body computes for the position. -/
theorem InitializeMesh_vertex (E : Env K) (W H : ℕ) (presetState : PresetState K E.Audio)
    (self : FinalComposite K E.MilkdropShader) (gridX gridY : ℕ)
    (hbuild : ¬(self.m_viewportWidth = presetState.renderContext.viewportSizeX ∧
      self.m_viewportHeight = presetState.renderContext.viewportSizeY))
    (hX : gridX < W) (hY : gridY < H) :
    (InitializeMesh E W H presetState self).1.m_vertices (gridX + gridY * W) =
      writeVertex E W H presetState.renderContext.aspectX presetState.renderContext.aspectY
        gridX gridY (self.m_vertices (gridX + gridY * W)) := by
  unfold InitializeMesh
  rw [if_neg hbuild]
  exact (writeVertices_rows E W H _ _ self.m_vertices H).1 gridY hY gridX hX

/-- The constant `PI` is positive, and the constant that `UvToMathSpace` adds to a
negative angle is twice `PI`. -/
theorem PI_pos_and_double : (0 : K) < PI ∧ (6.2831853071796 : K) = 2 * PI := by
  constructor <;> norm_num [PI]

/-- The angle that `UvToMathSpace` writes lies in [0, 2 PI], when the arctangent
it calls answers between minus `PI` and `PI`. -/
theorem UvToMathSpace_angle_range (E : Env K) (aspectX aspectY u v : K)
    (hatan : ∀ y x, -PI ≤ E.atan2f y x ∧ E.atan2f y x ≤ PI) :
    0 ≤ (UvToMathSpace E aspectX aspectY u v).2 ∧
      (UvToMathSpace E aspectX aspectY u v).2 ≤ 2 * PI := by
  have hpi := (PI_pos_and_double (K := K)).1
  have h2 := (PI_pos_and_double (K := K)).2
  have h := hatan ((v * 2 - 1) * aspectY) ((u * 2 - 1) * aspectX)
  simp only [UvToMathSpace]
  split_ifs with hneg
  · rw [h2]
    constructor <;> linarith [h.1, h.2]
  · constructor <;> linarith [h.1, h.2, not_lt.mp hneg]

/-- The angle after the fix-ups, for an angle in [0, 2 PI] before them: a value in
[0, 2 PI], which is 2 PI exactly on row `H / 2 - 1` right of column `W / 2` and
below 2 PI at every other seam vertex. -/
theorem fixupAngle_range (W H gridX gridY : ℕ) (ang : K) (hH : 2 ≤ H) (h0 : 0 ≤ ang)
    (h1 : ang ≤ 2 * PI) :
    0 ≤ fixupAngle W H gridX gridY ang ∧ fixupAngle W H gridX gridY ang ≤ 2 * PI ∧
    (gridY = H / 2 - 1 → W / 2 < gridX → fixupAngle W H gridX gridY ang = PI * 2.0) ∧
    ((gridX = W / 2 - 1 ∨ gridX = W / 2 ∨ gridY = H / 2 ∨
        (gridY = H / 2 - 1 ∧ gridX < W / 2 - 1)) →
      fixupAngle W H gridX gridY ang < 2 * PI) := by
  have hpi := (PI_pos_and_double (K := K)).1
  unfold fixupAngle
  split_ifs <;> refine ⟨?_, ?_, fun ha hb => ?_, fun h => ?_⟩
  all_goals
    first
      | exact h0
      | exact h1
      | rfl
      | (exfalso; omega)
      | norm_num [PI]

/-- The bounds of the angle do not depend on the sum of `UvToMathSpace` being
exact: when the sum is rounded by a function that does not decrease and keeps 0 and
2 PI, the angle is in [0, 2 PI] before the fix-ups and after them. -/
theorem roundedAngle_range (round : K → K) (E : Env K) (W H gridX gridY : ℕ)
    (aspectX aspectY u v : K) (hH : 2 ≤ H)
    (hatan : ∀ y x, -PI ≤ E.atan2f y x ∧ E.atan2f y x ≤ PI)
    (hmono : Monotone round) (h0 : round 0 = 0) (h2 : round (2 * PI) = 2 * PI) :
    roundedAngle id E aspectX aspectY u v = (UvToMathSpace E aspectX aspectY u v).2 ∧
    0 ≤ roundedAngle round E aspectX aspectY u v ∧
    roundedAngle round E aspectX aspectY u v ≤ 2 * PI ∧
    0 ≤ fixupAngle W H gridX gridY (roundedAngle round E aspectX aspectY u v) ∧
    fixupAngle W H gridX gridY (roundedAngle round E aspectX aspectY u v) ≤ 2 * PI := by
  have hpi := (PI_pos_and_double (K := K)).1
  have hc := (PI_pos_and_double (K := K)).2
  have h := hatan ((v * 2 - 1) * aspectY) ((u * 2 - 1) * aspectX)
  have hr : 0 ≤ roundedAngle round E aspectX aspectY u v ∧
      roundedAngle round E aspectX aspectY u v ≤ 2 * PI := by
    simp only [roundedAngle]
    split_ifs with hneg
    · rw [hc]
      constructor
      · rw [← h0]
        exact hmono (by linarith [h.1])
      · rw [← h2]
        exact hmono (by linarith)
    · constructor <;> linarith [h.1, h.2, not_lt.mp hneg]
  have hf := fixupAngle_range W H gridX gridY _ hH hr.1 hr.2
  exact ⟨rfl, hr.1, hr.2, hf.1, hf.2.1⟩

/-- C9, as the code has it. When `InitializeMesh` builds the mesh for an even grid
size `W`, `H` of at least 4 and the arctangent answers between minus `PI` and `PI`
(as the real arctangent does), every vertex carries an angle in the closed interval
[0, 2 PI]: the vertices on row `H / 2 - 1` right of column `W / 2`, of which
(`W - 1`, `H / 2 - 1`) is one, carry 2 PI itself, and the other seam vertices an
angle below 2 PI. -/
theorem InitializeMesh_angle_range (E : Env K) (W H : ℕ) (presetState : PresetState K E.Audio)
    (self : FinalComposite K E.MilkdropShader)
    (hatan : ∀ y x, -PI ≤ E.atan2f y x ∧ E.atan2f y x ≤ PI)
    (hbuild : ¬(self.m_viewportWidth = presetState.renderContext.viewportSizeX ∧
      self.m_viewportHeight = presetState.renderContext.viewportSizeY))
    (hW : 4 ≤ W) (hWe : W % 2 = 0) (hH : 4 ≤ H) (hHe : H % 2 = 0) :
    (∀ gridX gridY, gridX < W → gridY < H →
      0 ≤ ((InitializeMesh E W H presetState self).1.m_vertices (gridX + gridY * W)).angle ∧
      ((InitializeMesh E W H presetState self).1.m_vertices (gridX + gridY * W)).angle ≤
        2 * PI ∧
      (gridY = H / 2 - 1 → W / 2 < gridX →
        ((InitializeMesh E W H presetState self).1.m_vertices (gridX + gridY * W)).angle =
          PI * 2.0) ∧
      ((gridX = W / 2 - 1 ∨ gridX = W / 2 ∨ gridY = H / 2 ∨
          (gridY = H / 2 - 1 ∧ gridX < W / 2 - 1)) →
        ((InitializeMesh E W H presetState self).1.m_vertices (gridX + gridY * W)).angle <
          2 * PI)) ∧
    ((InitializeMesh E W H presetState self).1.m_vertices
      (W - 1 + (H / 2 - 1) * W)).angle = PI * 2.0 := by
  have key : ∀ gridX gridY, gridX < W → gridY < H →
      0 ≤ ((InitializeMesh E W H presetState self).1.m_vertices (gridX + gridY * W)).angle ∧
      ((InitializeMesh E W H presetState self).1.m_vertices (gridX + gridY * W)).angle ≤
        2 * PI ∧
      (gridY = H / 2 - 1 → W / 2 < gridX →
        ((InitializeMesh E W H presetState self).1.m_vertices (gridX + gridY * W)).angle =
          PI * 2.0) ∧
      ((gridX = W / 2 - 1 ∨ gridX = W / 2 ∨ gridY = H / 2 ∨
          (gridY = H / 2 - 1 ∧ gridX < W / 2 - 1)) →
        ((InitializeMesh E W H presetState self).1.m_vertices (gridX + gridY * W)).angle <
          2 * PI) := by
    intro gridX gridY hX hY
    rw [InitializeMesh_vertex E W H presetState self gridX gridY hbuild hX hY]
    have h := UvToMathSpace_angle_range E presetState.renderContext.aspectX
      presetState.renderContext.aspectY (colU W gridX) (rowV H gridY) hatan
    exact fixupAngle_range W H gridX gridY _ (by omega) h.1 h.2
  exact ⟨key, (key (W - 1) (H / 2 - 1) (by omega) (by omega)).2.2.1 rfl (by omega)⟩

/-- The real arctangent of two arguments, as the argument of the complex number
`x + y i`, answers between minus `PI` and `PI`. -/
theorem arg_between_neg_PI_and_PI (y x : ℝ) :
    -(PI : ℝ) ≤ Complex.arg ⟨x, y⟩ ∧ Complex.arg ⟨x, y⟩ ≤ (PI : ℝ) := by
  have h1 := Complex.neg_pi_lt_arg ⟨x, y⟩
  have h2 := Complex.arg_le_pi ⟨x, y⟩
  have h3 := Real.pi_lt_d20
  have h4 : (3.14159265358979323847 : ℝ) < PI := by norm_num [PI]
  constructor <;> linarith

/-- C9 at a concrete input: the mesh of 32 by 24 vertices with aspect ratios 1 and
0.75 over the reals, with the real square root and arctangent; the vertex at grid
position (20, 5), which lies on no seam line, and the last vertex of row 11. -/
theorem InitializeMesh_angle_range_witness :
    0 ≤ ((InitializeMesh (traceEnv ℝ Real.sqrt fun y x => Complex.arg ⟨x, y⟩) 32 24
        (sampleState ℝ) (sampleComposite ℝ)).1.m_vertices (20 + 5 * 32)).angle ∧
    ((InitializeMesh (traceEnv ℝ Real.sqrt fun y x => Complex.arg ⟨x, y⟩) 32 24
        (sampleState ℝ) (sampleComposite ℝ)).1.m_vertices (20 + 5 * 32)).angle ≤ 2 * PI ∧
    ((InitializeMesh (traceEnv ℝ Real.sqrt fun y x => Complex.arg ⟨x, y⟩) 32 24
        (sampleState ℝ) (sampleComposite ℝ)).1.m_vertices
      (32 - 1 + (24 / 2 - 1) * 32)).angle = PI * 2.0 := by
  have h := InitializeMesh_angle_range (traceEnv ℝ Real.sqrt fun y x => Complex.arg ⟨x, y⟩)
    32 24 (sampleState ℝ) (sampleComposite ℝ) arg_between_neg_PI_and_PI
    (by simp [sampleState, sampleComposite]) (by norm_num) (by norm_num) (by norm_num)
    (by norm_num)
  have h1 := h.1 20 5 (by norm_num) (by norm_num)
  exact ⟨h1.1, h1.2.1, h.2⟩

/-- C9, a vertex outside [0, 2 pi): in the mesh of 32 by 24 vertices with aspect
ratios 1 and 0.75, built over the reals with the real square root and arctangent,
the vertex at grid position (20, 11), on row `H / 2 - 1` right of the seam columns,
carries the angle `PI * 2`, which is below neither twice `PI` nor twice pi. -/
theorem InitializeMesh_seam_angle_is_two_PI :
    ((InitializeMesh (traceEnv ℝ Real.sqrt fun y x => Complex.arg ⟨x, y⟩) 32 24
        (sampleState ℝ) (sampleComposite ℝ)).1.m_vertices (20 + 11 * 32)).angle = PI * 2.0 ∧
    ¬(((InitializeMesh (traceEnv ℝ Real.sqrt fun y x => Complex.arg ⟨x, y⟩) 32 24
        (sampleState ℝ) (sampleComposite ℝ)).1.m_vertices (20 + 11 * 32)).angle < 2 * PI) ∧
    ¬(((InitializeMesh (traceEnv ℝ Real.sqrt fun y x => Complex.arg ⟨x, y⟩) 32 24
        (sampleState ℝ) (sampleComposite ℝ)).1.m_vertices (20 + 11 * 32)).angle <
          2 * Real.pi) := by
  have hv := InitializeMesh_vertex (traceEnv ℝ Real.sqrt fun y x => Complex.arg ⟨x, y⟩)
    32 24 (sampleState ℝ) (sampleComposite ℝ) 20 11
    (by simp [sampleState, sampleComposite]) (by norm_num) (by norm_num)
  have ha : ((InitializeMesh (traceEnv ℝ Real.sqrt fun y x => Complex.arg ⟨x, y⟩) 32 24
      (sampleState ℝ) (sampleComposite ℝ)).1.m_vertices (20 + 11 * 32)).angle = PI * 2.0 := by
    rw [hv]
    simp [writeVertex, fixupAngle]
  have h3 := Real.pi_lt_d20
  have h4 : (3.14159265358979323847 : ℝ) < PI := by norm_num [PI]
  have h5 : (PI : ℝ) * 2.0 = 2 * PI := by norm_num [mul_comm]
  refine ⟨ha, ?_, ?_⟩
  · rw [ha, h5]
    exact lt_irrefl _
  · rw [ha, h5]
    exact not_lt.mpr (by linarith)

/-- The horizontal screen coordinate of a column is the cube of its centred
coordinate, and so is the vertical one of a row. -/
theorem colU_rowV_centred (N g : ℕ) :
    colU N g * 2 - 1 = (centred N g : K) ^ 3 ∧ rowV N g * 2 - 1 = (centred N g : K) ^ 3 := by
  constructor
  · simp only [colU, centred, SquishToCenter_three]
    ring
  · simp only [rowV, centred, SquishToCenter_three]
    ring

/-- The centred coordinate on an axis of `2 (m + 1)` vertices, whose seam indices
are `m` and `m + 1`: `-(m - g) / m` left of the seam and `(g - (m + 1)) / m` right
of it. -/
theorem centred_off_seam (m g : ℕ) (hm : 1 ≤ m) :
    (g < m → (centred (2 * (m + 1)) g : K) = -((m - g : ℕ) : K) / (m : K)) ∧
    (m + 1 < g → g < 2 * (m + 1) →
      (centred (2 * (m + 1)) g : K) = ((g - (m + 1) : ℕ) : K) / (m : K)) := by
  have hN2 : 2 * (m + 1) / 2 = m + 1 := by omega
  have hN : 2 * (m + 1) - 2 = 2 * m := by omega
  have hmK : (m : K) ≠ 0 := by
    have : (0 : K) < (m : K) := by exact_mod_cast hm
    exact ne_of_gt this
  constructor
  · intro hg
    have hdiv : g / (m + 1) = 0 := Nat.div_eq_of_lt (by omega)
    simp only [centred, hN2, hN, hdiv, Nat.sub_zero]
    rw [Nat.cast_sub hg.le]
    push_cast
    field_simp
    ring
  · intro hg1 hg2
    have hdiv : g / (m + 1) = 1 := Nat.div_eq_of_lt_le (by omega) (by omega)
    simp only [centred, hN2, hN, hdiv]
    rw [Nat.cast_sub (by omega : m + 1 ≤ g), Nat.cast_sub (by omega : 1 ≤ g)]
    push_cast
    field_simp
    ring

/-- Two positive multiples `a / m` and `(a + 1) / m` with `a ≥ 1`, both with the
sign `σ`: their product is positive and each is at most twice the other in absolute
value. -/
theorem adjacent_steps (a m σ : K) (ha : 1 ≤ a) (hm : 0 < m) (hσ : σ = 1 ∨ σ = -1) :
    0 < σ * (a / m) * (σ * ((a + 1) / m)) ∧
    |σ * (a / m)| ≤ 2 * |σ * ((a + 1) / m)| ∧
    |σ * ((a + 1) / m)| ≤ 2 * |σ * (a / m)| := by
  have h1 : 0 < a / m := div_pos (by linarith) hm
  have h2 : 0 < (a + 1) / m := div_pos (by linarith) hm
  have h3 : (a + 1) / m = a / m + 1 / m := add_div a 1 m
  have h4 : 1 / m ≤ a / m := by gcongr
  have h5 : 0 < 1 / m := div_pos one_pos hm
  have habs : ∀ x : K, |σ * x| = |x| := by
    intro x
    rcases hσ with rfl | rfl <;> simp
  have hsq : σ * σ = 1 := by rcases hσ with rfl | rfl <;> norm_num
  rw [habs, habs, abs_of_pos h1, abs_of_pos h2]
  refine ⟨?_, by linarith, by linarith⟩
  have : σ * (a / m) * (σ * ((a + 1) / m)) = σ * σ * (a / m * ((a + 1) / m)) := by ring
  rw [this, hsq, one_mul]
  exact mul_pos h1 h2

/-- Two neighbouring indices of an axis of `N` vertices (`N` even, at least 4),
neither of them a seam index: their centred coordinates have the same sign, are
not zero, and each is at most twice the other in absolute value. -/
theorem centred_adjacent (N g : ℕ) (hN : 4 ≤ N) (he : N % 2 = 0) (hg : g + 1 < N)
    (h1 : g ≠ N / 2 - 1) (h2 : g ≠ N / 2) (h3 : g + 1 ≠ N / 2 - 1) (h4 : g + 1 ≠ N / 2) :
    0 < (centred N g : K) * centred N (g + 1) ∧
    |(centred N g : K)| ≤ 2 * |(centred N (g + 1) : K)| ∧
    |(centred N (g + 1) : K)| ≤ 2 * |(centred N g : K)| := by
  obtain ⟨m, hm, rfl⟩ : ∃ m, 1 ≤ m ∧ N = 2 * (m + 1) := ⟨N / 2 - 1, by omega, by omega⟩
  have hmpos : (0 : K) < (m : K) := by exact_mod_cast hm
  rcases (by omega : g + 1 < m ∨ m + 1 < g) with hl | hr
  · have ha : (1 : K) ≤ ((m - (g + 1) : ℕ) : K) := by
      exact_mod_cast (show 1 ≤ m - (g + 1) by omega)
    have e1 : ((m - g : ℕ) : K) = ((m - (g + 1) : ℕ) : K) + 1 := by
      rw [show m - g = (m - (g + 1)) + 1 by omega]
      push_cast
      rfl
    have key := adjacent_steps ((m - (g + 1) : ℕ) : K) (m : K) (-1) ha hmpos (Or.inr rfl)
    rw [(centred_off_seam m g hm).1 (by omega), (centred_off_seam m (g + 1) hm).1 (by omega), e1]
    have r1 : -(((m - (g + 1) : ℕ) : K) + 1) / (m : K) =
        -1 * ((((m - (g + 1) : ℕ) : K) + 1) / (m : K)) := by ring
    have r2 : -((m - (g + 1) : ℕ) : K) / (m : K) =
        -1 * (((m - (g + 1) : ℕ) : K) / (m : K)) := by ring
    rw [r1, r2]
    exact ⟨by rw [mul_comm]; exact key.1, key.2.2, key.2.1⟩
  · have ha : (1 : K) ≤ ((g - (m + 1) : ℕ) : K) := by
      exact_mod_cast (show 1 ≤ g - (m + 1) by omega)
    have e1 : ((g + 1 - (m + 1) : ℕ) : K) = ((g - (m + 1) : ℕ) : K) + 1 := by
      rw [show g + 1 - (m + 1) = (g - (m + 1)) + 1 by omega]
      push_cast
      rfl
    have key := adjacent_steps ((g - (m + 1) : ℕ) : K) (m : K) 1 ha hmpos (Or.inl rfl)
    rw [(centred_off_seam m g hm).2 (by omega) (by omega),
      (centred_off_seam m (g + 1) hm).2 (by omega) (by omega), e1]
    simpa using key

/-- An index that is no seam index has a centred coordinate other than zero. -/
theorem centred_ne_zero (N g : ℕ) (hN : 4 ≤ N) (he : N % 2 = 0) (hg : g < N)
    (h1 : g ≠ N / 2 - 1) (h2 : g ≠ N / 2) : (centred N g : K) ≠ 0 := by
  obtain ⟨m, hm, rfl⟩ : ∃ m, 1 ≤ m ∧ N = 2 * (m + 1) := ⟨N / 2 - 1, by omega, by omega⟩
  have hmpos : (0 : K) < (m : K) := by exact_mod_cast hm
  rcases (by omega : g < m ∨ m + 1 < g) with hl | hr
  · rw [(centred_off_seam m g hm).1 hl]
    have ha : (0 : K) < ((m - g : ℕ) : K) := by exact_mod_cast (show 0 < m - g by omega)
    exact div_ne_zero (neg_ne_zero.mpr ha.ne') hmpos.ne'
  · rw [(centred_off_seam m g hm).2 hr hg]
    have ha : (0 : K) < ((g - (m + 1) : ℕ) : K) := by
      exact_mod_cast (show 0 < g - (m + 1) by omega)
    exact div_ne_zero ha.ne' hmpos.ne'

/-- The difference of the arguments of two complex numbers whose imaginary parts
have the same sign and whose scalar product is positive: the arctangent of the
quotient of their cross product and their scalar product. -/
theorem arg_sub_eq_arctan (x1 y1 x2 y2 : ℝ) (hy : 0 < y1 * y2)
    (hdot : 0 < x1 * x2 + y1 * y2) :
    Complex.arg ⟨x1, y1⟩ - Complex.arg ⟨x2, y2⟩ =
      Real.arctan ((y1 * x2 - x1 * y2) / (x1 * x2 + y1 * y2)) := by
  have hy1 : y1 ≠ 0 := fun h => by rw [h] at hy; simp at hy
  have hy2 : y2 ≠ 0 := fun h => by rw [h] at hy; simp at hy
  have hz1 : (⟨x1, y1⟩ : ℂ) ≠ 0 := fun h => hy1 (congrArg Complex.im h)
  have hz2 : (⟨x2, y2⟩ : ℂ) ≠ 0 := fun h => hy2 (congrArg Complex.im h)
  have ha1 : 0 < Complex.abs ⟨x1, y1⟩ := Complex.abs.pos hz1
  have ha2 : 0 < Complex.abs ⟨x2, y2⟩ := Complex.abs.pos hz2
  have hcos : Real.cos (Complex.arg ⟨x1, y1⟩ - Complex.arg ⟨x2, y2⟩) =
      (x1 * x2 + y1 * y2) / (Complex.abs ⟨x1, y1⟩ * Complex.abs ⟨x2, y2⟩) := by
    rw [Real.cos_sub, Complex.cos_arg hz1, Complex.cos_arg hz2, Complex.sin_arg, Complex.sin_arg]
    field_simp
  have hsin : Real.sin (Complex.arg ⟨x1, y1⟩ - Complex.arg ⟨x2, y2⟩) =
      (y1 * x2 - x1 * y2) / (Complex.abs ⟨x1, y1⟩ * Complex.abs ⟨x2, y2⟩) := by
    rw [Real.sin_sub, Complex.cos_arg hz1, Complex.cos_arg hz2, Complex.sin_arg, Complex.sin_arg]
    field_simp
  have hcospos : 0 < Real.cos (Complex.arg ⟨x1, y1⟩ - Complex.arg ⟨x2, y2⟩) := by
    rw [hcos]; positivity
  have hrange : -Real.pi ≤ Complex.arg ⟨x1, y1⟩ - Complex.arg ⟨x2, y2⟩ ∧
      Complex.arg ⟨x1, y1⟩ - Complex.arg ⟨x2, y2⟩ ≤ Real.pi := by
    rcases lt_or_gt_of_ne hy1 with h1 | h1
    · have h2 : y2 < 0 := by nlinarith
      have a1 : Complex.arg ⟨x1, y1⟩ < 0 := Complex.arg_neg_iff.mpr h1
      have a2 : Complex.arg ⟨x2, y2⟩ < 0 := Complex.arg_neg_iff.mpr h2
      have b1 := Complex.neg_pi_lt_arg ⟨x1, y1⟩
      have b2 := Complex.neg_pi_lt_arg ⟨x2, y2⟩
      constructor <;> linarith
    · have h2 : 0 < y2 := by nlinarith
      have a1 : 0 ≤ Complex.arg ⟨x1, y1⟩ := Complex.arg_nonneg_iff.mpr h1.le
      have a2 : 0 ≤ Complex.arg ⟨x2, y2⟩ := Complex.arg_nonneg_iff.mpr h2.le
      have b1 := Complex.arg_le_pi ⟨x1, y1⟩
      have b2 := Complex.arg_le_pi ⟨x2, y2⟩
      constructor <;> linarith
  have hlt : Complex.arg ⟨x1, y1⟩ - Complex.arg ⟨x2, y2⟩ < Real.pi / 2 := by
    by_contra hcon
    push_neg at hcon
    have := Real.cos_nonpos_of_pi_div_two_le_of_le hcon (by linarith [hrange.2, Real.pi_pos])
    linarith
  have hgt : -(Real.pi / 2) < Complex.arg ⟨x1, y1⟩ - Complex.arg ⟨x2, y2⟩ := by
    by_contra hcon
    push_neg at hcon
    have := Real.cos_nonpos_of_pi_div_two_le_of_le
      (x := -(Complex.arg ⟨x1, y1⟩ - Complex.arg ⟨x2, y2⟩)) (by linarith)
      (by linarith [hrange.1, Real.pi_pos])
    rw [Real.cos_neg] at this
    linarith
  rw [← Real.arctan_tan hgt hlt, Real.tan_eq_sin_div_cos, hsin, hcos]
  congr 1
  field_simp

/-- The arctangent of 5/4 is a quarter of pi plus the arctangent of 1/9, which is
less than 1/9. -/
theorem arctan_five_quarters : Real.arctan (5 / 4) < Real.pi / 4 + 1 / 9 := by
  have h := Real.arctan_add (x := 1) (y := 1 / 9) (by norm_num)
  have h9 : (0 : ℝ) < Real.arctan (1 / 9) := by
    have := Real.arctan_strictMono (show (0 : ℝ) < 1 / 9 by norm_num)
    rwa [Real.arctan_zero] at this
  have hlt := Real.lt_tan h9 (Real.arctan_lt_pi_div_two _)
  rw [Real.tan_arctan] at hlt
  rw [Real.arctan_one] at h
  have e : ((1 : ℝ) + 1 / 9) / (1 - 1 * (1 / 9)) = 5 / 4 := by norm_num
  rw [e] at h
  linarith

/-- The arctangent of a number from 0.061 on exceeds 0.06. -/
theorem lt_arctan_of_small (s : ℝ) (hs : (61 : ℝ) / 1000 ≤ s) : (3 : ℝ) / 50 < Real.arctan s := by
  have hpi := Real.pi_gt_three
  have h1 : -(Real.pi / 2) < (3 : ℝ) / 50 := by linarith
  have h2 : (3 : ℝ) / 50 < Real.pi / 2 := by linarith
  have hsin : Real.sin (3 / 50) < 3 / 50 := Real.sin_lt (by norm_num)
  have hcos : 1 - ((3 : ℝ) / 50) ^ 2 / 2 ≤ Real.cos (3 / 50) := Real.one_sub_sq_div_two_le_cos
  have hcospos : 0 < Real.cos (3 / 50) := by
    have : (0 : ℝ) < 1 - ((3 : ℝ) / 50) ^ 2 / 2 := by norm_num
    linarith
  have htan : Real.tan (3 / 50) < s := by
    rw [Real.tan_eq_sin_div_cos, div_lt_iff₀ hcospos]
    have : (3 : ℝ) / 50 < 61 / 1000 * Real.cos (3 / 50) := by nlinarith
    nlinarith
  have := Real.arctan_strictMono htan
  rwa [Real.arctan_tan h1 h2] at this

/-- For two numbers of the same sign, each at most eight times the other in
absolute value, and any third number `y`: the cross product of (`x1`, `y`) and
(`x2`, `y`) is at most 5/4 of their scalar product, in absolute value. -/
theorem cross_le_dot (x1 x2 y : ℝ) (hx : 0 < x1 * x2) (h1 : |x1| ≤ 8 * |x2|)
    (h2 : |x2| ≤ 8 * |x1|) : |y * x2 - x1 * y| ≤ 5 / 4 * (x1 * x2 + y * y) := by
  have hab : |x1| * |x2| = x1 * x2 := by rw [← abs_mul, abs_of_pos hx]
  have hk : 0 ≤ (8 * |x2| - |x1|) * (8 * |x1| - |x2|) :=
    mul_nonneg (by linarith) (by linarith)
  have hsq1 : |x1| ^ 2 = x1 ^ 2 := sq_abs x1
  have hsq2 : |x2| ^ 2 = x2 ^ 2 := sq_abs x2
  have key : 4 * (x2 - x1) ^ 2 ≤ 25 * (x1 * x2) := by nlinarith
  rw [abs_le]
  constructor
  · nlinarith [sq_nonneg (5 * y + 2 * (x2 - x1))]
  · nlinarith [sq_nonneg (5 * y - 2 * (x2 - x1))]

/-- The difference of the arguments of two complex numbers whose imaginary parts
have the same sign and whose cross product is at most 5/4 of their positive scalar
product is at most the arctangent of 5/4, in absolute value. -/
theorem arg_sub_abs_le (x1 y1 x2 y2 : ℝ) (hy : 0 < y1 * y2) (hdot : 0 < x1 * x2 + y1 * y2)
    (hT : |y1 * x2 - x1 * y2| ≤ 5 / 4 * (x1 * x2 + y1 * y2)) :
    |Complex.arg ⟨x1, y1⟩ - Complex.arg ⟨x2, y2⟩| ≤ Real.arctan (5 / 4) := by
  rw [arg_sub_eq_arctan x1 y1 x2 y2 hy hdot]
  have hT' := abs_le.mp hT
  have hle : (y1 * x2 - x1 * y2) / (x1 * x2 + y1 * y2) ≤ 5 / 4 := by
    rw [div_le_iff₀ hdot]
    exact hT'.2
  have hge : -(5 / 4) ≤ (y1 * x2 - x1 * y2) / (x1 * x2 + y1 * y2) := by
    rw [le_div_iff₀ hdot]
    linarith [hT'.1]
  rw [abs_le, ← Real.arctan_neg]
  exact ⟨Real.arctan_strictMono.monotone hge, Real.arctan_strictMono.monotone hle⟩

/-- Cubes, scaled by a positive factor, of two numbers of the same sign each at
most twice the other: same sign, and each at most eight times the other. -/
theorem cube_scale (t1 t2 c : ℝ) (hc : 0 < c) (h : 0 < t1 * t2) (h12 : |t1| ≤ 2 * |t2|)
    (h21 : |t2| ≤ 2 * |t1|) :
    0 < t1 ^ 3 * c * (t2 ^ 3 * c) ∧ |t1 ^ 3 * c| ≤ 8 * |t2 ^ 3 * c| ∧
      |t2 ^ 3 * c| ≤ 8 * |t1 ^ 3 * c| := by
  have e : t1 ^ 3 * c * (t2 ^ 3 * c) = (t1 * t2) ^ 3 * (c * c) := by ring
  have p12 := pow_le_pow_left₀ (abs_nonneg t1) h12 3
  have p21 := pow_le_pow_left₀ (abs_nonneg t2) h21 3
  rw [e, abs_mul, abs_mul, abs_pow, abs_pow, abs_of_pos hc]
  refine ⟨by positivity, ?_, ?_⟩
  · nlinarith
  · nlinarith

/-- The difference of the angles that `UvToMathSpace` writes for two points on the
same side of the horizontal centre line, with the real arctangent: the difference
of the arguments, the constant added to a negative angle being added to both or to
none. -/
theorem UvToMathSpace_angle_sub (E : Env ℝ) (aspectX aspectY u1 v1 u2 v2 : ℝ)
    (hatan : ∀ y x, E.atan2f y x = Complex.arg ⟨x, y⟩)
    (hy : 0 < (v1 * 2 - 1) * aspectY * ((v2 * 2 - 1) * aspectY)) :
    (UvToMathSpace E aspectX aspectY u1 v1).2 - (UvToMathSpace E aspectX aspectY u2 v2).2 =
      Complex.arg ⟨(u1 * 2 - 1) * aspectX, (v1 * 2 - 1) * aspectY⟩ -
        Complex.arg ⟨(u2 * 2 - 1) * aspectX, (v2 * 2 - 1) * aspectY⟩ := by
  simp only [UvToMathSpace, hatan]
  rcases lt_or_le ((v1 * 2 - 1) * aspectY) 0 with h1 | h1
  · have h2 : (v2 * 2 - 1) * aspectY < 0 := by nlinarith
    rw [if_pos (Complex.arg_neg_iff.mpr h1), if_pos (Complex.arg_neg_iff.mpr h2)]
    ring
  · have h2 : 0 ≤ (v2 * 2 - 1) * aspectY := by nlinarith
    rw [if_neg (not_lt.mpr (Complex.arg_nonneg_iff.mpr h1)),
      if_neg (not_lt.mpr (Complex.arg_nonneg_iff.mpr h2))]

/-- A vertex on no seam line keeps the angle that `UvToMathSpace` computed. -/
theorem InitializeMesh_angle_off_seam (E : Env K) (W H : ℕ)
    (presetState : PresetState K E.Audio) (self : FinalComposite K E.MilkdropShader)
    (gridX gridY : ℕ)
    (hbuild : ¬(self.m_viewportWidth = presetState.renderContext.viewportSizeX ∧
      self.m_viewportHeight = presetState.renderContext.viewportSizeY))
    (hX : gridX < W) (hY : gridY < H)
    (hseam : gridX ≠ W / 2 - 1 ∧ gridX ≠ W / 2 ∧ gridY ≠ H / 2 - 1 ∧ gridY ≠ H / 2) :
    ((InitializeMesh E W H presetState self).1.m_vertices (gridX + gridY * W)).angle =
      (UvToMathSpace E presetState.renderContext.aspectX presetState.renderContext.aspectY
        (colU W gridX) (rowV H gridY)).2 := by
  rw [InitializeMesh_vertex E W H presetState self gridX gridY hbuild hX hY]
  simp [writeVertex, fixupAngle, hseam.1, hseam.2.1, hseam.2.2.1, hseam.2.2.2]

/-- C10, as the code has it. In the mesh that `InitializeMesh` builds for an even
grid size `W`, `H` of at least 4 and positive aspect ratios, in exact real
arithmetic with the real arctangent: the angles of two vertices that are
horizontal or vertical neighbours and of which neither lies on a seam line differ
by at most the arctangent of 5/4, which is less than a quarter of pi plus 1/9. -/
theorem InitializeMesh_adjacent_angles (E : Env ℝ) (W H : ℕ)
    (presetState : PresetState ℝ E.Audio) (self : FinalComposite ℝ E.MilkdropShader)
    (gridX gridY gridX2 gridY2 : ℕ)
    (hatan : ∀ y x, E.atan2f y x = Complex.arg ⟨x, y⟩)
    (hbuild : ¬(self.m_viewportWidth = presetState.renderContext.viewportSizeX ∧
      self.m_viewportHeight = presetState.renderContext.viewportSizeY))
    (hW : 4 ≤ W) (hWe : W % 2 = 0) (hH : 4 ≤ H) (hHe : H % 2 = 0)
    (hax : 0 < presetState.renderContext.aspectX) (hay : 0 < presetState.renderContext.aspectY)
    (hadj : (gridX2 = gridX + 1 ∧ gridY2 = gridY) ∨ (gridX2 = gridX ∧ gridY2 = gridY + 1))
    (hX : gridX2 < W) (hY : gridY2 < H)
    (hseam : gridX ≠ W / 2 - 1 ∧ gridX ≠ W / 2 ∧ gridY ≠ H / 2 - 1 ∧ gridY ≠ H / 2)
    (hseam2 : gridX2 ≠ W / 2 - 1 ∧ gridX2 ≠ W / 2 ∧ gridY2 ≠ H / 2 - 1 ∧ gridY2 ≠ H / 2) :
    |((InitializeMesh E W H presetState self).1.m_vertices (gridX + gridY * W)).angle -
        ((InitializeMesh E W H presetState self).1.m_vertices (gridX2 + gridY2 * W)).angle| ≤
      Real.arctan (5 / 4) ∧
    Real.arctan (5 / 4) < Real.pi / 4 + 1 / 9 := by
  refine ⟨?_, arctan_five_quarters⟩
  have hX1 : gridX < W := by rcases hadj with h | h <;> omega
  have hY1 : gridY < H := by rcases hadj with h | h <;> omega
  rw [InitializeMesh_angle_off_seam E W H presetState self gridX gridY hbuild hX1 hY1 hseam,
    InitializeMesh_angle_off_seam E W H presetState self gridX2 gridY2 hbuild hX hY hseam2]
  have cx1 := (colU_rowV_centred (K := ℝ) W gridX).1
  have cy1 := (colU_rowV_centred (K := ℝ) H gridY).2
  have cx2 := (colU_rowV_centred (K := ℝ) W gridX2).1
  have cy2 := (colU_rowV_centred (K := ℝ) H gridY2).2
  have nx1 := centred_ne_zero (K := ℝ) W gridX hW hWe hX1 hseam.1 hseam.2.1
  have ny1 := centred_ne_zero (K := ℝ) H gridY hH hHe hY1 hseam.2.2.1 hseam.2.2.2
  rcases hadj with ⟨rfl, rfl⟩ | ⟨rfl, rfl⟩
  · -- horizontal neighbours: the same row
    have hadj := centred_adjacent (K := ℝ) W gridX hW hWe hX hseam.1 hseam.2.1
      hseam2.1 hseam2.2.1
    have hc := cube_scale _ _ _ hax hadj.1 hadj.2.1 hadj.2.2
    have hypos : 0 < (rowV H gridY2 * 2 - 1) * presetState.renderContext.aspectY *
        ((rowV H gridY2 * 2 - 1) * presetState.renderContext.aspectY) := by
      rw [cy1]
      exact mul_self_pos.mpr (mul_ne_zero (pow_ne_zero 3 ny1) hay.ne')
    rw [UvToMathSpace_angle_sub E _ _ _ _ _ _ hatan hypos, cx1, cx2]
    have hT := cross_le_dot _ _ ((rowV H gridY2 * 2 - 1) * presetState.renderContext.aspectY)
      hc.1 hc.2.1 hc.2.2
    exact arg_sub_abs_le _ _ _ _ hypos (by linarith [hc.1]) hT
  · -- vertical neighbours: the same column
    have hadj := centred_adjacent (K := ℝ) H gridY hH hHe hY hseam.2.2.1 hseam.2.2.2
      hseam2.2.2.1 hseam2.2.2.2
    have hc := cube_scale _ _ _ hay hadj.1 hadj.2.1 hadj.2.2
    have hxpos : 0 < (colU W gridX2 * 2 - 1) * presetState.renderContext.aspectX *
        ((colU W gridX2 * 2 - 1) * presetState.renderContext.aspectX) := by
      rw [cx1]
      exact mul_self_pos.mpr (mul_ne_zero (pow_ne_zero 3 nx1) hax.ne')
    have hypos : 0 < (rowV H gridY * 2 - 1) * presetState.renderContext.aspectY *
        ((rowV H (gridY + 1) * 2 - 1) * presetState.renderContext.aspectY) := by
      rw [cy1, cy2]
      exact hc.1
    rw [UvToMathSpace_angle_sub E _ _ _ _ _ _ hatan hypos]
    have hT := cross_le_dot _ _ ((colU W gridX2 * 2 - 1) * presetState.renderContext.aspectX)
      (by rw [mul_comm]; exact hc.1) hc.2.2 hc.2.1
    rw [← cy1, ← cy2] at hT
    refine arg_sub_abs_le _ _ _ _ hypos (by linarith [hxpos]) ?_
    have e1 : (rowV H gridY * 2 - 1) * presetState.renderContext.aspectY *
          ((colU W gridX2 * 2 - 1) * presetState.renderContext.aspectX) -
        (colU W gridX2 * 2 - 1) * presetState.renderContext.aspectX *
          ((rowV H (gridY + 1) * 2 - 1) * presetState.renderContext.aspectY) =
        (colU W gridX2 * 2 - 1) * presetState.renderContext.aspectX *
            ((rowV H gridY * 2 - 1) * presetState.renderContext.aspectY) -
          (rowV H (gridY + 1) * 2 - 1) * presetState.renderContext.aspectY *
            ((colU W gridX2 * 2 - 1) * presetState.renderContext.aspectX) := by ring
    rw [e1]
    linarith [hT]

/-- C10 at a concrete input: the mesh of 32 by 24 vertices with aspect ratios 1 and
0.75 over the reals, with the real square root and arctangent; the horizontal
neighbours at grid positions (20, 5) and (21, 5). -/
theorem InitializeMesh_adjacent_angles_witness :
    |((InitializeMesh (traceEnv ℝ Real.sqrt fun y x => Complex.arg ⟨x, y⟩) 32 24
          (sampleState ℝ) (sampleComposite ℝ)).1.m_vertices (20 + 5 * 32)).angle -
        ((InitializeMesh (traceEnv ℝ Real.sqrt fun y x => Complex.arg ⟨x, y⟩) 32 24
          (sampleState ℝ) (sampleComposite ℝ)).1.m_vertices (21 + 5 * 32)).angle| ≤
      Real.arctan (5 / 4) ∧
    Real.arctan (5 / 4) < Real.pi / 4 + 1 / 9 :=
  InitializeMesh_adjacent_angles (traceEnv ℝ Real.sqrt fun y x => Complex.arg ⟨x, y⟩) 32 24
    (sampleState ℝ) (sampleComposite ℝ) 20 5 21 5 (fun _ _ => rfl)
    (by simp [sampleState, sampleComposite]) (by norm_num) (by norm_num) (by norm_num)
    (by norm_num) (by norm_num [sampleState]) (by norm_num [sampleState])
    (Or.inl ⟨rfl, rfl⟩) (by norm_num) (by norm_num) (by decide) (by decide)

/-- C10, a pair of neighbours further apart than a quarter of pi: in the mesh of 32
by 24 vertices with aspect ratios 1 and 0.75, built over the reals with the real
square root and arctangent, the vertices at grid positions (17, 13) and (18, 13)
are horizontal neighbours, lie on none of the seam columns 15 and 16 and seam rows
11 and 12, and their angles differ by more than a quarter of pi plus 0.06. -/
theorem InitializeMesh_adjacent_angles_exceed_quarter_pi :
    Real.pi / 4 + 3 / 50 <
      ((InitializeMesh (traceEnv ℝ Real.sqrt fun y x => Complex.arg ⟨x, y⟩) 32 24
          (sampleState ℝ) (sampleComposite ℝ)).1.m_vertices (17 + 13 * 32)).angle -
        ((InitializeMesh (traceEnv ℝ Real.sqrt fun y x => Complex.arg ⟨x, y⟩) 32 24
          (sampleState ℝ) (sampleComposite ℝ)).1.m_vertices (18 + 13 * 32)).angle := by
  have hbuild : ¬((sampleComposite ℝ).m_viewportWidth =
        (sampleState ℝ).renderContext.viewportSizeX ∧
      (sampleComposite ℝ).m_viewportHeight = (sampleState ℝ).renderContext.viewportSizeY) := by
    simp [sampleState, sampleComposite]
  have cx1 : colU 32 17 * 2 - 1 = (1 / 3375 : ℝ) := by
    rw [(colU_rowV_centred 32 17).1]
    norm_num [centred]
  have cx2 : colU 32 18 * 2 - 1 = (8 / 3375 : ℝ) := by
    rw [(colU_rowV_centred 32 18).1]
    norm_num [centred]
  have cy : rowV 24 13 * 2 - 1 = (1 / 1331 : ℝ) := by
    rw [(colU_rowV_centred 24 13).2]
    norm_num [centred]
  have hax : (sampleState ℝ).renderContext.aspectX = 1 := by norm_num [sampleState]
  have hay : (sampleState ℝ).renderContext.aspectY = 3 / 4 := by norm_num [sampleState]
  have h1 := InitializeMesh_angle_off_seam
    (traceEnv ℝ Real.sqrt fun y x => Complex.arg ⟨x, y⟩) 32 24 (sampleState ℝ)
    (sampleComposite ℝ) 17 13 hbuild (by norm_num) (by norm_num) (by decide)
  have h2 := InitializeMesh_angle_off_seam
    (traceEnv ℝ Real.sqrt fun y x => Complex.arg ⟨x, y⟩) 32 24 (sampleState ℝ)
    (sampleComposite ℝ) 18 13 hbuild (by norm_num) (by norm_num) (by decide)
  rw [h1, h2,
    UvToMathSpace_angle_sub (traceEnv ℝ Real.sqrt fun y x => Complex.arg ⟨x, y⟩) _ _ _ _ _ _
      (fun _ _ => rfl) (by rw [cy, hay]; norm_num),
    cx1, cx2, cy, hax, hay,
    arg_sub_eq_arctan _ _ _ _ (by norm_num) (by norm_num)]
  have hsplit := Real.arctan_add (x := 1) (y := 48063067 / 706613933) (by norm_num)
  rw [Real.arctan_one] at hsplit
  have hsmall := lt_arctan_of_small (48063067 / 706613933) (by norm_num)
  have e : (1 / 1331 * (3 / 4) * (8 / 3375 * 1) - 1 / 3375 * 1 * (1 / 1331 * (3 / 4))) /
      (1 / 3375 * 1 * (8 / 3375 * 1) + 1 / 1331 * (3 / 4) * (1 / 1331 * (3 / 4))) =
      ((1 : ℝ) + 48063067 / 706613933) / (1 - 1 * (48063067 / 706613933)) := by norm_num
  rw [e, ← hsplit]
  linarith

end MeshTheorems

section MeshTheorems2

variable {K : Type} [LinearOrderedField K]

/-- C16. With the real square root and aspect ratios that are not both zero, the
radius that `UvToMathSpace` writes is exactly 1 at each of the four screen corners
(`u` and `v` each 0 or 1), 0 at the screen centre (`u = v = 0.5`), and in [0, 1]
for every (`u`, `v`) of the unit square. -/
theorem UvToMathSpace_radius (E : Env ℝ) (aspectX aspectY : ℝ)
    (hsqrt : ∀ x, E.sqrtf x = Real.sqrt x) (hasp : ¬(aspectX = 0 ∧ aspectY = 0)) :
    (∀ u v, (u = 0 ∨ u = 1) → (v = 0 ∨ v = 1) →
      (UvToMathSpace E aspectX aspectY u v).1 = 1) ∧
    (UvToMathSpace E aspectX aspectY 0.5 0.5).1 = 0 ∧
    (∀ u v, 0 ≤ u → u ≤ 1 → 0 ≤ v → v ≤ 1 →
      0 ≤ (UvToMathSpace E aspectX aspectY u v).1 ∧
        (UvToMathSpace E aspectX aspectY u v).1 ≤ 1) := by
  have hpos : 0 < aspectX * aspectX + aspectY * aspectY := by
    rcases not_and_or.mp hasp with h | h
    · have := mul_self_pos.mpr h
      nlinarith [mul_self_nonneg aspectY]
    · have := mul_self_pos.mpr h
      nlinarith [mul_self_nonneg aspectX]
  have hs : 0 < Real.sqrt (aspectX * aspectX + aspectY * aspectY) := Real.sqrt_pos.mpr hpos
  refine ⟨?_, ?_, ?_⟩
  · intro u v hu hv
    simp only [UvToMathSpace, hsqrt]
    have e : (u * 2 - 1) * aspectX * ((u * 2 - 1) * aspectX) +
        (v * 2 - 1) * aspectY * ((v * 2 - 1) * aspectY) =
        aspectX * aspectX + aspectY * aspectY := by
      rcases hu with rfl | rfl <;> rcases hv with rfl | rfl <;> ring
    rw [e]
    exact div_self hs.ne'
  · simp only [UvToMathSpace, hsqrt]
    norm_num
  · intro u v hu0 hu1 hv0 hv1
    simp only [UvToMathSpace, hsqrt]
    refine ⟨div_nonneg (Real.sqrt_nonneg _) (Real.sqrt_nonneg _), ?_⟩
    rw [div_le_one hs]
    apply Real.sqrt_le_sqrt
    have h1 : (u * 2 - 1) * (u * 2 - 1) ≤ 1 := by nlinarith
    have h2 : (v * 2 - 1) * (v * 2 - 1) ≤ 1 := by nlinarith
    nlinarith [mul_self_nonneg aspectX, mul_self_nonneg aspectY,
      mul_le_mul_of_nonneg_right h1 (mul_self_nonneg aspectX),
      mul_le_mul_of_nonneg_right h2 (mul_self_nonneg aspectY)]

/-- C16 at a concrete input: aspect ratios 1 and 0.75, the corner `u = 0`, `v = 1`
and the centre. -/
theorem UvToMathSpace_radius_witness :
    (UvToMathSpace (traceEnv ℝ Real.sqrt fun y x => Complex.arg ⟨x, y⟩) 1 (3 / 4) 0 1).1 = 1 ∧
    (UvToMathSpace (traceEnv ℝ Real.sqrt fun y x => Complex.arg ⟨x, y⟩) 1 (3 / 4)
      0.5 0.5).1 = 0 :=
  have h := UvToMathSpace_radius (traceEnv ℝ Real.sqrt fun y x => Complex.arg ⟨x, y⟩) 1 (3 / 4)
    (fun _ => rfl) (by norm_num)
  ⟨h.1 0 1 (Or.inl rfl) (Or.inr rfl), h.2.1⟩

/-- The folded index of a grid index on an axis of `N` vertices (`N` even, at
least 4) is at most `N - 2`, is 0 at the first index and `N - 2` at the last. -/
theorem folded_index_range (N g : ℕ) (hN : 4 ≤ N) (he : N % 2 = 0) (hg : g < N) :
    g - g / (N / 2) ≤ N - 2 ∧ 0 - 0 / (N / 2) = 0 ∧ (N - 1) - (N - 1) / (N / 2) = N - 2 := by
  have hlast : (N - 1) / (N / 2) = 1 := Nat.div_eq_of_lt_le (by omega) (by omega)
  refine ⟨?_, by simp, by rw [hlast]; omega⟩
  rcases Nat.lt_or_ge g (N / 2) with h | h
  · rw [Nat.div_eq_of_lt h]
    omega
  · rw [Nat.div_eq_of_lt_le (by omega : 1 * (N / 2) ≤ g) (by omega)]
    omega

/-- The centred coordinate of a grid index on an axis of `N` vertices (`N` even, at
least 4) lies in [-1, 1]; it is -1 at the first index and 1 at the last. -/
theorem centred_range (N g : ℕ) (hN : 4 ≤ N) (he : N % 2 = 0) (hg : g < N) :
    (-1 : K) ≤ centred N g ∧ (centred N g : K) ≤ 1 ∧ (centred N 0 : K) = -1 ∧
      (centred N (N - 1) : K) = 1 := by
  have hf := folded_index_range N g hN he hg
  have hpos : (0 : K) < ((N - 2 : ℕ) : K) := by exact_mod_cast (show 0 < N - 2 by omega)
  have hle : ((g - g / (N / 2) : ℕ) : K) ≤ ((N - 2 : ℕ) : K) := by exact_mod_cast hf.1
  have hnn : (0 : K) ≤ ((g - g / (N / 2) : ℕ) : K) := Nat.cast_nonneg _
  have e : ∀ i : K, i * (1.0 / ((N - 2 : ℕ) : K)) * 2 - 1 = i / ((N - 2 : ℕ) : K) * 2 - 1 := by
    intro i
    norm_num
    ring
  refine ⟨?_, ?_, ?_, ?_⟩
  · simp only [centred, e]
    have : 0 ≤ ((g - g / (N / 2) : ℕ) : K) / ((N - 2 : ℕ) : K) := div_nonneg hnn hpos.le
    linarith
  · simp only [centred, e]
    have : ((g - g / (N / 2) : ℕ) : K) / ((N - 2 : ℕ) : K) ≤ 1 := (div_le_one hpos).mpr hle
    linarith
  · simp only [centred, e, hf.2.1]
    simp
  · simp only [centred, e, hf.2.2]
    rw [div_self hpos.ne']
    norm_num

/-- C20. When `InitializeMesh` builds the mesh for an even grid size `W`, `H` of at
least 4, every vertex has `u` and `v` in [0, 1] and the position
`(x, y) = (2 u - 1, -(2 v - 1))` in [-1, 1] x [-1, 1], and the four grid corners
lie on the four viewport corners: grid (0, 0) has uv (0, 0) and position (-1, 1),
grid (W-1, 0) has uv (1, 0) and position (1, 1), grid (0, H-1) has uv (0, 1) and
position (-1, -1), grid (W-1, H-1) has uv (1, 1) and position (1, -1). -/
theorem InitializeMesh_full_screen (E : Env K) (W H : ℕ) (presetState : PresetState K E.Audio)
    (self : FinalComposite K E.MilkdropShader)
    (hbuild : ¬(self.m_viewportWidth = presetState.renderContext.viewportSizeX ∧
      self.m_viewportHeight = presetState.renderContext.viewportSizeY))
    (hW : 4 ≤ W) (hWe : W % 2 = 0) (hH : 4 ≤ H) (hHe : H % 2 = 0) :
    (∀ gridX gridY, gridX < W → gridY < H →
      0 ≤ ((InitializeMesh E W H presetState self).1.m_vertices (gridX + gridY * W)).u ∧
      ((InitializeMesh E W H presetState self).1.m_vertices (gridX + gridY * W)).u ≤ 1 ∧
      0 ≤ ((InitializeMesh E W H presetState self).1.m_vertices (gridX + gridY * W)).v ∧
      ((InitializeMesh E W H presetState self).1.m_vertices (gridX + gridY * W)).v ≤ 1 ∧
      ((InitializeMesh E W H presetState self).1.m_vertices (gridX + gridY * W)).x =
        2 * ((InitializeMesh E W H presetState self).1.m_vertices (gridX + gridY * W)).u - 1 ∧
      ((InitializeMesh E W H presetState self).1.m_vertices (gridX + gridY * W)).y =
        -(2 * ((InitializeMesh E W H presetState self).1.m_vertices (gridX + gridY * W)).v - 1) ∧
      -1 ≤ ((InitializeMesh E W H presetState self).1.m_vertices (gridX + gridY * W)).x ∧
      ((InitializeMesh E W H presetState self).1.m_vertices (gridX + gridY * W)).x ≤ 1 ∧
      -1 ≤ ((InitializeMesh E W H presetState self).1.m_vertices (gridX + gridY * W)).y ∧
      ((InitializeMesh E W H presetState self).1.m_vertices (gridX + gridY * W)).y ≤ 1) ∧
    (((InitializeMesh E W H presetState self).1.m_vertices (0 + 0 * W)).u = 0 ∧
      ((InitializeMesh E W H presetState self).1.m_vertices (0 + 0 * W)).v = 0 ∧
      ((InitializeMesh E W H presetState self).1.m_vertices (0 + 0 * W)).x = -1 ∧
      ((InitializeMesh E W H presetState self).1.m_vertices (0 + 0 * W)).y = 1) ∧
    (((InitializeMesh E W H presetState self).1.m_vertices (W - 1 + 0 * W)).u = 1 ∧
      ((InitializeMesh E W H presetState self).1.m_vertices (W - 1 + 0 * W)).v = 0 ∧
      ((InitializeMesh E W H presetState self).1.m_vertices (W - 1 + 0 * W)).x = 1 ∧
      ((InitializeMesh E W H presetState self).1.m_vertices (W - 1 + 0 * W)).y = 1) ∧
    (((InitializeMesh E W H presetState self).1.m_vertices (0 + (H - 1) * W)).u = 0 ∧
      ((InitializeMesh E W H presetState self).1.m_vertices (0 + (H - 1) * W)).v = 1 ∧
      ((InitializeMesh E W H presetState self).1.m_vertices (0 + (H - 1) * W)).x = -1 ∧
      ((InitializeMesh E W H presetState self).1.m_vertices (0 + (H - 1) * W)).y = -1) ∧
    (((InitializeMesh E W H presetState self).1.m_vertices (W - 1 + (H - 1) * W)).u = 1 ∧
      ((InitializeMesh E W H presetState self).1.m_vertices (W - 1 + (H - 1) * W)).v = 1 ∧
      ((InitializeMesh E W H presetState self).1.m_vertices (W - 1 + (H - 1) * W)).x = 1 ∧
      ((InitializeMesh E W H presetState self).1.m_vertices (W - 1 + (H - 1) * W)).y = -1) := by
  have hvert := fun gridX gridY hX hY =>
    InitializeMesh_vertex E W H presetState self gridX gridY hbuild hX hY
  have hu : ∀ g, colU W g = ((centred W g : K) ^ 3 + 1) / 2 := by
    intro g
    have := (colU_rowV_centred (K := K) W g).1
    linarith
  have hv : ∀ g, rowV H g = ((centred H g : K) ^ 3 + 1) / 2 := by
    intro g
    have := (colU_rowV_centred (K := K) H g).2
    linarith
  have hcube : ∀ c : K, -1 ≤ c → c ≤ 1 → -1 ≤ c ^ 3 ∧ c ^ 3 ≤ 1 := by
    intro c h1 h2
    constructor
    · nlinarith [sq_nonneg c, sq_nonneg (c + 1), mul_nonneg (sub_nonneg.mpr h2) (sq_nonneg c)]
    · nlinarith [sq_nonneg c, sq_nonneg (c - 1), mul_nonneg (by linarith : (0:K) ≤ c + 1) (sq_nonneg c)]
  have cW0 := (centred_range (K := K) W 0 hW hWe (by omega)).2.2
  have cH0 := (centred_range (K := K) H 0 hH hHe (by omega)).2.2
  refine ⟨?_, ?_, ?_, ?_, ?_⟩
  · intro gridX gridY hX hY
    rw [hvert gridX gridY hX hY]
    have cx := centred_range (K := K) W gridX hW hWe hX
    have cy := centred_range (K := K) H gridY hH hHe hY
    have ux := hcube _ cx.1 cx.2.1
    have vy := hcube _ cy.1 cy.2.1
    simp only [writeVertex, hu, hv]
    refine ⟨?_, ?_, ?_, ?_, ?_, ?_, ?_, ?_, ?_, ?_⟩ <;> linarith [ux.1, ux.2, vy.1, vy.2]
  · rw [hvert 0 0 (by omega) (by omega)]
    simp only [writeVertex, hu, hv, cW0.1, cH0.1]
    norm_num
  · rw [hvert (W - 1) 0 (by omega) (by omega)]
    simp only [writeVertex, hu, hv, cW0.2, cH0.1]
    norm_num
  · rw [hvert 0 (H - 1) (by omega) (by omega)]
    simp only [writeVertex, hu, hv, cW0.1, cH0.2]
    norm_num
  · rw [hvert (W - 1) (H - 1) (by omega) (by omega)]
    simp only [writeVertex, hu, hv, cW0.2, cH0.2]
    norm_num

/-- C20 at a concrete input: the mesh of 32 by 24 vertices built for the sample
state; the vertex at grid position (0, 0). -/
theorem InitializeMesh_full_screen_witness :
    ((InitializeMesh (traceEnv ℚ id fun _ _ => 0) 32 24 (sampleState ℚ)
      (sampleComposite ℚ)).1.m_vertices (0 + 0 * 32)).x = -1 ∧
    ((InitializeMesh (traceEnv ℚ id fun _ _ => 0) 32 24 (sampleState ℚ)
      (sampleComposite ℚ)).1.m_vertices (0 + 0 * 32)).y = 1 :=
  have h := (InitializeMesh_full_screen (traceEnv ℚ id fun _ _ => 0) 32 24 (sampleState ℚ)
    (sampleComposite ℚ) (by simp [sampleState, sampleComposite]) (by norm_num) (by norm_num)
    (by norm_num) (by norm_num)).2.1
  ⟨h.2.2.1, h.2.2.2⟩

/-- The table of the fix-ups, for an even grid size of at least 4: the angle on
each part of the four seam lines, and the angle kept off the seam lines. -/
theorem fixupAngle_table (W H gridX gridY : ℕ) (ang : K) (hW : 4 ≤ W) (hH : 4 ≤ H) :
    (gridX = W / 2 - 1 →
      (gridY < H / 2 - 1 → fixupAngle W H gridX gridY ang = 3 * PI / 2) ∧
      (gridY = H / 2 - 1 → fixupAngle W H gridX gridY ang = 5 * PI / 4) ∧
      (gridY = H / 2 → fixupAngle W H gridX gridY ang = 3 * PI / 4) ∧
      (H / 2 < gridY → fixupAngle W H gridX gridY ang = PI / 2)) ∧
    (gridX = W / 2 →
      (gridY < H / 2 - 1 → fixupAngle W H gridX gridY ang = 3 * PI / 2) ∧
      (gridY = H / 2 - 1 → fixupAngle W H gridX gridY ang = 7 * PI / 4) ∧
      (gridY = H / 2 → fixupAngle W H gridX gridY ang = PI / 4) ∧
      (H / 2 < gridY → fixupAngle W H gridX gridY ang = PI / 2)) ∧
    (gridY = H / 2 - 1 →
      (gridX < W / 2 - 1 → fixupAngle W H gridX gridY ang = PI) ∧
      (W / 2 < gridX → fixupAngle W H gridX gridY ang = 2 * PI)) ∧
    (gridY = H / 2 →
      (gridX < W / 2 - 1 → fixupAngle W H gridX gridY ang = PI) ∧
      (W / 2 < gridX → fixupAngle W H gridX gridY ang = 0)) ∧
    (gridX ≠ W / 2 - 1 → gridX ≠ W / 2 → gridY ≠ H / 2 - 1 → gridY ≠ H / 2 →
      fixupAngle W H gridX gridY ang = ang) := by
  unfold fixupAngle
  split_ifs <;>
    refine ⟨fun _ => ⟨fun _ => ?_, fun _ => ?_, fun _ => ?_, fun _ => ?_⟩,
      fun _ => ⟨fun _ => ?_, fun _ => ?_, fun _ => ?_, fun _ => ?_⟩,
      fun _ => ⟨fun _ => ?_, fun _ => ?_⟩, fun _ => ⟨fun _ => ?_, fun _ => ?_⟩,
      fun _ _ _ _ => ?_⟩
  all_goals
    first
      | rfl
      | (exfalso; omega)
      | (norm_num; done)
      | (norm_num; ring)

/-- The table of the fix-ups gives the same angle whether the column tests or the
row tests are applied first. -/
theorem fixupAngle_rows_first (W H gridX gridY : ℕ) (ang : K) (hW : 4 ≤ W) :
    fixupAngle W H gridX gridY ang = fixupAngleRowsFirst W H gridX gridY ang := by
  unfold fixupAngle fixupAngleRowsFirst
  split_ifs <;> first | rfl | (exfalso; omega)

/-- C19. When `InitializeMesh` builds the mesh for a grid size `W`, `H` of at least
4 (the even sizes among them), the angle of a vertex on a seam line is a fixed
multiple of a quarter of `PI`, whatever the aspect ratios and the arctangent: on
column `W / 2 - 1` it is 3 PI / 2, 5 PI / 4, 3 PI / 4, PI / 2 and on column `W / 2`
it is 3 PI / 2, 7 PI / 4, PI / 4, PI / 2, for rows above `H / 2 - 1`, row
`H / 2 - 1`, row `H / 2` and rows below `H / 2`; on row `H / 2 - 1` it is PI left
of the seam columns and 2 PI right of them; on row `H / 2` it is PI left and 0
right. A vertex on no seam line keeps the angle of `UvToMathSpace`. The table read
by rows first gives the same angle. -/
theorem InitializeMesh_seam_angles (E : Env K) (W H : ℕ) (presetState : PresetState K E.Audio)
    (self : FinalComposite K E.MilkdropShader) (gridX gridY : ℕ)
    (hbuild : ¬(self.m_viewportWidth = presetState.renderContext.viewportSizeX ∧
      self.m_viewportHeight = presetState.renderContext.viewportSizeY))
    (hW : 4 ≤ W) (hH : 4 ≤ H) (hX : gridX < W) (hY : gridY < H) :
    (gridX = W / 2 - 1 →
      (gridY < H / 2 - 1 →
        ((InitializeMesh E W H presetState self).1.m_vertices (gridX + gridY * W)).angle =
          3 * PI / 2) ∧
      (gridY = H / 2 - 1 →
        ((InitializeMesh E W H presetState self).1.m_vertices (gridX + gridY * W)).angle =
          5 * PI / 4) ∧
      (gridY = H / 2 →
        ((InitializeMesh E W H presetState self).1.m_vertices (gridX + gridY * W)).angle =
          3 * PI / 4) ∧
      (H / 2 < gridY →
        ((InitializeMesh E W H presetState self).1.m_vertices (gridX + gridY * W)).angle =
          PI / 2)) ∧
    (gridX = W / 2 →
      (gridY < H / 2 - 1 →
        ((InitializeMesh E W H presetState self).1.m_vertices (gridX + gridY * W)).angle =
          3 * PI / 2) ∧
      (gridY = H / 2 - 1 →
        ((InitializeMesh E W H presetState self).1.m_vertices (gridX + gridY * W)).angle =
          7 * PI / 4) ∧
      (gridY = H / 2 →
        ((InitializeMesh E W H presetState self).1.m_vertices (gridX + gridY * W)).angle =
          PI / 4) ∧
      (H / 2 < gridY →
        ((InitializeMesh E W H presetState self).1.m_vertices (gridX + gridY * W)).angle =
          PI / 2)) ∧
    (gridY = H / 2 - 1 →
      (gridX < W / 2 - 1 →
        ((InitializeMesh E W H presetState self).1.m_vertices (gridX + gridY * W)).angle = PI) ∧
      (W / 2 < gridX →
        ((InitializeMesh E W H presetState self).1.m_vertices (gridX + gridY * W)).angle =
          2 * PI)) ∧
    (gridY = H / 2 →
      (gridX < W / 2 - 1 →
        ((InitializeMesh E W H presetState self).1.m_vertices (gridX + gridY * W)).angle = PI) ∧
      (W / 2 < gridX →
        ((InitializeMesh E W H presetState self).1.m_vertices (gridX + gridY * W)).angle = 0)) ∧
    (gridX ≠ W / 2 - 1 → gridX ≠ W / 2 → gridY ≠ H / 2 - 1 → gridY ≠ H / 2 →
      ((InitializeMesh E W H presetState self).1.m_vertices (gridX + gridY * W)).angle =
        (UvToMathSpace E presetState.renderContext.aspectX presetState.renderContext.aspectY
          (colU W gridX) (rowV H gridY)).2) ∧
    ((InitializeMesh E W H presetState self).1.m_vertices (gridX + gridY * W)).angle =
      fixupAngleRowsFirst W H gridX gridY
        (UvToMathSpace E presetState.renderContext.aspectX presetState.renderContext.aspectY
          (colU W gridX) (rowV H gridY)).2 := by
  have hang : ((InitializeMesh E W H presetState self).1.m_vertices (gridX + gridY * W)).angle =
      fixupAngle W H gridX gridY
        (UvToMathSpace E presetState.renderContext.aspectX presetState.renderContext.aspectY
          (colU W gridX) (rowV H gridY)).2 := by
    rw [InitializeMesh_vertex E W H presetState self gridX gridY hbuild hX hY]
    rfl
  rw [hang]
  have ht := fixupAngle_table W H gridX gridY
    (UvToMathSpace E presetState.renderContext.aspectX presetState.renderContext.aspectY
      (colU W gridX) (rowV H gridY)).2 hW hH
  exact ⟨ht.1, ht.2.1, ht.2.2.1, ht.2.2.2.1, ht.2.2.2.2, fixupAngle_rows_first W H gridX gridY _ hW⟩

/-- C19 at a concrete input: the mesh of 32 by 24 vertices with aspect ratios 1 and
0.75 over the reals, with the real square root and arctangent; the vertex at grid
position (15, 3), on the seam column `W / 2 - 1` above the seam rows. -/
theorem InitializeMesh_seam_angles_witness :
    ((InitializeMesh (traceEnv ℝ Real.sqrt fun y x => Complex.arg ⟨x, y⟩) 32 24
      (sampleState ℝ) (sampleComposite ℝ)).1.m_vertices (15 + 3 * 32)).angle = 3 * PI / 2 :=
  ((InitializeMesh_seam_angles (traceEnv ℝ Real.sqrt fun y x => Complex.arg ⟨x, y⟩) 32 24
    (sampleState ℝ) (sampleComposite ℝ) 15 3 (by simp [sampleState, sampleComposite])
    (by norm_num) (by norm_num) (by norm_num) (by norm_num)).1 (by norm_num)).1 (by norm_num)

end MeshTheorems2

section IndexTheorems

/-- The loop body writes six indices for a cell. -/
theorem cellIndices_length (W H gridX gridY : ℕ) : (cellIndices W H gridX gridY).length = 6 := by
  simp only [cellIndices]
  split_ifs <;> rfl

/-- Storing a list that is two lists in a row: the first, then the second behind
it. -/
theorem storeIndices_append (m_indices : ℕ → Int) (currentIndex : ℕ) (l1 l2 : List Int) :
    storeIndices m_indices currentIndex (l1 ++ l2) =
      storeIndices (storeIndices m_indices currentIndex l1) (currentIndex + l1.length) l2 := by
  induction l1 generalizing m_indices currentIndex with
  | nil => rfl
  | cons v l1 ih =>
    show storeIndices (Function.update m_indices currentIndex v) (currentIndex + 1) (l1 ++ l2) =
      storeIndices (storeIndices (Function.update m_indices currentIndex v) (currentIndex + 1) l1)
        (currentIndex + (l1.length + 1)) l2
    rw [ih, show currentIndex + 1 + l1.length = currentIndex + (l1.length + 1) by omega]

/-- The array after storing a list at `currentIndex`: untouched before
`currentIndex` and behind the list, and the list's entries in between. -/
theorem storeIndices_apply (m_indices : ℕ → Int) (currentIndex : ℕ) (l : List Int) (k : ℕ) :
    storeIndices m_indices currentIndex l k =
      if currentIndex ≤ k then (l[k - currentIndex]?).getD (m_indices k) else m_indices k := by
  induction l generalizing m_indices currentIndex with
  | nil => simp [storeIndices]
  | cons v l ih =>
    simp only [storeIndices]
    rw [ih]
    by_cases h1 : currentIndex + 1 ≤ k
    · have h2 : currentIndex ≤ k := by omega
      have h3 : k - currentIndex = (k - (currentIndex + 1)) + 1 := by omega
      rw [if_pos h1, if_pos h2, h3, List.getElem?_cons_succ,
        Function.update_noteq (by omega : k ≠ currentIndex)]
    · rw [if_neg h1]
      by_cases h2 : currentIndex ≤ k
      · have h3 : k = currentIndex := by omega
        subst h3
        simp
      · rw [if_neg h2, Function.update_noteq (by omega : k ≠ currentIndex)]

/-- The loop body, run over a list of cells: the indices of the cells are stored
one cell behind the other, and `currentIndex` advances by six for each. -/
theorem foldl_cells (W H : ℕ) (cells : List (ℕ × ℕ)) (acc : (ℕ → Int) × ℕ) :
    cells.foldl
        (fun acc cell => (storeIndices acc.1 acc.2 (cellIndices W H cell.1 cell.2), acc.2 + 6))
        acc =
      (storeIndices acc.1 acc.2 (cells.flatMap fun cell => cellIndices W H cell.1 cell.2),
        acc.2 + 6 * cells.length) := by
  induction cells generalizing acc with
  | nil => simp [storeIndices]
  | cons cell cells ih =>
    simp only [List.foldl_cons, List.flatMap_cons, List.length_cons]
    rw [ih, storeIndices_append, cellIndices_length]
    congr 1
    ring

/-- A loop over `0 .. n-1` that skips one index is the loop over the other
indices. -/
theorem foldl_range_skip {α : Type} (f : α → ℕ → α) (skip n : ℕ) (a : α) :
    (List.range n).foldl (fun acc i => if i = skip then acc else f acc i) a =
      ((List.range n).filter fun i => i ≠ skip).foldl f a := by
  induction n with
  | zero => rfl
  | succ n ih =>
    rw [List.range_succ, List.foldl_append, List.filter_append, List.foldl_append, ih]
    by_cases h : n = skip <;> simp [h]

/-- The index loops store the indices of the emitted cells, one cell behind the
other from position 0, and leave `currentIndex` at six times their number. -/
theorem writeIndices_eq (W H : ℕ) (m_indices : ℕ → Int) :
    writeIndices W H m_indices =
      (storeIndices m_indices 0
          ((emittedCells W H).flatMap fun cell => cellIndices W H cell.1 cell.2),
        6 * (emittedCells W H).length) := by
  have inner : ∀ (gridY : ℕ) (acc : (ℕ → Int) × ℕ),
      (List.range (W - 1)).foldl
          (fun acc gridX =>
            if gridX = W / 2 - 1 then acc
            else (storeIndices acc.1 acc.2 (cellIndices W H gridX gridY), acc.2 + 6))
          acc =
        (((List.range (W - 1)).filter fun gridX => gridX ≠ W / 2 - 1).map
            fun gridX => (gridX, gridY)).foldl
          (fun acc cell =>
            (storeIndices acc.1 acc.2 (cellIndices W H cell.1 cell.2), acc.2 + 6))
          acc := by
    intro gridY acc
    rw [foldl_range_skip
      (fun acc gridX => (storeIndices acc.1 acc.2 (cellIndices W H gridX gridY), acc.2 + 6)),
      List.foldl_map]
  have outer : ∀ (rows : List ℕ) (acc : (ℕ → Int) × ℕ),
      rows.foldl
          (fun acc gridY =>
            (((List.range (W - 1)).filter fun gridX => gridX ≠ W / 2 - 1).map
                fun gridX => (gridX, gridY)).foldl
              (fun acc cell =>
                (storeIndices acc.1 acc.2 (cellIndices W H cell.1 cell.2), acc.2 + 6))
              acc)
          acc =
        (rows.flatMap fun gridY =>
            ((List.range (W - 1)).filter fun gridX => gridX ≠ W / 2 - 1).map
              fun gridX => (gridX, gridY)).foldl
          (fun acc cell =>
            (storeIndices acc.1 acc.2 (cellIndices W H cell.1 cell.2), acc.2 + 6))
          acc := by
    intro rows
    induction rows with
    | nil => intro acc; rfl
    | cons row rows ih =>
      intro acc
      simp only [List.foldl_cons, List.flatMap_cons, List.foldl_append]
      exact ih _
  unfold writeIndices
  rw [foldl_range_skip
    (fun acc gridY =>
      (List.range (W - 1)).foldl
        (fun acc gridX =>
          if gridX = W / 2 - 1 then acc
          else (storeIndices acc.1 acc.2 (cellIndices W H gridX gridY), acc.2 + 6))
        acc)]
  simp only [inner]
  rw [outer, foldl_cells]
  simp [emittedCells]

/-- The indices `0 .. n-1` without the index `skip`: there are `n - 1` of them when
`skip < n`. -/
theorem length_filter_ne_range (n skip : ℕ) :
    ((List.range n).filter fun i => i ≠ skip).length = if skip < n then n - 1 else n := by
  induction n with
  | zero => simp
  | succ n ih =>
    rw [List.range_succ, List.filter_append, List.length_append, ih]
    by_cases h : n = skip
    · subst h
      simp
    · have : ([n].filter fun i => i ≠ skip).length = 1 := by simp [h]
      rw [this]
      split_ifs <;> omega

/-- The emitted cells are the cells of the grid outside the seam row and the seam
column, each once, `(W - 2) (H - 2)` in all. -/
theorem emittedCells_spec (W H : ℕ) (hW : 2 ≤ W) (hH : 2 ≤ H) :
    (emittedCells W H).length = (W - 2) * (H - 2) ∧ (emittedCells W H).Nodup ∧
    (∀ gridX gridY, (gridX, gridY) ∈ emittedCells W H ↔
      gridX < W - 1 ∧ gridY < H - 1 ∧ gridX ≠ W / 2 - 1 ∧ gridY ≠ H / 2 - 1) := by
  refine ⟨?_, ?_, ?_⟩
  · have hlen : ∀ rows : List ℕ,
        (rows.flatMap fun gridY =>
          ((List.range (W - 1)).filter fun gridX => gridX ≠ W / 2 - 1).map
            fun gridX => (gridX, gridY)).length = (W - 2) * rows.length := by
      intro rows
      induction rows with
      | nil => simp
      | cons row rows ih =>
        rw [List.flatMap_cons, List.length_append, ih, List.length_map, length_filter_ne_range,
          if_pos (by omega), List.length_cons]
        have : W - 1 - 1 = W - 2 := by omega
        rw [this]
        ring
    unfold emittedCells
    rw [hlen, length_filter_ne_range, if_pos (by omega)]
    have : H - 1 - 1 = H - 2 := by omega
    rw [this]
  · unfold emittedCells
    rw [List.nodup_flatMap]
    refine ⟨fun gridY _ => ?_, ?_⟩
    · exact ((List.nodup_range _).filter _).map (fun a b h => (Prod.mk.inj h).1)
    · refine List.Pairwise.imp_of_mem ?_ ((List.nodup_range (H - 1)).filter _)
      intro a b _ _ hab
      rw [Function.onFun, List.disjoint_left]
      intro cell h1 h2
      simp only [List.mem_map] at h1 h2
      obtain ⟨x1, _, e1⟩ := h1
      obtain ⟨x2, _, e2⟩ := h2
      exact hab ((Prod.mk.inj (e1.trans e2.symm)).2)
  · intro gridX gridY
    simp only [emittedCells, List.mem_flatMap, List.mem_map, List.mem_filter, List.mem_range,
      Prod.mk.injEq, decide_eq_true_eq]
    constructor
    · rintro ⟨gy, ⟨h1, h2⟩, gx, ⟨h3, h4⟩, rfl, rfl⟩
      exact ⟨h3, h1, h4, h2⟩
    · rintro ⟨h1, h2, h3, h4⟩
      exact ⟨gridY, ⟨h2, h4⟩, gridX, ⟨h1, h3⟩, rfl, rfl⟩

/-- The entry at position `c j + t` of lists of length `c` in a row: entry `t` of
list `j`. -/
theorem getElem?_flatMap_const {α β : Type} (l : List α) (f : α → List β) (c : ℕ)
    (hc : ∀ a, (f a).length = c) (j t : ℕ) (ht : t < c) :
    (l.flatMap f)[c * j + t]? = (l[j]?).bind fun a => (f a)[t]? := by
  induction l generalizing j with
  | nil => simp
  | cons a l ih =>
    rw [List.flatMap_cons]
    cases j with
    | zero =>
      rw [List.getElem?_append_left (by rw [hc]; omega)]
      simp
    | succ j =>
      rw [List.getElem?_append_right (by rw [hc, Nat.mul_succ]; omega), hc]
      have : c * (j + 1) + t - c = c * j + t := by rw [Nat.mul_succ]; omega
      rw [this, ih]
      simp

/-- Lists of length `c` in a row, one for each entry of a list, have `c` times its
length. -/
theorem length_flatMap_const {α β : Type} (l : List α) (f : α → List β) (c : ℕ)
    (hc : ∀ a, (f a).length = c) : (l.flatMap f).length = c * l.length := by
  induction l with
  | nil => simp
  | cons a l ih =>
    rw [List.flatMap_cons, List.length_append, ih, hc, List.length_cons]
    ring

/-- The six indices of a cell, by the cell's parity: for an odd parity the
triangles (top left, top right, bottom right) and (bottom right, bottom left, top
left), for an even parity the triangles (bottom left, top left, top right) and
(top right, bottom right, bottom left). -/
theorem cellIndices_by_parity (W H gridX gridY : ℕ) :
    (cellParity W H gridX gridY = 1 →
      cellIndices W H gridX gridY =
        [vertexIndex W gridX gridY, vertexIndex W (gridX + 1) gridY,
          vertexIndex W (gridX + 1) (gridY + 1), vertexIndex W (gridX + 1) (gridY + 1),
          vertexIndex W gridX (gridY + 1), vertexIndex W gridX gridY]) ∧
    (cellParity W H gridX gridY = 0 →
      cellIndices W H gridX gridY =
        [vertexIndex W gridX (gridY + 1), vertexIndex W gridX gridY,
          vertexIndex W (gridX + 1) gridY, vertexIndex W (gridX + 1) gridY,
          vertexIndex W (gridX + 1) (gridY + 1), vertexIndex W gridX (gridY + 1)]) ∧
    (cellParity W H gridX gridY = 0 ∨ cellParity W H gridX gridY = 1) := by
  have hpar : (decide (gridX < W / 2)).toNat + (decide (gridY < H / 2)).toNat +
      ((decide (gridX = W / 2) || decide (gridX = W / 2 - 1)) &&
        (decide (gridY = H / 2) || decide (gridY = H / 2 - 1))).toNat =
      (if gridX < W / 2 then 1 else 0) + (if gridY < H / 2 then 1 else 0) +
        (if (gridX = W / 2 ∨ gridX = W / 2 - 1) ∧ (gridY = H / 2 ∨ gridY = H / 2 - 1) then 1
          else 0) := by
    have toNat_decide : ∀ (p : Prop) [Decidable p], (decide p).toNat = if p then 1 else 0 := by
      intro p _
      by_cases h : p <;> simp [h]
    have hc4 : ((decide (gridX = W / 2) || decide (gridX = W / 2 - 1)) &&
        (decide (gridY = H / 2) || decide (gridY = H / 2 - 1))) =
        decide ((gridX = W / 2 ∨ gridX = W / 2 - 1) ∧ (gridY = H / 2 ∨ gridY = H / 2 - 1)) := by
      simp [Bool.decide_and, Bool.decide_or]
    rw [hc4, toNat_decide, toNat_decide, toNat_decide]
  have hidx : ∀ a b : ℕ, vertexIndex W a b = ((b * W + a : ℕ) : Int) := by
    intro a b
    unfold vertexIndex
    rw [Nat.add_comm]
  simp only [cellIndices, hpar, hidx]
  refine ⟨fun h => ?_, fun h => ?_, ?_⟩
  · unfold cellParity at h
    rw [if_pos h]
    simp [Nat.add_assoc]
  · unfold cellParity at h
    rw [if_neg (by omega)]
  · unfold cellParity
    omega

/-- The four corners of a cell are four different index values, each a valid
position of the vertex array. -/
theorem cellCorners_spec (W H gridX gridY : ℕ) (hW : 2 ≤ W) (hX : gridX < W - 1)
    (hY : gridY < H - 1) :
    (cellCorners W gridX gridY).Nodup ∧
    ∀ v ∈ cellCorners W gridX gridY, 0 ≤ v ∧ v < ((W * H : ℕ) : Int) := by
  have hrow : (gridY + 1) * W + W ≤ W * H := by
    have h1 : (gridY + 2) * W ≤ H * W := Nat.mul_le_mul_right W (by omega)
    have h2 : (gridY + 2) * W = (gridY + 1) * W + W := by ring
    have h3 : H * W = W * H := Nat.mul_comm H W
    omega
  have hsucc : (gridY + 1) * W = gridY * W + W := by ring
  constructor
  · simp only [cellCorners, vertexIndex, List.nodup_cons, List.mem_cons, List.mem_singleton,
      List.not_mem_nil, or_false, not_or, Nat.cast_inj, List.nodup_nil, and_true, not_false_eq_true]
    refine ⟨⟨?_, ?_, ?_⟩, ⟨?_, ?_⟩, ?_⟩ <;> omega
  · intro v hv
    simp only [cellCorners, vertexIndex, List.mem_cons, List.mem_singleton, List.not_mem_nil,
      or_false] at hv
    rcases hv with rfl | rfl | rfl | rfl <;>
      exact ⟨Int.natCast_nonneg _, by exact_mod_cast (show _ < W * H by omega)⟩

/-- The six indices of a cell are two triangles, each of three different corners
of the cell, and between them they use all four corners. -/
theorem cellIndices_triangles (W H gridX gridY : ℕ) (hW : 2 ≤ W) (hX : gridX < W - 1)
    (hY : gridY < H - 1) :
    ∃ a b c d e f, cellIndices W H gridX gridY = [a, b, c, d, e, f] ∧
      a ≠ b ∧ b ≠ c ∧ a ≠ c ∧ d ≠ e ∧ e ≠ f ∧ d ≠ f ∧
      (∀ v ∈ [a, b, c, d, e, f], v ∈ cellCorners W gridX gridY) ∧
      (∀ v ∈ cellCorners W gridX gridY, v ∈ [a, b, c, d, e, f]) := by
  have hnd := (cellCorners_spec W H gridX gridY hW hX hY).1
  simp only [cellCorners, List.nodup_cons, List.mem_cons, List.mem_singleton,
    List.not_mem_nil, or_false, not_or, List.nodup_nil, and_true, not_false_eq_true] at hnd
  obtain ⟨⟨h12, h13, h14⟩, ⟨h23, h24⟩, h34⟩ := hnd
  rcases (cellIndices_by_parity W H gridX gridY).2.2 with h | h
  · refine ⟨_, _, _, _, _, _, (cellIndices_by_parity W H gridX gridY).2.1 h, ?_⟩
    refine ⟨Ne.symm h13, h12, Ne.symm h23, h24, Ne.symm h34, h23, ?_, ?_⟩ <;>
      simp [cellCorners]
  · refine ⟨_, _, _, _, _, _, (cellIndices_by_parity W H gridX gridY).1 h, ?_⟩
    refine ⟨h12, h24, h14, Ne.symm h34, Ne.symm h13, Ne.symm h14, ?_, ?_⟩ <;>
      simp [cellCorners]

/-- The index array that `InitializeMesh` leaves when it builds the mesh: the
indices of the emitted cells from position 0 on, six for each cell in the order of
the loops, and the old contents behind them. -/
theorem InitializeMesh_indices {K : Type} [LinearOrderedField K] (E : Env K) (W H : ℕ)
    (presetState : PresetState K E.Audio) (self : FinalComposite K E.MilkdropShader)
    (hbuild : ¬(self.m_viewportWidth = presetState.renderContext.viewportSizeX ∧
      self.m_viewportHeight = presetState.renderContext.viewportSizeY)) :
    (∀ j t, t < 6 →
      ((emittedCells W H)[j]?).bind (fun cell => (cellIndices W H cell.1 cell.2)[t]?) =
        if j < (emittedCells W H).length then
          some ((InitializeMesh E W H presetState self).1.m_indices (6 * j + t))
        else none) ∧
    (∀ k, 6 * (emittedCells W H).length ≤ k →
      (InitializeMesh E W H presetState self).1.m_indices k = self.m_indices k) := by
  have hidx : (InitializeMesh E W H presetState self).1.m_indices =
      storeIndices self.m_indices 0
        ((emittedCells W H).flatMap fun cell => cellIndices W H cell.1 cell.2) := by
    unfold InitializeMesh
    rw [if_neg hbuild, writeIndices_eq]
  have hlen := length_flatMap_const (emittedCells W H)
    (fun cell => cellIndices W H cell.1 cell.2) 6 (fun cell => cellIndices_length W H _ _)
  constructor
  · intro j t ht
    rw [← getElem?_flatMap_const (emittedCells W H)
      (fun cell => cellIndices W H cell.1 cell.2) 6 (fun cell => cellIndices_length W H _ _) j t ht,
      hidx, storeIndices_apply, if_pos (Nat.zero_le _), Nat.sub_zero]
    by_cases hj : j < (emittedCells W H).length
    · rw [if_pos hj, List.getElem?_eq_getElem (by rw [hlen]; omega)]
      rfl
    · rw [if_neg hj, List.getElem?_eq_none (by rw [hlen]; omega)]
  · intro k hk
    rw [hidx, storeIndices_apply, if_pos (Nat.zero_le _), Nat.sub_zero,
      List.getElem?_eq_none (by rw [hlen]; exact hk)]
    rfl

/-- C17. When `InitializeMesh` builds the mesh for a grid size `W`, `H` of at least
4 (the even sizes among them), `currentIndex` ends at `6 (W - 2) (H - 2)`; the
positions before it hold, contiguously from position 0, six indices for each cell
(`gridX`, `gridY`) with `gridX < W - 1` and `gridY < H - 1` outside the seam column
`W / 2 - 1` and the seam row `H / 2 - 1`, each cell once; every index written is a
valid vertex position below `W H`; the six indices of a cell are two triangles of
three different corners of that cell; the positions from `currentIndex` on are
untouched. -/
theorem InitializeMesh_index_list {K : Type} [LinearOrderedField K] (E : Env K) (W H : ℕ)
    (presetState : PresetState K E.Audio) (self : FinalComposite K E.MilkdropShader)
    (hbuild : ¬(self.m_viewportWidth = presetState.renderContext.viewportSizeX ∧
      self.m_viewportHeight = presetState.renderContext.viewportSizeY))
    (hW : 4 ≤ W) (hH : 4 ≤ H) :
    (writeIndices W H self.m_indices).2 = 6 * (W - 2) * (H - 2) ∧
    (List.range (6 * (W - 2) * (H - 2))).map (InitializeMesh E W H presetState self).1.m_indices =
      (emittedCells W H).flatMap (fun cell => cellIndices W H cell.1 cell.2) ∧
    (∀ k, 6 * (W - 2) * (H - 2) ≤ k →
      (InitializeMesh E W H presetState self).1.m_indices k = self.m_indices k) ∧
    ((emittedCells W H).length = (W - 2) * (H - 2) ∧ (emittedCells W H).Nodup ∧
      ∀ gridX gridY, (gridX, gridY) ∈ emittedCells W H ↔
        gridX < W - 1 ∧ gridY < H - 1 ∧ gridX ≠ W / 2 - 1 ∧ gridY ≠ H / 2 - 1) ∧
    (∀ k, k < 6 * (W - 2) * (H - 2) →
      0 ≤ (InitializeMesh E W H presetState self).1.m_indices k ∧
      (InitializeMesh E W H presetState self).1.m_indices k < ((W * H : ℕ) : Int)) ∧
    (∀ cell ∈ emittedCells W H, ∃ a b c d e f,
      cellIndices W H cell.1 cell.2 = [a, b, c, d, e, f] ∧
      a ≠ b ∧ b ≠ c ∧ a ≠ c ∧ d ≠ e ∧ e ≠ f ∧ d ≠ f ∧
      (∀ v ∈ [a, b, c, d, e, f], v ∈ cellCorners W cell.1 cell.2) ∧
      (∀ v ∈ cellCorners W cell.1 cell.2, v ∈ [a, b, c, d, e, f])) := by
  have hcells := emittedCells_spec W H (by omega) (by omega)
  have hn : 6 * (W - 2) * (H - 2) = 6 * (emittedCells W H).length := by
    rw [hcells.1]
    ring
  have hidx : (InitializeMesh E W H presetState self).1.m_indices =
      storeIndices self.m_indices 0
        ((emittedCells W H).flatMap fun cell => cellIndices W H cell.1 cell.2) := by
    unfold InitializeMesh
    rw [if_neg hbuild, writeIndices_eq]
  have hlen := length_flatMap_const (emittedCells W H)
    (fun cell => cellIndices W H cell.1 cell.2) 6 (fun cell => cellIndices_length W H _ _)
  have hget : ∀ k (hk : k < ((emittedCells W H).flatMap
      fun cell => cellIndices W H cell.1 cell.2).length),
      (InitializeMesh E W H presetState self).1.m_indices k =
        ((emittedCells W H).flatMap fun cell => cellIndices W H cell.1 cell.2)[k] := by
    intro k hk
    rw [hidx, storeIndices_apply, if_pos (Nat.zero_le _), Nat.sub_zero,
      List.getElem?_eq_getElem hk]
    rfl
  have htri : ∀ cell ∈ emittedCells W H, ∃ a b c d e f,
      cellIndices W H cell.1 cell.2 = [a, b, c, d, e, f] ∧
      a ≠ b ∧ b ≠ c ∧ a ≠ c ∧ d ≠ e ∧ e ≠ f ∧ d ≠ f ∧
      (∀ v ∈ [a, b, c, d, e, f], v ∈ cellCorners W cell.1 cell.2) ∧
      (∀ v ∈ cellCorners W cell.1 cell.2, v ∈ [a, b, c, d, e, f]) := by
    intro cell hcell
    have hm := (hcells.2.2 cell.1 cell.2).mp hcell
    exact cellIndices_triangles W H cell.1 cell.2 (by omega) hm.1 hm.2.1
  refine ⟨?_, ?_, ?_, hcells, ?_, htri⟩
  · rw [writeIndices_eq, hn]
  · apply List.ext_getElem
    · rw [List.length_map, List.length_range, hlen, hn]
    · intro k h1 h2
      rw [List.getElem_map, List.getElem_range, hget k h2]
  · intro k hk
    exact (InitializeMesh_indices E W H presetState self hbuild).2 k (by rw [← hn]; exact hk)
  · intro k hk
    have hk' : k < ((emittedCells W H).flatMap
        fun cell => cellIndices W H cell.1 cell.2).length := by
      rw [hlen, ← hn]
      exact hk
    rw [hget k hk']
    have hmem := List.getElem_mem hk'
    obtain ⟨cell, hcell, hv⟩ := List.mem_flatMap.mp hmem
    obtain ⟨a, b, c, d, e, f, hl, -, -, -, -, -, -, hsub, -⟩ := htri cell hcell
    have hm := (hcells.2.2 cell.1 cell.2).mp hcell
    rw [hl] at hv
    exact (cellCorners_spec W H cell.1 cell.2 (by omega) hm.1 hm.2.1).2 _ (hsub _ hv)

/-- C17 at a concrete input: the grid of 32 by 24 vertices, where `currentIndex`
ends at 3960. -/
theorem InitializeMesh_index_list_witness :
    (writeIndices 32 24 (sampleComposite ℚ).m_indices).2 = 6 * (32 - 2) * (24 - 2) ∧
    (emittedCells 32 24).length = (32 - 2) * (24 - 2) :=
  have h := InitializeMesh_index_list (traceEnv ℚ id fun _ _ => 0) 32 24 (sampleState ℚ)
    (sampleComposite ℚ) (by simp [sampleState, sampleComposite]) (by norm_num) (by norm_num)
  ⟨h.1, h.2.2.2.1.1⟩

/-- C18. When `InitializeMesh` builds the mesh for a grid size `W`, `H` of at least
4 (the even sizes among them), for every emitted cell (`gridX`, `gridY`): with an
odd parity its six indices are the triangles (top left, top right, bottom right)
and (bottom right, bottom left, top left), which share the diagonal from vertex
(`gridX`, `gridY`) to vertex (`gridX + 1`, `gridY + 1`); with an even parity they
are (bottom left, top left, top right) and (top right, bottom right, bottom left),
which share the diagonal from (`gridX`, `gridY + 1`) to (`gridX + 1`, `gridY`). The
parity is even in the top-left and bottom-right quadrants and odd in the top-right
and bottom-left quadrants, except for the cell (`W / 2`, `H / 2`), where it is odd.
The six indices of the cell number `j` stand at the positions `6 j` to `6 j + 5`
of the index array. -/
theorem InitializeMesh_cell_diagonals {K : Type} [LinearOrderedField K] (E : Env K) (W H : ℕ)
    (presetState : PresetState K E.Audio) (self : FinalComposite K E.MilkdropShader)
    (hbuild : ¬(self.m_viewportWidth = presetState.renderContext.viewportSizeX ∧
      self.m_viewportHeight = presetState.renderContext.viewportSizeY))
    (hW : 4 ≤ W) (hH : 4 ≤ H) :
    (∀ gridX gridY, (gridX, gridY) ∈ emittedCells W H →
      (cellParity W H gridX gridY = 1 →
        cellIndices W H gridX gridY =
          [vertexIndex W gridX gridY, vertexIndex W (gridX + 1) gridY,
            vertexIndex W (gridX + 1) (gridY + 1), vertexIndex W (gridX + 1) (gridY + 1),
            vertexIndex W gridX (gridY + 1), vertexIndex W gridX gridY] ∧
        (∀ v ∈ [vertexIndex W gridX gridY, vertexIndex W (gridX + 1) (gridY + 1)],
          v ∈ (cellIndices W H gridX gridY).take 3 ∧
            v ∈ (cellIndices W H gridX gridY).drop 3)) ∧
      (cellParity W H gridX gridY = 0 →
        cellIndices W H gridX gridY =
          [vertexIndex W gridX (gridY + 1), vertexIndex W gridX gridY,
            vertexIndex W (gridX + 1) gridY, vertexIndex W (gridX + 1) gridY,
            vertexIndex W (gridX + 1) (gridY + 1), vertexIndex W gridX (gridY + 1)] ∧
        (∀ v ∈ [vertexIndex W gridX (gridY + 1), vertexIndex W (gridX + 1) gridY],
          v ∈ (cellIndices W H gridX gridY).take 3 ∧
            v ∈ (cellIndices W H gridX gridY).drop 3)) ∧
      (∀ v ∈ cellCorners W gridX gridY, v ∈ cellIndices W H gridX gridY) ∧
      (cellParity W H gridX gridY = 1 ↔
        (gridX = W / 2 ∧ gridY = H / 2) ∨ (W / 2 ≤ gridX ∧ gridY < H / 2) ∨
          (gridX < W / 2 ∧ H / 2 ≤ gridY)) ∧
      (cellParity W H gridX gridY = 0 ↔
        (gridX < W / 2 ∧ gridY < H / 2) ∨
          (W / 2 ≤ gridX ∧ H / 2 ≤ gridY ∧ ¬(gridX = W / 2 ∧ gridY = H / 2)))) ∧
    (∀ j t, t < 6 →
      ((emittedCells W H)[j]?).bind (fun cell => (cellIndices W H cell.1 cell.2)[t]?) =
        if j < (emittedCells W H).length then
          some ((InitializeMesh E W H presetState self).1.m_indices (6 * j + t))
        else none) := by
  refine ⟨?_, (InitializeMesh_indices E W H presetState self hbuild).1⟩
  intro gridX gridY hcell
  have hm := ((emittedCells_spec W H (by omega) (by omega)).2.2 gridX gridY).mp hcell
  have hp := cellIndices_by_parity W H gridX gridY
  refine ⟨fun h => ⟨hp.1 h, ?_⟩, fun h => ⟨hp.2.1 h, ?_⟩, ?_, ?_, ?_⟩
  · rw [hp.1 h]
    simp
  · rw [hp.2.1 h]
    simp
  · obtain ⟨a, b, c, d, e, f, hl, -, -, -, -, -, -, -, hall⟩ :=
      cellIndices_triangles W H gridX gridY (by omega) hm.1 hm.2.1
    rw [hl]
    exact hall
  · unfold cellParity
    split_ifs <;> constructor <;> intro h <;> first | omega | exact h.elim
  · unfold cellParity
    split_ifs <;> constructor <;> intro h <;> first | omega | exact h.elim

/-- C18 at a concrete input: the cell (16, 12) of the grid of 32 by 24 vertices,
the one cell of the bottom-right quadrant with an odd parity. -/
theorem InitializeMesh_cell_diagonals_witness :
    cellIndices 32 24 16 12 =
      [vertexIndex 32 16 12, vertexIndex 32 17 12, vertexIndex 32 17 13,
        vertexIndex 32 17 13, vertexIndex 32 16 13, vertexIndex 32 16 12] :=
  (((InitializeMesh_cell_diagonals (traceEnv ℚ id fun _ _ => 0) 32 24 (sampleState ℚ)
    (sampleComposite ℚ) (by simp [sampleState, sampleComposite]) (by norm_num)
    (by norm_num)).1 16 12
    (((emittedCells_spec 32 24 (by norm_num) (by norm_num)).2.2 16 12).mpr (by decide))).1
    (by decide)).1

end IndexTheorems

section PipelineTheorems

variable {K : Type} [LinearOrderedField K]

/-- The trace of a frame, piece by piece: the calls before the warp draw, the warp
draw with the calls up to the overlays, the overlays, the calls up to the
composite, and the calls behind it. -/
theorem RenderFrame_trace (E : Env K) (W H : ℕ) (audioData : E.Audio)
    (renderContext : RenderContext K) (self : MilkdropPreset K E) :
    ∃ (motion mesh : List PassEvent),
      (motion = [] ∨ motion = [.Bind self.m_previousFrameBuffer,
        .MotionVectorsDraw self.m_previousFrameBuffer 1]) ∧
      (mesh = [] ∨ mesh = [.glBindVertexArray true, .glBufferData, .glBindVertexArray false]) ∧
      (RenderFrame E W H audioData renderContext self).2 =
        ([.PerFrameUpdate] ++ motion) ++
          [.BindRead self.m_previousFrameBuffer, .BindDraw self.m_currentFrameBuffer,
            .MaskDrawBuffer 1 false, .glClearColor, .glClear, .PerPixelMeshDraw,
            .MaskDrawBuffer 1 true, .BlurTextureUpdate] ++
          ((List.range self.m_customShapes).map .CustomShapeDraw ++
            (List.range self.m_customWaveforms).map .CustomWaveformDraw ++ [.WaveformDraw] ++
            (if EvalF.lt (.fin 0)
                (RenderFrame E W H audioData renderContext self).1.m_perFrameContext.darken_center
              then [.DarkenCenterDraw] else []) ++ [.BorderDraw]) ++
          [.BindRead self.m_currentFrameBuffer, .BindDraw self.m_previousFrameBuffer,
            .FinalCompositeDraw] ++
          (mesh ++ [.BindRead self.m_previousFrameBuffer, .glBindFramebufferDraw0,
            .glBlitFramebuffer renderContext.viewportSizeX renderContext.viewportSizeY]) := by
  refine ⟨if !(if (E.SetSize self.m_framebuffer renderContext.viewportSizeX
        renderContext.viewportSizeY).1 then true else self.m_isFirstFrame) then
      [.Bind self.m_previousFrameBuffer, .MotionVectorsDraw self.m_previousFrameBuffer 1]
    else [],
    (FinalComposite.Draw E W H
      { self.m_state with
        audioData := audioData
        renderContext := renderContext
        mainTexture := some (self.m_currentFrameBuffer, 0) } self.m_finalComposite).2, ?_, ?_, ?_⟩
  · cases (E.SetSize self.m_framebuffer renderContext.viewportSizeX
      renderContext.viewportSizeY).1 <;> cases self.m_isFirstFrame <;> simp
  · unfold FinalComposite.Draw InitializeMesh
    split
    · exact Or.inl rfl
    · exact Or.inr rfl
  · simp only [RenderFrame, List.append_assoc, List.cons_append, List.nil_append]

/-- The overlays drawn in a frame, in order: all custom shapes, all custom
waveforms, the built-in waveform, the darken-center overlay when the per-frame
value `darken_center` is greater than 0, and the border. -/
theorem overlayEvents_RenderFrame (E : Env K) (W H : ℕ) (audioData : E.Audio)
    (renderContext : RenderContext K) (self : MilkdropPreset K E) :
    overlayEvents (RenderFrame E W H audioData renderContext self).2 =
      (List.range self.m_customShapes).map .CustomShapeDraw ++
        (List.range self.m_customWaveforms).map .CustomWaveformDraw ++ [.WaveformDraw] ++
        (if EvalF.lt (.fin 0)
            (RenderFrame E W H audioData renderContext self).1.m_perFrameContext.darken_center
          then [.DarkenCenterDraw] else []) ++ [.BorderDraw] := by
  obtain ⟨motion, mesh, hmotion, hmesh, htrace⟩ :=
    RenderFrame_trace E W H audioData renderContext self
  have hshapes : ∀ n : ℕ, overlayEvents ((List.range n).map PassEvent.CustomShapeDraw) =
      (List.range n).map PassEvent.CustomShapeDraw := by
    intro n
    apply List.filter_eq_self.mpr
    intro e he
    obtain ⟨i, -, rfl⟩ := List.mem_map.mp he
    rfl
  have hwaves : ∀ n : ℕ, overlayEvents ((List.range n).map PassEvent.CustomWaveformDraw) =
      (List.range n).map PassEvent.CustomWaveformDraw := by
    intro n
    apply List.filter_eq_self.mpr
    intro e he
    obtain ⟨i, -, rfl⟩ := List.mem_map.mp he
    rfl
  have happ : ∀ a b : List PassEvent, overlayEvents (a ++ b) = overlayEvents a ++ overlayEvents b :=
    fun a b => List.filter_append a b
  have hdark : ∀ c : Bool, overlayEvents (if c then [PassEvent.DarkenCenterDraw] else []) =
      if c then [PassEvent.DarkenCenterDraw] else [] := by
    intro c
    cases c <;> rfl
  have hseg1 : overlayEvents [PassEvent.BindRead self.m_previousFrameBuffer,
      .BindDraw self.m_currentFrameBuffer, .MaskDrawBuffer 1 false, .glClearColor, .glClear,
      .PerPixelMeshDraw, .MaskDrawBuffer 1 true, .BlurTextureUpdate] = [] := rfl
  have hseg3 : overlayEvents [PassEvent.BindRead self.m_currentFrameBuffer,
      .BindDraw self.m_previousFrameBuffer, .FinalCompositeDraw] = [] := rfl
  have hw : overlayEvents [PassEvent.WaveformDraw] = [PassEvent.WaveformDraw] := rfl
  have hb : overlayEvents [PassEvent.BorderDraw] = [PassEvent.BorderDraw] := rfl
  have hmot2 : overlayEvents motion = [] := by
    rcases hmotion with rfl | rfl <;> rfl
  have hmesh2 : overlayEvents mesh = [] := by
    rcases hmesh with rfl | rfl <;> rfl
  have hpfu : overlayEvents [PassEvent.PerFrameUpdate] = [] := rfl
  have hpres : overlayEvents [PassEvent.BindRead self.m_previousFrameBuffer,
      .glBindFramebufferDraw0,
      .glBlitFramebuffer renderContext.viewportSizeX renderContext.viewportSizeY] = [] := rfl
  conv_lhs => rw [htrace]
  simp only [happ, hshapes, hwaves, hdark, hmot2, hmesh2, hpfu, hpres, hseg1, hseg3, hw, hb,
    List.nil_append, List.append_nil]

/-- C12. In every `RenderFrame` call the overlays drawn are, in this order, all
custom shapes, all custom waveforms, the built-in waveform, the darken-center
overlay and the border; the darken-center overlay is drawn exactly when the
per-frame value `darken_center` is greater than 0 (for a finite value: a positive
number), every other overlay always. They are drawn behind the warp draw and
before the composite, and no overlay is drawn elsewhere in the frame. -/
theorem RenderFrame_overlay_order (E : Env K) (W H : ℕ) (audioData : E.Audio)
    (renderContext : RenderContext K) (self : MilkdropPreset K E) :
    overlayEvents (RenderFrame E W H audioData renderContext self).2 =
      (List.range self.m_customShapes).map .CustomShapeDraw ++
        (List.range self.m_customWaveforms).map .CustomWaveformDraw ++ [.WaveformDraw] ++
        (if EvalF.lt (.fin 0)
            (RenderFrame E W H audioData renderContext self).1.m_perFrameContext.darken_center
          then [.DarkenCenterDraw] else []) ++ [.BorderDraw] ∧
    (PassEvent.DarkenCenterDraw ∈ (RenderFrame E W H audioData renderContext self).2 ↔
      EvalF.lt (.fin 0)
        (RenderFrame E W H audioData renderContext self).1.m_perFrameContext.darken_center =
          true) ∧
    (∀ q : ℚ,
      (RenderFrame E W H audioData renderContext self).1.m_perFrameContext.darken_center =
        .fin q →
      (PassEvent.DarkenCenterDraw ∈ (RenderFrame E W H audioData renderContext self).2 ↔
        0 < q)) ∧
    (∃ pre post,
      (RenderFrame E W H audioData renderContext self).2 =
        pre ++ [.PerPixelMeshDraw, .MaskDrawBuffer 1 true, .BlurTextureUpdate] ++
          overlayEvents (RenderFrame E W H audioData renderContext self).2 ++
          [.BindRead self.m_currentFrameBuffer, .BindDraw self.m_previousFrameBuffer,
            .FinalCompositeDraw] ++ post ∧
      overlayEvents pre = [] ∧ overlayEvents post = []) := by
  obtain ⟨motion, mesh, hmotion, hmesh, htrace⟩ :=
    RenderFrame_trace E W H audioData renderContext self
  have hoverlays := overlayEvents_RenderFrame E W H audioData renderContext self
  have hpre : overlayEvents ([PassEvent.PerFrameUpdate] ++ motion ++
      [.BindRead self.m_previousFrameBuffer, .BindDraw self.m_currentFrameBuffer,
        .MaskDrawBuffer 1 false, .glClearColor, .glClear]) = [] := by
    rcases hmotion with rfl | rfl <;> rfl
  have hpost : overlayEvents (mesh ++ [.BindRead self.m_previousFrameBuffer,
      .glBindFramebufferDraw0,
      .glBlitFramebuffer renderContext.viewportSizeX renderContext.viewportSizeY]) = [] := by
    rcases hmesh with rfl | rfl <;> rfl
  have hdarkmem : PassEvent.DarkenCenterDraw ∈
        (RenderFrame E W H audioData renderContext self).2 ↔
      EvalF.lt (.fin 0)
        (RenderFrame E W H audioData renderContext self).1.m_perFrameContext.darken_center =
          true := by
    have h1 : PassEvent.DarkenCenterDraw ∈ (RenderFrame E W H audioData renderContext self).2 ↔
        PassEvent.DarkenCenterDraw ∈
          overlayEvents (RenderFrame E W H audioData renderContext self).2 := by
      simp [overlayEvents, PassEvent.pass]
    rw [h1, hoverlays]
    cases EvalF.lt (.fin 0)
      (RenderFrame E W H audioData renderContext self).1.m_perFrameContext.darken_center <;>
      simp
  refine ⟨hoverlays, hdarkmem, ?_, ?_⟩
  · intro q hq
    rw [hdarkmem, hq]
    simp [EvalF.lt]
  · refine ⟨[PassEvent.PerFrameUpdate] ++ motion ++
        [.BindRead self.m_previousFrameBuffer, .BindDraw self.m_currentFrameBuffer,
          .MaskDrawBuffer 1 false, .glClearColor, .glClear],
      mesh ++ [.BindRead self.m_previousFrameBuffer, .glBindFramebufferDraw0,
        .glBlitFramebuffer renderContext.viewportSizeX renderContext.viewportSizeY],
      ?_, hpre, hpost⟩
    rw [hoverlays]
    conv_lhs => rw [htrace]
    simp only [List.append_assoc, List.cons_append, List.nil_append]

/-- The mask of draw buffer 1 in a frame, whatever mask is in force before the
frame: the buffer is unmasked when the warp mesh is drawn and masked when the blur
texture is updated. -/
theorem maskInForceAt_RenderFrame (E : Env K) (W H : ℕ) (audioData : E.Audio)
    (renderContext : RenderContext K) (self : MilkdropPreset K E) (initial : Bool) :
    maskInForceAt initial (RenderFrame E W H audioData renderContext self).2
        .PerPixelMeshDraw = some false ∧
    maskInForceAt initial (RenderFrame E W H audioData renderContext self).2
        .BlurTextureUpdate = some true := by
  obtain ⟨motion, mesh, hmotion, -, htrace⟩ :=
    RenderFrame_trace E W H audioData renderContext self
  rw [htrace]
  rcases hmotion with rfl | rfl <;> simp [maskInForceAt]

/-- C13, as the code has it. In every `RenderFrame` call draw buffer 1 is unmasked
(`MaskDrawBuffer(1, false)`) right after the read and draw targets are set and
stays unmasked while the colour target is cleared and the warp mesh is drawn; it
is masked again (`MaskDrawBuffer(1, true)`, the default of `InitializePreset`)
right after the warp draw, before the blur texture update and the overlays; the
frame changes the mask nowhere else. -/
theorem RenderFrame_motion_mask (E : Env K) (W H : ℕ) (audioData : E.Audio)
    (renderContext : RenderContext K) (self : MilkdropPreset K E) :
    (∃ pre post,
      (RenderFrame E W H audioData renderContext self).2 =
        pre ++ [.BindRead self.m_previousFrameBuffer, .BindDraw self.m_currentFrameBuffer,
          .MaskDrawBuffer 1 false, .glClearColor, .glClear, .PerPixelMeshDraw,
          .MaskDrawBuffer 1 true, .BlurTextureUpdate] ++
          overlayEvents (RenderFrame E W H audioData renderContext self).2 ++ post ∧
      (∀ index mask, PassEvent.MaskDrawBuffer index mask ∉ pre) ∧
      (∀ index mask, PassEvent.MaskDrawBuffer index mask ∉
        overlayEvents (RenderFrame E W H audioData renderContext self).2 ++ post)) ∧
    (∀ initial, maskInForceAt initial (RenderFrame E W H audioData renderContext self).2
      .PerPixelMeshDraw = some false) ∧
    (∀ initial, maskInForceAt initial (RenderFrame E W H audioData renderContext self).2
      .BlurTextureUpdate = some true) := by
  refine ⟨?_, fun initial => (maskInForceAt_RenderFrame E W H audioData renderContext self initial).1,
    fun initial => (maskInForceAt_RenderFrame E W H audioData renderContext self initial).2⟩
  obtain ⟨motion, mesh, hmotion, hmesh, htrace⟩ :=
    RenderFrame_trace E W H audioData renderContext self
  have hov := overlayEvents_RenderFrame E W H audioData renderContext self
  refine ⟨[PassEvent.PerFrameUpdate] ++ motion,
    [.BindRead self.m_currentFrameBuffer, .BindDraw self.m_previousFrameBuffer,
      .FinalCompositeDraw] ++
      (mesh ++ [.BindRead self.m_previousFrameBuffer, .glBindFramebufferDraw0,
        .glBlitFramebuffer renderContext.viewportSizeX renderContext.viewportSizeY]), ?_, ?_, ?_⟩
  · rw [hov]
    conv_lhs => rw [htrace]
    simp only [List.append_assoc]
  · intro index mask
    rcases hmotion with rfl | rfl <;> simp
  · intro index mask h
    rcases List.mem_append.mp h with h | h
    · have := (List.mem_filter.mp h).2
      simp [PassEvent.pass] at this
    · rcases hmesh with rfl | rfl <;> simp at h

/-- C13, the mask at the warp draw: in a frame of the sample preset, with draw
buffer 1 masked before the frame as `InitializePreset` leaves it, the buffer is
unmasked when the warp mesh is drawn and masked when the blur texture is
updated. -/
theorem RenderFrame_unmasks_for_warp :
    maskInForceAt true
      (RenderFrame (traceEnv ℚ id fun _ _ => 0) 32 24 () (sampleContext ℚ 640 480)
        (samplePreset ℚ id fun _ _ => 0)).2 .PerPixelMeshDraw = some false ∧
    maskInForceAt true
      (RenderFrame (traceEnv ℚ id fun _ _ => 0) 32 24 () (sampleContext ℚ 640 480)
        (samplePreset ℚ id fun _ _ => 0)).2 .BlurTextureUpdate = some true :=
  maskInForceAt_RenderFrame (traceEnv ℚ id fun _ _ => 0) 32 24 () (sampleContext ℚ 640 480)
    (samplePreset ℚ id fun _ _ => 0) true

/-- The mask that two traces in a row leave: the second starts from the mask that
the first leaves. -/
theorem maskAfter_append (masked : Bool) (l1 l2 : List PassEvent) :
    maskAfter masked (l1 ++ l2) = maskAfter (maskAfter masked l1) l2 := by
  induction l1 generalizing masked with
  | nil => rfl
  | cons e l1 ih => exact ih _

/-- A trace without a `MaskDrawBuffer` call leaves the mask as it was. -/
theorem maskAfter_of_not_mem (masked : Bool) (l : List PassEvent)
    (h : ∀ index mask, PassEvent.MaskDrawBuffer index mask ∉ l) : maskAfter masked l = masked := by
  induction l with
  | nil => rfl
  | cons e l ih =>
    have he : ∀ index mask, e ≠ PassEvent.MaskDrawBuffer index mask := fun i m hem =>
      h i m (hem ▸ List.mem_cons_self _ _)
    have hl : ∀ index mask, PassEvent.MaskDrawBuffer index mask ∉ l := fun i m hm =>
      h i m (List.mem_cons_of_mem _ hm)
    cases e <;> first | exact ih hl | exact absurd rfl (he _ _)

/-- Every frame leaves draw buffer 1 masked, whatever mask was in force before
it. -/
theorem maskAfter_RenderFrame (E : Env K) (W H : ℕ) (audioData : E.Audio)
    (renderContext : RenderContext K) (self : MilkdropPreset K E) (initial : Bool) :
    maskAfter initial (RenderFrame E W H audioData renderContext self).2 = true := by
  obtain ⟨motion, mesh, hmotion, hmesh, htrace⟩ :=
    RenderFrame_trace E W H audioData renderContext self
  have hov : ∀ index mask, PassEvent.MaskDrawBuffer index mask ∉
      (List.range self.m_customShapes).map PassEvent.CustomShapeDraw ++
        (List.range self.m_customWaveforms).map PassEvent.CustomWaveformDraw ++
        [PassEvent.WaveformDraw] ++
        (if EvalF.lt (.fin 0)
            (RenderFrame E W H audioData renderContext self).1.m_perFrameContext.darken_center
          then [PassEvent.DarkenCenterDraw] else []) ++ [PassEvent.BorderDraw] := by
    intro index mask
    split_ifs <;> simp
  rw [htrace]
  simp only [maskAfter_append, maskAfter_of_not_mem _ _ hov]
  rcases hmotion with rfl | rfl <;> rcases hmesh with rfl | rfl <;> simp [maskAfter]

/-- A frame in which `SetSize` reports no change and the first-frame flag is clear
starts with the per-frame update, the binding of the framebuffer labelled previous
and the motion-vector draw, which gets the texture of attachment 1 of that
framebuffer as its argument; the mask of draw buffer 1 at that draw is the one in
force before the frame. -/
theorem RenderFrame_motion_first (E : Env K) (W H : ℕ) (audioData : E.Audio)
    (renderContext : RenderContext K) (self : MilkdropPreset K E)
    (hsize : (E.SetSize self.m_framebuffer renderContext.viewportSizeX
      renderContext.viewportSizeY).1 = false)
    (hflag : self.m_isFirstFrame = false) (initial : Bool) :
    (∃ post, (RenderFrame E W H audioData renderContext self).2 =
      [.PerFrameUpdate, .Bind self.m_previousFrameBuffer,
        .MotionVectorsDraw self.m_previousFrameBuffer 1] ++ post) ∧
    maskInForceAt initial (RenderFrame E W H audioData renderContext self).2
      (.MotionVectorsDraw self.m_previousFrameBuffer 1) = some initial := by
  have htrace : ∃ post, (RenderFrame E W H audioData renderContext self).2 =
      [.PerFrameUpdate, .Bind self.m_previousFrameBuffer,
        .MotionVectorsDraw self.m_previousFrameBuffer 1] ++ post :=
    ⟨_, by simp only [RenderFrame, hsize, hflag]; rfl⟩
  refine ⟨htrace, ?_⟩
  obtain ⟨post, hpost⟩ := htrace
  rw [hpost]
  simp [maskInForceAt]

/-- C2, as the code has it. A `RenderFrame` call in which `SetSize` reports a
change does not issue the motion-vector draw. The next `RenderFrame` call issues
it when `SetSize` reports no change in it (that is the case when its viewport size
is the one of the call before and the framebuffer reports no change for the size
it was just given): right after the per-frame update it binds the framebuffer
labelled previous at that call and calls the motion-vector draw with the texture
of attachment 1 of that framebuffer as its argument, while draw buffer 1 is masked,
as the call before left it whatever mask was in force before. -/
theorem RenderFrame_resize_skips_motion_vectors_once
    (E : Env K) (W H : ℕ) (audioData : E.Audio) (renderContext : RenderContext K)
    (self : MilkdropPreset K E)
    (hchange : (E.SetSize self.m_framebuffer renderContext.viewportSizeX
      renderContext.viewportSizeY).1 = true) :
    issuesMotionVectors (RenderFrame E W H audioData renderContext self).2 = false ∧
    (∀ (audioData2 : E.Audio) (renderContext2 : RenderContext K),
      (E.SetSize (RenderFrame E W H audioData renderContext self).1.m_framebuffer
        renderContext2.viewportSizeX renderContext2.viewportSizeY).1 = false →
      issuesMotionVectors (RenderFrame E W H audioData2 renderContext2
        (RenderFrame E W H audioData renderContext self).1).2 = true ∧
      (∃ post, (RenderFrame E W H audioData2 renderContext2
          (RenderFrame E W H audioData renderContext self).1).2 =
        [.PerFrameUpdate,
          .Bind (RenderFrame E W H audioData renderContext self).1.m_previousFrameBuffer,
          .MotionVectorsDraw
            (RenderFrame E W H audioData renderContext self).1.m_previousFrameBuffer 1] ++
          post) ∧
      (∀ initial,
        maskInForceAt (maskAfter initial (RenderFrame E W H audioData renderContext self).2)
          (RenderFrame E W H audioData2 renderContext2
            (RenderFrame E W H audioData renderContext self).1).2
          (.MotionVectorsDraw
            (RenderFrame E W H audioData renderContext self).1.m_previousFrameBuffer 1) =
          some true)) ∧
    ((∀ framebuffer width height,
        (E.SetSize (E.SetSize framebuffer width height).2 width height).1 = false) →
      ∀ (audioData2 : E.Audio) (renderContext2 : RenderContext K),
        renderContext2.viewportSizeX = renderContext.viewportSizeX →
        renderContext2.viewportSizeY = renderContext.viewportSizeY →
        issuesMotionVectors (RenderFrame E W H audioData2 renderContext2
          (RenderFrame E W H audioData renderContext self).1).2 = true) := by
  have hflag : (RenderFrame E W H audioData renderContext self).1.m_isFirstFrame = false := rfl
  have hfb : (RenderFrame E W H audioData renderContext self).1.m_framebuffer =
      (E.SetSize self.m_framebuffer renderContext.viewportSizeX
        renderContext.viewportSizeY).2 := rfl
  have second : ∀ (audioData2 : E.Audio) (renderContext2 : RenderContext K),
      (E.SetSize (RenderFrame E W H audioData renderContext self).1.m_framebuffer
        renderContext2.viewportSizeX renderContext2.viewportSizeY).1 = false →
      issuesMotionVectors (RenderFrame E W H audioData2 renderContext2
        (RenderFrame E W H audioData renderContext self).1).2 = true := by
    intro audioData2 renderContext2 h
    rw [(issuesMotionVectors_RenderFrame E W H audioData2 renderContext2 _).1, h, hflag]
    rfl
  refine ⟨?_, ?_, ?_⟩
  · rw [(issuesMotionVectors_RenderFrame E W H audioData renderContext self).1, hchange]
    rfl
  · intro audioData2 renderContext2 h
    refine ⟨second audioData2 renderContext2 h,
      (RenderFrame_motion_first E W H audioData2 renderContext2 _ h hflag true).1, ?_⟩
    intro initial
    rw [maskAfter_RenderFrame E W H audioData renderContext self initial]
    exact (RenderFrame_motion_first E W H audioData2 renderContext2 _ h hflag true).2
  · intro hlaw audioData2 renderContext2 hx hy
    apply second
    rw [hfb, hx, hy]
    exact hlaw _ _ _

/-- C2 at a concrete input: the sample preset, whose framebuffer has no size yet,
rendered twice at 640 by 480. The first frame issues no motion-vector draw, the
second issues it, with draw buffer 1 masked as the first frame left it. -/
theorem RenderFrame_resize_skips_motion_vectors_once_witness :
    issuesMotionVectors (RenderFrame (traceEnv ℚ id fun _ _ => 0) 32 24 ()
      (sampleContext ℚ 640 480) (samplePreset ℚ id fun _ _ => 0)).2 = false ∧
    issuesMotionVectors (RenderFrame (traceEnv ℚ id fun _ _ => 0) 32 24 ()
      (sampleContext ℚ 640 480)
      (RenderFrame (traceEnv ℚ id fun _ _ => 0) 32 24 () (sampleContext ℚ 640 480)
        (samplePreset ℚ id fun _ _ => 0)).1).2 = true ∧
    maskInForceAt
      (maskAfter false
        (RenderFrame (traceEnv ℚ id fun _ _ => 0) 32 24 () (sampleContext ℚ 640 480)
          (samplePreset ℚ id fun _ _ => 0)).2)
      (RenderFrame (traceEnv ℚ id fun _ _ => 0) 32 24 () (sampleContext ℚ 640 480)
        (RenderFrame (traceEnv ℚ id fun _ _ => 0) 32 24 () (sampleContext ℚ 640 480)
          (samplePreset ℚ id fun _ _ => 0)).1).2
      (.MotionVectorsDraw
        (RenderFrame (traceEnv ℚ id fun _ _ => 0) 32 24 () (sampleContext ℚ 640 480)
          (samplePreset ℚ id fun _ _ => 0)).1.m_previousFrameBuffer 1) = some true :=
  have h := RenderFrame_resize_skips_motion_vectors_once (traceEnv ℚ id fun _ _ => 0) 32 24 ()
    (sampleContext ℚ 640 480) (samplePreset ℚ id fun _ _ => 0) (by decide)
  ⟨h.1, (h.2.1 () (sampleContext ℚ 640 480) (by decide)).1,
    (h.2.1 () (sampleContext ℚ 640 480) (by decide)).2.2 false⟩

/-- C2, the target of the motion-vector draw: the sample preset is rendered twice
at 640 by 480, with draw buffer 1 masked before the first frame as
`InitializePreset` leaves it. The second frame binds framebuffer 0, which is
labelled previous then, and calls the motion-vector draw with the texture of
attachment 1 as its argument; draw buffer 1 is masked at that call, so the draw
does not go into attachment 1. -/
theorem RenderFrame_motion_vectors_drawn_masked :
    (RenderFrame (traceEnv ℚ id fun _ _ => 0) 32 24 () (sampleContext ℚ 640 480)
      (samplePreset ℚ id fun _ _ => 0)).1.m_previousFrameBuffer = 0 ∧
    (RenderFrame (traceEnv ℚ id fun _ _ => 0) 32 24 () (sampleContext ℚ 640 480)
      (RenderFrame (traceEnv ℚ id fun _ _ => 0) 32 24 () (sampleContext ℚ 640 480)
        (samplePreset ℚ id fun _ _ => 0)).1).2.take 3 =
      [.PerFrameUpdate, .Bind 0, .MotionVectorsDraw 0 1] ∧
    maskInForceAt true
      ((RenderFrame (traceEnv ℚ id fun _ _ => 0) 32 24 () (sampleContext ℚ 640 480)
          (samplePreset ℚ id fun _ _ => 0)).2 ++
        (RenderFrame (traceEnv ℚ id fun _ _ => 0) 32 24 () (sampleContext ℚ 640 480)
          (RenderFrame (traceEnv ℚ id fun _ _ => 0) 32 24 () (sampleContext ℚ 640 480)
            (samplePreset ℚ id fun _ _ => 0)).1).2)
      (.MotionVectorsDraw 0 1) = some true := by
  refine ⟨rfl, by decide, by decide⟩

/-- The calls from binding the targets to the warp draw are part of every frame:
the read target is the framebuffer labelled previous, the draw target the one
labelled current. -/
theorem warpSegment_RenderFrame (E : Env K) (W H : ℕ) (audioData : E.Audio)
    (renderContext : RenderContext K) (self : MilkdropPreset K E) :
    warpSegment self.m_previousFrameBuffer self.m_currentFrameBuffer <:+:
      (RenderFrame E W H audioData renderContext self).2 := by
  obtain ⟨motion, mesh, -, -, htrace⟩ := RenderFrame_trace E W H audioData renderContext self
  rw [htrace]
  refine ⟨[PassEvent.PerFrameUpdate] ++ motion, [.MaskDrawBuffer 1 true, .BlurTextureUpdate] ++
    (((List.range self.m_customShapes).map .CustomShapeDraw ++
        (List.range self.m_customWaveforms).map .CustomWaveformDraw ++ [.WaveformDraw] ++
        (if EvalF.lt (.fin 0)
            (RenderFrame E W H audioData renderContext self).1.m_perFrameContext.darken_center
          then [.DarkenCenterDraw] else []) ++ [.BorderDraw]) ++
      [.BindRead self.m_currentFrameBuffer, .BindDraw self.m_previousFrameBuffer,
        .FinalCompositeDraw] ++
      (mesh ++ [.BindRead self.m_previousFrameBuffer, .glBindFramebufferDraw0,
        .glBlitFramebuffer renderContext.viewportSizeX renderContext.viewportSizeY])), ?_⟩
  simp only [warpSegment, List.append_assoc, List.cons_append, List.nil_append]

/-- The labels after a sequence of frames: those before it, exchanged or not. -/
theorem renderFrames_labels (E : Env K) (W H : ℕ) (frames : List (E.Audio × RenderContext K))
    (self : MilkdropPreset K E) :
    ((renderFrames E W H frames self).1.m_currentFrameBuffer = self.m_currentFrameBuffer ∧
      (renderFrames E W H frames self).1.m_previousFrameBuffer = self.m_previousFrameBuffer) ∨
    ((renderFrames E W H frames self).1.m_currentFrameBuffer = self.m_previousFrameBuffer ∧
      (renderFrames E W H frames self).1.m_previousFrameBuffer = self.m_currentFrameBuffer) := by
  induction frames generalizing self with
  | nil => exact Or.inl ⟨rfl, rfl⟩
  | cons frame frames ih =>
    have h := ih (RenderFrame E W H frame.1 frame.2 self).1
    have hc : (RenderFrame E W H frame.1 frame.2 self).1.m_currentFrameBuffer =
        self.m_previousFrameBuffer := rfl
    have hp : (RenderFrame E W H frame.1 frame.2 self).1.m_previousFrameBuffer =
        self.m_currentFrameBuffer := rfl
    rw [hc, hp] at h
    simp only [renderFrames]
    rcases h with h | h
    · exact Or.inr h
    · exact Or.inl h

/-- C14. For a preset whose labels `m_currentFrameBuffer` and
`m_previousFrameBuffer` denote different framebuffers (the header initialises them
so), they denote the same two different framebuffers in every state reached by
`RenderFrame` calls; each call exchanges the two labels; two calls in a row restore
them; and the framebuffer that a frame binds as draw target for the warp is the
one that the next frame binds as read target for it. -/
theorem RenderFrame_exchanges_labels (E : Env K) (W H : ℕ) (self : MilkdropPreset K E)
    (hlabels : self.m_currentFrameBuffer ≠ self.m_previousFrameBuffer) :
    (∀ frames : List (E.Audio × RenderContext K),
      (renderFrames E W H frames self).1.m_currentFrameBuffer ≠
        (renderFrames E W H frames self).1.m_previousFrameBuffer ∧
      (((renderFrames E W H frames self).1.m_currentFrameBuffer = self.m_currentFrameBuffer ∧
          (renderFrames E W H frames self).1.m_previousFrameBuffer =
            self.m_previousFrameBuffer) ∨
        ((renderFrames E W H frames self).1.m_currentFrameBuffer = self.m_previousFrameBuffer ∧
          (renderFrames E W H frames self).1.m_previousFrameBuffer =
            self.m_currentFrameBuffer))) ∧
    (∀ audioData renderContext,
      (RenderFrame E W H audioData renderContext self).1.m_currentFrameBuffer =
        self.m_previousFrameBuffer ∧
      (RenderFrame E W H audioData renderContext self).1.m_previousFrameBuffer =
        self.m_currentFrameBuffer) ∧
    (∀ audioData renderContext audioData2 renderContext2,
      (RenderFrame E W H audioData2 renderContext2
        (RenderFrame E W H audioData renderContext self).1).1.m_currentFrameBuffer =
          self.m_currentFrameBuffer ∧
      (RenderFrame E W H audioData2 renderContext2
        (RenderFrame E W H audioData renderContext self).1).1.m_previousFrameBuffer =
          self.m_previousFrameBuffer) ∧
    (∀ audioData renderContext audioData2 renderContext2,
      warpSegment self.m_previousFrameBuffer self.m_currentFrameBuffer <:+:
        (RenderFrame E W H audioData renderContext self).2 ∧
      warpSegment self.m_currentFrameBuffer self.m_previousFrameBuffer <:+:
        (RenderFrame E W H audioData2 renderContext2
          (RenderFrame E W H audioData renderContext self).1).2) := by
  refine ⟨?_, fun _ _ => ⟨rfl, rfl⟩, fun _ _ _ _ => ⟨rfl, rfl⟩, ?_⟩
  · intro frames
    rcases renderFrames_labels E W H frames self with h | h
    · exact ⟨by rw [h.1, h.2]; exact hlabels, Or.inl h⟩
    · exact ⟨by rw [h.1, h.2]; exact hlabels.symm, Or.inr h⟩
  · intro audioData renderContext audioData2 renderContext2
    exact ⟨warpSegment_RenderFrame E W H audioData renderContext self,
      warpSegment_RenderFrame E W H audioData2 renderContext2
        (RenderFrame E W H audioData renderContext self).1⟩

/-- C14 at a concrete input: the sample preset, with the labels 0 and 1; after
three frames the labels are exchanged, and they differ. -/
theorem RenderFrame_exchanges_labels_witness :
    ((renderFrames (traceEnv ℚ id fun _ _ => 0) 32 24
        [((), sampleContext ℚ 640 480), ((), sampleContext ℚ 640 480),
          ((), sampleContext ℚ 640 480)]
        (samplePreset ℚ id fun _ _ => 0)).1.m_currentFrameBuffer ≠
      (renderFrames (traceEnv ℚ id fun _ _ => 0) 32 24
        [((), sampleContext ℚ 640 480), ((), sampleContext ℚ 640 480),
          ((), sampleContext ℚ 640 480)]
        (samplePreset ℚ id fun _ _ => 0)).1.m_previousFrameBuffer) ∧
    (renderFrames (traceEnv ℚ id fun _ _ => 0) 32 24
      [((), sampleContext ℚ 640 480), ((), sampleContext ℚ 640 480),
        ((), sampleContext ℚ 640 480)]
      (samplePreset ℚ id fun _ _ => 0)).1.m_currentFrameBuffer = 1 :=
  ⟨((RenderFrame_exchanges_labels (traceEnv ℚ id fun _ _ => 0) 32 24
    (samplePreset ℚ id fun _ _ => 0) (by decide)).1 _).1, rfl⟩

end PipelineTheorems

section CacheTheorems

/-- C15, as the code has it. Every `Initialize` call that returns has called
`CompileWarpShader` and `CompileCompositeShader` on the state it leaves, whatever
`SetSize` answered; when a composite shader is loaded and `LoadTexturesAndCompile`
succeeds on it, the preset holds the shader that this call of
`LoadTexturesAndCompile` left. -/
theorem Initialize_compiles_every_time {K : Type} (E : Env K) (renderContext : RenderContext K)
    (self initialized : MilkdropPreset K E)
    (hinit : Initialize E renderContext self = .ok initialized) :
    E.CompileWarpShader self.m_perPixelMesh initialized.m_state =
      .ok initialized.m_perPixelMesh ∧
    CompileCompositeShader E initialized.m_state self.m_finalComposite =
      .ok initialized.m_finalComposite ∧
    (∀ shader compiled, self.m_finalComposite.m_compositeShader = some shader →
      E.LoadTexturesAndCompile shader initialized.m_state = .ok compiled →
      initialized.m_finalComposite.m_compositeShader = some compiled) ∧
    initialized.m_framebuffer =
      (E.SetSize self.m_framebuffer renderContext.viewportSizeX
        renderContext.viewportSizeY).2 ∧
    initialized.m_state.renderContext = renderContext := by
  dsimp only [Initialize] at hinit
  split at hinit
  · exact absurd hinit (by simp)
  · rename_i perPixelMesh hwarp
    split at hinit
    · exact absurd hinit (by simp)
    · rename_i finalComposite hcomp
      have h := Except.ok.inj hinit
      subst h
      refine ⟨hwarp, hcomp, ?_, rfl, ?_⟩
      · intro shader compiled hs hc
        simp only [CompileCompositeShader, hs, hc] at hcomp
        rw [← Except.ok.inj hcomp]
      · dsimp only
        split <;> rfl

/-- C15 at a concrete input: the first `Initialize` call of the sample preset with
the default composite shader loaded. -/
theorem Initialize_compiles_every_time_witness :
    ∃ initialized,
      Initialize (traceEnv ℚ id fun _ _ => 0) (sampleContext ℚ 640 480) loadedPreset =
        .ok initialized ∧
      initialized.m_finalComposite.m_compositeShader =
        some [defaultCompositeShader, "compiled"] :=
  ⟨_, rfl,
    (Initialize_compiles_every_time (traceEnv ℚ id fun _ _ => 0) (sampleContext ℚ 640 480)
      loadedPreset _ rfl).2.2.1 [defaultCompositeShader] [defaultCompositeShader, "compiled"]
      rfl rfl⟩

/-- C15, a second `Initialize` call for the same size: the sample preset with the
default composite shader loaded is initialised twice for 640 by 480. In the second
call `SetSize` reports no change, and the composite shader is compiled again: its
record shows one compilation after the first call and two after the second. -/
theorem Initialize_same_size_compiles_again :
    ∃ first second,
      Initialize (traceEnv ℚ id fun _ _ => 0) (sampleContext ℚ 640 480) loadedPreset =
        .ok first ∧
      Initialize (traceEnv ℚ id fun _ _ => 0) (sampleContext ℚ 640 480) first = .ok second ∧
      ((traceEnv ℚ id fun _ _ => 0).SetSize first.m_framebuffer 640 480).1 = false ∧
      first.m_finalComposite.m_compositeShader = some [defaultCompositeShader, "compiled"] ∧
      second.m_finalComposite.m_compositeShader =
        some [defaultCompositeShader, "compiled", "compiled"] :=
  ⟨_, _, rfl, rfl, by decide, rfl, rfl⟩

/-- The guard of `InitializeMesh` (lines 98 to 102): the call returns early, leaving
the object as it is and making no OpenGL call, exactly when the viewport width and
height equal `m_viewportWidth` and `m_viewportHeight`; otherwise it rewrites the
vertices for the aspect ratios of the call and the indices, and uploads the index
buffer. The aspect ratios have no part in the guard. -/
theorem InitializeMesh_rebuild_condition {K : Type} [LinearOrderedField K] (E : Env K) (W H : ℕ)
    (presetState : PresetState K E.Audio) (self : FinalComposite K E.MilkdropShader) :
    (self.m_viewportWidth = presetState.renderContext.viewportSizeX ∧
        self.m_viewportHeight = presetState.renderContext.viewportSizeY →
      InitializeMesh E W H presetState self = (self, [])) ∧
    (¬(self.m_viewportWidth = presetState.renderContext.viewportSizeX ∧
        self.m_viewportHeight = presetState.renderContext.viewportSizeY) →
      (InitializeMesh E W H presetState self).2 =
        [.glBindVertexArray true, .glBufferData, .glBindVertexArray false] ∧
      (∀ gridX gridY, gridX < W → gridY < H →
        (InitializeMesh E W H presetState self).1.m_vertices (gridX + gridY * W) =
          writeVertex E W H presetState.renderContext.aspectX
            presetState.renderContext.aspectY gridX gridY
            (self.m_vertices (gridX + gridY * W))) ∧
      (InitializeMesh E W H presetState self).1.m_indices =
        (writeIndices W H self.m_indices).1) ∧
    (∀ aspectX aspectY : K,
      ((InitializeMesh E W H
          { presetState with
            renderContext :=
              { presetState.renderContext with aspectX := aspectX, aspectY := aspectY } }
          self).2 = [] ↔
        (InitializeMesh E W H presetState self).2 = [])) := by
  refine ⟨fun h => ?_, fun h => ⟨?_, ?_, ?_⟩, fun aspectX aspectY => ?_⟩
  · unfold InitializeMesh
    rw [if_pos h]
  · unfold InitializeMesh
    rw [if_neg h]
  · intro gridX gridY hX hY
    exact InitializeMesh_vertex E W H presetState self gridX gridY h hX hY
  · unfold InitializeMesh
    rw [if_neg h]
  · unfold InitializeMesh
    dsimp only
    split <;> simp

/-- The members `m_viewportWidth` and `m_viewportHeight` after `InitializeMesh`:
what they were before it. -/
theorem InitializeMesh_recorded_size {K : Type} [LinearOrderedField K] (E : Env K) (W H : ℕ)
    (presetState : PresetState K E.Audio) (self : FinalComposite K E.MilkdropShader) :
    (InitializeMesh E W H presetState self).1.m_viewportWidth = self.m_viewportWidth ∧
    (InitializeMesh E W H presetState self).1.m_viewportHeight = self.m_viewportHeight := by
  unfold InitializeMesh
  split <;> exact ⟨rfl, rfl⟩

/-- A call of `InitializeMesh` that generates the mesh leaves `m_viewportWidth` and
`m_viewportHeight` as they were, so the next call with the same preset state
generates the mesh again: it rewrites the vertices and the indices and uploads the
index buffer, as the first call did. -/
theorem InitializeMesh_generates_again {K : Type} [LinearOrderedField K] (E : Env K) (W H : ℕ)
    (presetState : PresetState K E.Audio) (self : FinalComposite K E.MilkdropShader)
    (hbuild : ¬(self.m_viewportWidth = presetState.renderContext.viewportSizeX ∧
      self.m_viewportHeight = presetState.renderContext.viewportSizeY)) :
    (InitializeMesh E W H presetState self).2 =
      [.glBindVertexArray true, .glBufferData, .glBindVertexArray false] ∧
    (InitializeMesh E W H presetState (InitializeMesh E W H presetState self).1).2 =
      [.glBindVertexArray true, .glBufferData, .glBindVertexArray false] ∧
    (InitializeMesh E W H presetState (InitializeMesh E W H presetState self).1).1.m_vertices =
      writeVertices E W H presetState.renderContext.aspectX presetState.renderContext.aspectY
        (InitializeMesh E W H presetState self).1.m_vertices ∧
    (InitializeMesh E W H presetState (InitializeMesh E W H presetState self).1).1.m_indices =
      (writeIndices W H (InitializeMesh E W H presetState self).1.m_indices).1 := by
  have hrec := InitializeMesh_recorded_size E W H presetState self
  have hbuild2 : ¬((InitializeMesh E W H presetState self).1.m_viewportWidth =
        presetState.renderContext.viewportSizeX ∧
      (InitializeMesh E W H presetState self).1.m_viewportHeight =
        presetState.renderContext.viewportSizeY) := by
    rw [hrec.1, hrec.2]
    exact hbuild
  refine ⟨?_, ?_, ?_, ?_⟩
  · unfold InitializeMesh
    rw [if_neg hbuild]
  · generalize InitializeMesh E W H presetState self = first at hbuild2 ⊢
    unfold InitializeMesh
    rw [if_neg hbuild2]
  · generalize InitializeMesh E W H presetState self = first at hbuild2 ⊢
    unfold InitializeMesh
    rw [if_neg hbuild2]
  · generalize InitializeMesh E W H presetState self = first at hbuild2 ⊢
    unfold InitializeMesh
    rw [if_neg hbuild2]

/-- C11, the code at a failing input: `InitializeMesh` is called twice with the
sample state (viewport 640 by 480, aspect ratios 1 and 0.75) on an object that has
no mesh yet. The first call generates the mesh and uploads the index buffer, and
leaves `m_viewportWidth` and `m_viewportHeight` at 0; the second call, with the
same four values, does not return early: it uploads the index buffer again. So
does the second of two `RenderFrame` calls of the sample preset for the same
render context. -/
theorem InitializeMesh_same_values_builds_again :
    (InitializeMesh (traceEnv ℚ id fun _ _ => 0) 32 24 (sampleState ℚ)
      (sampleComposite ℚ)).2 =
      [.glBindVertexArray true, .glBufferData, .glBindVertexArray false] ∧
    (InitializeMesh (traceEnv ℚ id fun _ _ => 0) 32 24 (sampleState ℚ)
      (sampleComposite ℚ)).1.m_viewportWidth = 0 ∧
    (InitializeMesh (traceEnv ℚ id fun _ _ => 0) 32 24 (sampleState ℚ)
      (sampleComposite ℚ)).1.m_viewportHeight = 0 ∧
    (sampleState ℚ).renderContext.viewportSizeX = 640 ∧
    (sampleState ℚ).renderContext.viewportSizeY = 480 ∧
    (InitializeMesh (traceEnv ℚ id fun _ _ => 0) 32 24 (sampleState ℚ)
      (InitializeMesh (traceEnv ℚ id fun _ _ => 0) 32 24 (sampleState ℚ)
        (sampleComposite ℚ)).1).2 =
      [.glBindVertexArray true, .glBufferData, .glBindVertexArray false] ∧
    PassEvent.glBufferData ∈
      (RenderFrame (traceEnv ℚ id fun _ _ => 0) 32 24 () (sampleContext ℚ 640 480)
        (RenderFrame (traceEnv ℚ id fun _ _ => 0) 32 24 () (sampleContext ℚ 640 480)
          (samplePreset ℚ id fun _ _ => 0)).1).2 :=
  ⟨rfl, rfl, rfl, rfl, rfl, rfl, by decide⟩

end CacheTheorems

section CompressedIndexTheorems
variable {K : Type} [LinearOrderedField K]

/-- On indices that are not negative the truncating division of the source is the
division of the natural numbers: `i2` is the folded index that `colU` casts. -/
theorem i2_natCast (N g : ℕ) : i2 (N : Int) (g : Int) = ((g - g / (N / 2) : ℕ) : Int) := by
  unfold i2
  have h2 : Int.tdiv (N : Int) 2 = ((N / 2 : ℕ) : Int) := by
    rw [Int.tdiv_eq_ediv (by omega) (by omega)]
    norm_cast
  rw [h2, Int.tdiv_eq_ediv (by omega) (by omega), ← Int.natCast_div,
    Nat.cast_sub (Nat.div_le_self _ _)]

/-- The folded index by cases: an index before the middle is kept, an index from
the middle on is lowered by one. -/
theorem i2_cases (N g : ℕ) (hN : 4 ≤ N) (hg : g < N) (he : N % 2 = 0) :
    i2 (N : Int) (g : Int) = if g < N / 2 then (g : Int) else (g : Int) - 1 := by
  rw [i2_natCast]
  split_ifs with h
  · rw [Nat.div_eq_of_lt h]
    simp
  · rw [Nat.div_eq_of_lt_le (by omega : 1 * (N / 2) ≤ g) (by omega)]
    omega

/-- The value `u` of the inner loop is `SquishToCenter` of `i2` times `dividedByX`,
with `i2` and `compositeGridWidth - 2` computed as `int`. -/
theorem colU_eq_i2 (N g : ℕ) (hN : 2 ≤ N) :
    (colU N g : K) =
      SquishToCenter (((i2 (N : Int) (g : Int) : Int) : K) *
        (1.0 / ((((N : Int) - 2 : Int)) : K))) 3 := by
  rw [i2_natCast]
  simp only [colU]
  push_cast [Nat.cast_sub hN]
  rfl

/-- The value `v` of the outer loop is `SquishToCenter` of `gridY2` times `dividedByY`,
with `gridY2` and `compositeGridHeight - 2` computed as `int`. -/
theorem rowV_eq_gridY2 (N g : ℕ) (hN : 2 ≤ N) :
    (rowV N g : K) =
      SquishToCenter (((gridY2 (N : Int) (g : Int) : Int) : K) *
        (1.0 / ((((N : Int) - 2 : Int)) : K))) 3 := by
  show _ = SquishToCenter (((i2 (N : Int) (g : Int) : Int) : K) * _) 3
  rw [i2_natCast]
  simp only [rowV]
  push_cast [Nat.cast_sub hN]
  rfl

/-- The values of `i2` that the seam needs, as integers. -/
theorem i2_values (N : ℕ) (hN : 4 ≤ N) (he : N % 2 = 0) :
    i2 (N : Int) ((0 : ℕ) : Int) = 0 ∧ i2 (N : Int) ((N - 1 : ℕ) : Int) = (N : Int) - 2 ∧
    2 * i2 (N : Int) ((N / 2 - 1 : ℕ) : Int) = (N : Int) - 2 ∧
    2 * i2 (N : Int) ((N / 2 : ℕ) : Int) = (N : Int) - 2 := by
  refine ⟨?_, ?_, ?_, ?_⟩
  · rw [i2_cases N _ hN (by omega) he]
    split_ifs <;> omega
  · rw [i2_cases N _ hN (by omega) he]
    split_ifs <;> omega
  · rw [i2_cases N _ hN (by omega) he]
    split_ifs <;> omega
  · rw [i2_cases N _ hN (by omega) he]
    split_ifs <;> omega

/-- `SquishToCenter` keeps the middle of the unit interval. -/
theorem SquishToCenter_half : SquishToCenter (1 / 2 : K) 3 = 1 / 2 := by
  unfold SquishToCenter
  norm_num

/-- An integer that is half of `N - 2`, times the reciprocal of `N - 2`, is 1/2. -/
theorem normalized_half (N : ℕ) (hN : 4 ≤ N) (i : Int) (hi : 2 * i = (N : Int) - 2) :
    (i : K) * (1.0 / (((N : Int) - 2 : Int) : K)) = 1 / 2 := by
  have hpos : (0 : K) < (((N : Int) - 2 : Int) : K) := by
    have : (0 : Int) < (N : Int) - 2 := by omega
    exact_mod_cast this
  rw [← hi] at hpos ⊢
  push_cast at hpos ⊢
  have : (i : K) ≠ 0 := by
    intro h
    rw [h] at hpos
    simp at hpos
  norm_num
  field_simp

/-- The values `u` and `v` of the vertex loops are 1/2 at both seam indices. -/
theorem colU_rowV_seam (N : ℕ) (hN : 4 ≤ N) (he : N % 2 = 0) :
    (colU N (N / 2 - 1) : K) = 1 / 2 ∧ (colU N (N / 2) : K) = 1 / 2 ∧
    (rowV N (N / 2 - 1) : K) = 1 / 2 ∧ (rowV N (N / 2) : K) = 1 / 2 := by
  obtain ⟨_, _, h2, h3⟩ := i2_values N hN he
  have hs := SquishToCenter_half (K := K)
  refine ⟨?_, ?_, ?_, ?_⟩
  · rw [colU_eq_i2 N _ (by omega), normalized_half N hN _ h2, hs]
  · rw [colU_eq_i2 N _ (by omega), normalized_half N hN _ h3, hs]
  · rw [rowV_eq_gridY2 N _ (by omega)]
    show SquishToCenter (((i2 (N : Int) ((N / 2 - 1 : ℕ) : Int) : Int) : K) * _) 3 = 1 / 2
    rw [normalized_half N hN _ h2, hs]
  · rw [rowV_eq_gridY2 N _ (by omega)]
    show SquishToCenter (((i2 (N : Int) ((N / 2 : ℕ) : Int) : Int) : K) * _) 3 = 1 / 2
    rw [normalized_half N hN _ h3, hs]

/-- When `InitializeMesh` builds the mesh for an even grid size of at least 4, the
vertices of the two seam columns have `u = 1/2` and `x = 0`, and the vertices of the
two seam rows have `v = 1/2` and `y = 0`. -/
theorem InitializeMesh_seam_position (E : Env K) (W H : ℕ) (presetState : PresetState K E.Audio)
    (self : FinalComposite K E.MilkdropShader)
    (hbuild : ¬(self.m_viewportWidth = presetState.renderContext.viewportSizeX ∧
      self.m_viewportHeight = presetState.renderContext.viewportSizeY))
    (hW : 4 ≤ W) (hWe : W % 2 = 0) (hH : 4 ≤ H) (hHe : H % 2 = 0)
    (gridX gridY : ℕ) (hX : gridX < W) (hY : gridY < H) :
    ((gridX = W / 2 - 1 ∨ gridX = W / 2) →
      ((InitializeMesh E W H presetState self).1.m_vertices (gridX + gridY * W)).u = 1 / 2 ∧
      ((InitializeMesh E W H presetState self).1.m_vertices (gridX + gridY * W)).x = 0) ∧
    ((gridY = H / 2 - 1 ∨ gridY = H / 2) →
      ((InitializeMesh E W H presetState self).1.m_vertices (gridX + gridY * W)).v = 1 / 2 ∧
      ((InitializeMesh E W H presetState self).1.m_vertices (gridX + gridY * W)).y = 0) := by
  rw [InitializeMesh_vertex E W H presetState self gridX gridY hbuild hX hY]
  obtain ⟨c1, c2, _, _⟩ := colU_rowV_seam (K := K) W hW hWe
  obtain ⟨_, _, r1, r2⟩ := colU_rowV_seam (K := K) H hH hHe
  simp only [writeVertex]
  constructor
  · rintro (rfl | rfl)
    · rw [c1]
      norm_num
    · rw [c2]
      norm_num
  · rintro (rfl | rfl)
    · rw [r1]
      norm_num
    · rw [r2]
      norm_num

/-- C21. For every even `N` of at least 4 (the grid width or height) and every grid
index `g` below `N`, the compressed index `i2` of the vertex loops (`gridY2` for the
rows, the same expression) lies in [0, N-2], does not decrease with `g`, and is the
same for two different indices exactly at the two seam indices `N/2-1` and `N/2`.
The normalized coordinate, `i2` times the reciprocal of `N-2`, is 0 at the first
index, 1 at the last and 1/2 at both seam indices; `SquishToCenter(1/2, 3)` is 1/2,
so the screen positions `u * 2 - 1` and `-(v * 2 - 1)` are 0 on both seam lines. -/
theorem InitializeMesh_compressed_index (N : ℕ) (hN : 4 ≤ N) (he : N % 2 = 0) :
    (∀ g : ℕ, g < N → 0 ≤ i2 (N : Int) (g : Int) ∧ i2 (N : Int) (g : Int) ≤ (N : Int) - 2 ∧
      gridY2 (N : Int) (g : Int) = i2 (N : Int) (g : Int)) ∧
    (∀ g g2 : ℕ, g ≤ g2 → g2 < N → i2 (N : Int) (g : Int) ≤ i2 (N : Int) (g2 : Int)) ∧
    (∀ g g2 : ℕ, g < g2 → g2 < N →
      (i2 (N : Int) (g : Int) = i2 (N : Int) (g2 : Int) ↔ g = N / 2 - 1 ∧ g2 = N / 2)) ∧
    ((i2 (N : Int) ((0 : ℕ) : Int) : Int) : K) * (1.0 / (((N : Int) - 2 : Int) : K)) = 0 ∧
    ((i2 (N : Int) ((N - 1 : ℕ) : Int) : Int) : K) * (1.0 / (((N : Int) - 2 : Int) : K)) = 1 ∧
    ((i2 (N : Int) ((N / 2 - 1 : ℕ) : Int) : Int) : K) * (1.0 / (((N : Int) - 2 : Int) : K)) =
      1 / 2 ∧
    ((i2 (N : Int) ((N / 2 : ℕ) : Int) : Int) : K) * (1.0 / (((N : Int) - 2 : Int) : K)) =
      1 / 2 ∧
    SquishToCenter (1 / 2 : K) 3 = 1 / 2 ∧
    (colU N (N / 2 - 1) : K) * 2 - 1 = 0 ∧ (colU N (N / 2) : K) * 2 - 1 = 0 ∧
    -((rowV N (N / 2 - 1) : K) * 2 - 1) = 0 ∧ -((rowV N (N / 2) : K) * 2 - 1) = 0 := by
  obtain ⟨h0, h1, h2, h3⟩ := i2_values N hN he
  obtain ⟨c1, c2, r1, r2⟩ := colU_rowV_seam (K := K) N hN he
  have hpos : (0 : K) < (((N : Int) - 2 : Int) : K) := by
    have : (0 : Int) < (N : Int) - 2 := by omega
    exact_mod_cast this
  refine ⟨?_, ?_, ?_, ?_, ?_, normalized_half N hN _ h2, normalized_half N hN _ h3,
    SquishToCenter_half, ?_, ?_, ?_, ?_⟩
  · intro g hg
    refine ⟨?_, ?_, rfl⟩
    · rw [i2_cases N g hN hg he]
      split_ifs <;> omega
    · rw [i2_cases N g hN hg he]
      split_ifs <;> omega
  · intro g g2 hle hg2
    rw [i2_cases N g hN (by omega) he, i2_cases N g2 hN hg2 he]
    split_ifs <;> omega
  · intro g g2 hlt hg2
    rw [i2_cases N g hN (by omega) he, i2_cases N g2 hN hg2 he]
    split_ifs <;> omega
  · rw [h0]
    simp
  · rw [h1]
    norm_num
    exact mul_inv_cancel₀ (by simpa using hpos.ne')
  · rw [c1]
    norm_num
  · rw [c2]
    norm_num
  · rw [r1]
    norm_num
  · rw [r2]
    norm_num

/-- C21 on the axis of 4 vertices: the indices 1 and 2 are the seam, both with the
compressed index 1 and the normalized coordinate 1/2; the indices 0 and 1 differ. -/
theorem InitializeMesh_compressed_index_witness :
    4 ≤ 4 ∧ 4 % 2 = 0 ∧ i2 ((4 : ℕ) : Int) ((1 : ℕ) : Int) = i2 ((4 : ℕ) : Int) ((2 : ℕ) : Int) ∧
    ((i2 ((4 : ℕ) : Int) ((4 / 2 : ℕ) : Int) : Int) : ℚ) *
      (1.0 / ((((4 : ℕ) : Int) - 2 : Int) : ℚ)) = 1 / 2 ∧
    (colU 4 (4 / 2) : ℚ) * 2 - 1 = 0 :=
  have h := InitializeMesh_compressed_index (K := ℚ) 4 (by decide) (by decide)
  ⟨by decide, by decide, (h.2.2.1 1 2 (by decide) (by decide)).mpr ⟨by decide, by decide⟩,
    h.2.2.2.2.2.2.1, h.2.2.2.2.2.2.2.2.2.1⟩

end CompressedIndexTheorems

section FilenameTheorems

/-- The scan answers `npos` when no position below the bound holds the character. -/
theorem find_last_of_below_none (str : List Char) (ch : Char) (n : ℕ)
    (h : ∀ j, j < n → str[j]? ≠ some ch) : find_last_of_below str ch n = npos := by
  induction n with
  | zero => rfl
  | succ n ih =>
    rw [find_last_of_below, if_neg (h n (by omega))]
    exact ih fun j hj => h j (by omega)

/-- The scan answers the position below the bound that holds the character and has
no later such position below the bound. -/
theorem find_last_of_below_found (str : List Char) (ch : Char) (k n : ℕ) (hk : k < n)
    (hat : str[k]? = some ch) (h : ∀ j, k < j → j < n → str[j]? ≠ some ch) :
    find_last_of_below str ch n = k := by
  induction n with
  | zero => omega
  | succ n ih =>
    rw [find_last_of_below]
    split_ifs with hn
    · by_contra hne
      exact h n (by omega) (by omega) hn
    · have hkn : k ≠ n := fun e => hn (e ▸ hat)
      exact ih (by omega) fun j h1 h2 => h j h1 (by omega)

/-- The answer of `find_last_of` for a character that the string does not hold is
`npos`. -/
theorem find_last_of_not_mem (str : List Char) (ch : Char) (h : ch ∉ str) :
    find_last_of str ch = npos :=
  find_last_of_below_none str ch _ fun j _ hj => h (List.mem_iff_getElem?.mpr ⟨j, hj⟩)

/-- The answer of `find_last_of` is the position of the occurrence that no other
occurrence follows. -/
theorem find_last_of_split (pre rest : List Char) (ch : Char) (h : ch ∉ rest) :
    find_last_of (pre ++ ch :: rest) ch = pre.length := by
  apply find_last_of_below_found
  · simp
  · rw [List.getElem?_append_right (le_refl _)]
    simp
  · intro j hj _ hat
    rw [List.getElem?_append_right (by omega)] at hat
    obtain ⟨i, hi⟩ : ∃ i, j - pre.length = i + 1 := ⟨j - pre.length - 1, by omega⟩
    rw [hi, List.getElem?_cons_succ] at hat
    exact h (List.mem_iff_getElem?.mpr ⟨i, hat⟩)

/-- A string that holds a character splits at the last occurrence of it. -/
theorem exists_last_split (l : List Char) (ch : Char) (h : ch ∈ l) :
    ∃ pre rest, l = pre ++ ch :: rest ∧ ch ∉ rest := by
  obtain ⟨as, bs, e, hn⟩ := List.eq_append_cons_of_mem (List.mem_reverse.mpr h)
  refine ⟨bs.reverse, as.reverse, ?_, by simpa using hn⟩
  have := congrArg List.reverse e
  simpa using this

/-- The function `ParseFilename` on a path split at its last slash: what follows the
slash is returned. -/
theorem ParseFilename_split (pre rest : List Char) (h : '/' ∉ rest)
    (hlen : (pre ++ '/' :: rest).length < npos) :
    ParseFilename (pre ++ '/' :: rest) = .ok rest := by
  have hl : (pre ++ '/' :: rest).length = pre.length + rest.length + 1 := by
    simp
    omega
  rw [hl] at hlen
  have hn : npos = 2 ^ 64 - 1 := rfl
  simp only [ParseFilename, find_last_of_split pre rest '/' h, hl]
  have e1 : (pre.length + rest.length + 1 + 2 ^ 64 - 1) % 2 ^ 64 = pre.length + rest.length := by
    omega
  have e2 : (pre.length + 1) % 2 ^ 64 = pre.length + 1 := by omega
  rw [e1, e2]
  cases rest with
  | nil => simp
  | cons x xs =>
    rw [if_neg (by simp; omega)]
    simp only [substr, hl]
    rw [if_neg (by omega)]
    have : List.drop (pre.length + 1) (pre ++ '/' :: x :: xs) = x :: xs := by
      rw [List.drop_append_eq_append_drop]
      simp
    rw [this, List.take_of_length_le (by simp; omega)]

/-- C22. For every path, a string shorter than `npos`, `ParseFilename` returns
without throwing: the empty string when the path holds no slash or when its last
character is a slash (the empty path included), and otherwise a string that is not
empty, holds no slash, and follows a slash at the end of the path. -/
theorem ParseFilename_spec (filename : List Char) (hlen : filename.length < npos) :
    ParseFilename [] = .ok [] ∧
    (('/' ∉ filename ∨ filename.getLast? = some '/') → ParseFilename filename = .ok []) ∧
    (¬('/' ∉ filename ∨ filename.getLast? = some '/') →
      ∃ result, ParseFilename filename = .ok result ∧ result ≠ [] ∧ '/' ∉ result ∧
        ∃ pre, filename = pre ++ '/' :: result) := by
  refine ⟨rfl, ?_, ?_⟩
  · rintro (h | h)
    · simp only [ParseFilename, find_last_of_not_mem filename '/' h]
      simp
    · obtain ⟨pre, rfl⟩ := List.getLast?_eq_some_iff.mp h
      exact ParseFilename_split pre [] (by simp) hlen
  · intro h
    rw [not_or, not_not] at h
    obtain ⟨pre, rest, rfl, hr⟩ := exists_last_split filename '/' h.1
    refine ⟨rest, ParseFilename_split pre rest hr hlen, ?_, hr, pre, rfl⟩
    rintro rfl
    exact h.2 (by simp)

/-- C22 on the path `presets/a.milk`, which is shorter than `npos`, holds a slash and
does not end in one. -/
theorem ParseFilename_spec_witness :
    ['p', 'r', 'e', 's', 'e', 't', 's', '/', 'a', '.', 'm', 'i', 'l', 'k'].length < npos ∧
    ∃ result, ParseFilename ['p', 'r', 'e', 's', 'e', 't', 's', '/', 'a', '.', 'm', 'i', 'l', 'k'] =
        .ok result ∧ result ≠ [] ∧ '/' ∉ result ∧
      ∃ pre, ['p', 'r', 'e', 's', 'e', 't', 's', '/', 'a', '.', 'm', 'i', 'l', 'k'] =
        pre ++ '/' :: result :=
  ⟨by decide,
    (ParseFilename_spec ['p', 'r', 'e', 's', 'e', 't', 's', '/', 'a', '.', 'm', 'i', 'l', 'k']
      (by decide)).2.2 (by decide)⟩

/-- The function `ParseFilename` on five paths: a file in a directory, a bare name,
a directory with a slash at its end, the root, and the empty path. -/
theorem ParseFilename_examples :
    ParseFilename ['a', '/', 'b', '/', 'c', '.', 'm'] = .ok ['c', '.', 'm'] ∧
    ParseFilename ['c', '.', 'm'] = .ok [] ∧
    ParseFilename ['a', '/'] = .ok [] ∧
    ParseFilename ['/'] = .ok [] ∧
    ParseFilename [] = .ok [] :=
  ⟨rfl, rfl, rfl, rfl, rfl⟩

end FilenameTheorems

end ProjectM
